import Mathlib

/-!
The ai-agent-gateway, `src/index.js`: the response formatter, the billing
client, the intent extractor and the `/chat` handler that chains them.

A shallow embedding of `calculateDueDate`, `generateUserFriendlyMessage`,
`callMidtermApi`, `analyzeIntent` and the `/chat` handler together with the part
of JavaScript they rely on: the Number type (IEEE-754 binary64, modelled exactly
by rationals plus NaN and the two infinities), `parseInt`, `parseFloat`,
`Number.prototype.toFixed`, Number-to-String,
`String.prototype.split/trim/toLowerCase/startsWith`, `JSON.parse` and
`JSON.stringify`.

Modelling conventions.
* A JavaScript string is a Lean `String` (a sequence of Unicode scalar values);
  lone surrogates are not represented.
* `undefined` is `none` of an `Option`.
* A finite Number is the rational it denotes.  `-0` is identified with `0`:
  the program only feeds Numbers to `+`, `-`, `>`, `===`, `||`, `toFixed`,
  string conversion and property lookup, none of which tells them apart.
* A thrown `TypeError` is `Except.error JSError.typeError`.
* An HTTP request made through `axios` is a function argument that tells what
  awaiting the request gives; the functions are otherwise synchronous.
-/

namespace Gateway

/-! ## Numbers -/

/-- A JavaScript Number: a binary64 value. `fin q` is the finite value `q`. -/
inductive JSNumber where
  | nan
  | posInf
  | negInf
  | fin (q : ℚ)
  deriving DecidableEq

/-- The rational `2 ^ e` for an integer exponent. -/
def pow2 (e : Int) : ℚ :=
  if 0 ≤ e then ((2 ^ e.toNat : Nat) : ℚ) else 1 / ((2 ^ (-e).toNat : Nat) : ℚ)

/-- The rational `10 ^ e` for an integer exponent. -/
def pow10 (e : Int) : ℚ :=
  if 0 ≤ e then ((10 ^ e.toNat : Nat) : ℚ) else 1 / ((10 ^ (-e).toNat : Nat) : ℚ)

/-- Worker of `natLog2`: halve until below two; the fuel bounds the halvings. -/
def natLog2Aux : Nat → Nat → Nat
  | 0, _ => 0
  | fuel + 1, n => if n < 2 then 0 else natLog2Aux fuel (n / 2) + 1

/-- The base-two logarithm of a positive natural, rounded down. -/
def natLog2 (n : Nat) : Nat := natLog2Aux n n

/-- For `a > 0`: the integer `e` with `2 ^ e ≤ a < 2 ^ (e + 1)`. -/
def ilog2 (a : ℚ) : Int :=
  let e0 : Int := (natLog2 a.num.natAbs : Int) - (natLog2 a.den : Int)
  if a < pow2 e0 then e0 - 1 else e0

/-- Round a non-negative rational to the nearest natural, ties to even. -/
def roundHalfEven (x : ℚ) : Nat :=
  let f : Nat := (Rat.floor x).toNat
  let r : ℚ := x - (f : ℚ)
  if r < 1 / 2 then f
  else if 1 / 2 < r then f + 1
  else if f % 2 = 0 then f else f + 1

/-- Round a positive rational to binary64 (round to nearest, ties to even):
53 significant bits, least exponent `-1074`, overflow at `2 ^ 1024`. -/
def roundPos (a : ℚ) : Option ℚ :=
  let p : Int := max (ilog2 a - 52) (-1074)
  let v : ℚ := (roundHalfEven (a / pow2 p) : ℚ) * pow2 p
  if pow2 1024 ≤ v then none else some v

/-- The Number value of a real: integers of magnitude at most `2 ^ 53` are
exact, every other rational is rounded to binary64. -/
def roundQ (q : ℚ) : JSNumber :=
  if q.den = 1 ∧ q.num.natAbs ≤ 2 ^ 53 then .fin q
  else if 0 < q then
    match roundPos q with
    | some v => .fin v
    | none => .posInf
  else
    match roundPos (-q) with
    | some v => .fin (-v)
    | none => .negInf

/-- JavaScript `a + b` on Numbers. -/
def JSNumber.add : JSNumber → JSNumber → JSNumber
  | .nan, _ => .nan
  | _, .nan => .nan
  | .posInf, .negInf => .nan
  | .negInf, .posInf => .nan
  | .posInf, _ => .posInf
  | _, .posInf => .posInf
  | .negInf, _ => .negInf
  | _, .negInf => .negInf
  | .fin a, .fin b => roundQ (a + b)

/-- JavaScript unary minus on Numbers. -/
def JSNumber.neg : JSNumber → JSNumber
  | .nan => .nan
  | .posInf => .negInf
  | .negInf => .posInf
  | .fin a => .fin (-a)

/-- JavaScript `a - b` on Numbers. -/
def JSNumber.sub (a b : JSNumber) : JSNumber := a.add b.neg

/-- JavaScript `a > b` on Numbers (false as soon as one side is NaN). -/
def JSNumber.gt : JSNumber → JSNumber → Bool
  | .nan, _ => false
  | _, .nan => false
  | .posInf, .posInf => false
  | .posInf, _ => true
  | _, .posInf => false
  | .negInf, _ => false
  | _, .negInf => true
  | .fin a, .fin b => decide (b < a)

/-- JavaScript `ToBoolean` on Numbers: `0` and `NaN` are falsy. -/
def JSNumber.truthy : JSNumber → Bool
  | .nan => false
  | .fin q => decide (q ≠ 0)
  | _ => true

/-- JavaScript `a === b` on Numbers: `NaN` equals nothing. -/
def JSNumber.strictEq : JSNumber → JSNumber → Bool
  | .nan, _ => false
  | _, .nan => false
  | a, b => decide (a = b)

/-- The Number denoted by a small natural literal of the source. -/
def JSNumber.ofNat (n : Nat) : JSNumber := .fin (n : ℚ)

/-! ## Strings -/

/-- The code points JavaScript counts as white space or line terminator; they
are what `trim`, `parseInt` and `parseFloat` strip. -/
def isJSWhiteSpace (c : Char) : Bool :=
  let n := c.toNat
  n == 0x09 || n == 0x0A || n == 0x0B || n == 0x0C || n == 0x0D || n == 0x20 ||
  n == 0xA0 || n == 0x1680 || (0x2000 ≤ n && n ≤ 0x200A) || n == 0x2028 ||
  n == 0x2029 || n == 0x202F || n == 0x205F || n == 0x3000 || n == 0xFEFF

/-- JavaScript `s.trim()`. -/
def jsTrim (s : String) : String :=
  ⟨((s.data.dropWhile isJSWhiteSpace).reverse.dropWhile isJSWhiteSpace).reverse⟩

/-- Cut a character list at every occurrence of `sep`; never empty. -/
def splitOnChar (sep : Char) : List Char → List (List Char)
  | [] => [[]]
  | c :: cs =>
    match splitOnChar sep cs with
    | [] => [[c]]
    | p :: ps => if c = sep then [] :: p :: ps else (c :: p) :: ps

/-- JavaScript `s.split(sep)` for a one-character separator. -/
def jsSplit (s : String) (sep : Char) : List String :=
  (splitOnChar sep s.data).map String.mk

/-- JavaScript `s.toLowerCase()`, on the ASCII letters.  The result is only ever
used as a key of `monthMap`; the one non-ASCII code point whose lower case is an
ASCII letter is U+212A (to `k`), and no key of `monthMap` or of
`Object.prototype` that the lookup can reach contains a `k`. -/
def jsToLowerCase (s : String) : String := ⟨s.data.map Char.toLower⟩

/-- JavaScript `s.startsWith(p)`. -/
def jsStartsWith (s p : String) : Bool := p.data.isPrefixOf s.data

/-- The text of an optional string inside a template literal: `undefined` prints
as the word. -/
def optText : Option String → String
  | some s => s
  | none => "undefined"

/-- Whether a character is a decimal digit. -/
def isDecDigit (c : Char) : Bool := 48 ≤ c.toNat && c.toNat ≤ 57

/-- The value of a digit in radix 16 (also used for radix 10). -/
def hexDigitVal (c : Char) : Option Nat :=
  let n := c.toNat
  if 48 ≤ n && n ≤ 57 then some (n - 48)
  else if 97 ≤ n && n ≤ 102 then some (n - 87)
  else if 65 ≤ n && n ≤ 70 then some (n - 55)
  else none

/-- Whether a character is a digit of the radix (10 or 16). -/
def isRadixDigit (radix : Nat) (c : Char) : Bool :=
  if radix = 16 then (hexDigitVal c).isSome else isDecDigit c

/-- The natural number written by a run of digits in the given radix. -/
def digitsValue (radix : Nat) (ds : List Char) : Nat :=
  ds.foldl (fun acc c => radix * acc + (hexDigitVal c).getD 0) 0

/-- Split an optional leading sign off: `true` for a minus. -/
def takeSign : List Char → Bool × List Char
  | [] => (false, [])
  | c :: r => if c = '-' then (true, r) else if c = '+' then (false, r) else (false, c :: r)

/-- The Number with the given sign and magnitude. -/
def signedNumber (neg : Bool) (q : ℚ) : JSNumber :=
  roundQ (if neg then -q else q)

/-- JavaScript `parseInt(s)` without a radix argument: leading white space is
skipped, a sign is read, a `0x` or `0X` mark switches to radix 16, and the
longest run of digits is read; no digit gives `NaN`. -/
def parseIntChars (s : List Char) : JSNumber :=
  let t := takeSign (s.dropWhile isJSWhiteSpace)
  let rt : Nat × List Char :=
    match t.2 with
    | c :: d :: r => if c = '0' ∧ (d = 'x' ∨ d = 'X') then (16, r) else (10, c :: d :: r)
    | r => (10, r)
  let ds := rt.2.takeWhile (isRadixDigit rt.1)
  if ds.isEmpty then .nan else signedNumber t.1 (digitsValue rt.1 ds)

/-- JavaScript `parseInt` of a string. -/
def jsParseInt (s : String) : JSNumber := parseIntChars s.data

/-- The exponent written after a mantissa: `e` or `E`, an optional sign and at
least one digit; anything else is no exponent part at all. -/
def exponentPart : List Char → Int
  | c :: r =>
    if c = 'e' ∨ c = 'E' then
      let t := takeSign r
      let ds := t.2.takeWhile isDecDigit
      if ds.isEmpty then 0
      else if t.1 then -(digitsValue 10 ds : Int) else (digitsValue 10 ds : Int)
    else 0
  | [] => 0

/-- JavaScript `parseFloat(s)`: the longest prefix that is a decimal literal
(after leading white space), `NaN` when there is none. -/
def parseFloatChars (s : List Char) : JSNumber :=
  let t := takeSign (s.dropWhile isJSWhiteSpace)
  if "Infinity".data.isPrefixOf t.2 then (if t.1 then .negInf else .posInf)
  else
    let intDs := t.2.takeWhile isDecDigit
    let r1 := t.2.dropWhile isDecDigit
    let fr : List Char × List Char :=
      match r1 with
      | c :: r =>
        if c = '.' then (r.takeWhile isDecDigit, r.dropWhile isDecDigit) else ([], c :: r)
      | [] => ([], [])
    if intDs.isEmpty && fr.1.isEmpty then .nan
    else
      signedNumber t.1
        ((digitsValue 10 (intDs ++ fr.1) : ℚ) * pow10 (exponentPart fr.2 - fr.1.length))

/-- JavaScript `parseFloat` of a string. -/
def jsParseFloat (s : String) : JSNumber := parseFloatChars s.data

/-! ## Numbers as text -/

/-- For `a > 0`: the integer `n` with `10 ^ (n - 1) ≤ a < 10 ^ n`. -/
def decExponent (a : ℚ) : Int :=
  let n0 : Int :=
    ((Nat.toDigits 10 a.num.natAbs).length : Int) - ((Nat.toDigits 10 a.den).length : Int)
  if a < pow10 n0 then n0 else n0 + 1

/-- The digit search of Number-to-String for a positive binary64 value `q` with
decimal exponent `n`: the least digit count `k` (tried upwards from the given
one) for which some `s` of `k` digits has `s * 10 ^ (n - k)` round to `q`; of the
two neighbours of `q` the closer one is taken, the even one on a tie.  The result
is `s` with its decimal exponent.  Seventeen digits always suffice. -/
def shortestDigitsAux (q : ℚ) (n : Int) : Nat → Nat → Nat × Int
  | 0, k => ((Rat.floor (q / pow10 (n - k))).toNat, n)
  | fuel + 1, k =>
    let scale : ℚ := pow10 (n - k)
    let lo : Nat := (Rat.floor (q / scale)).toNat
    let okLo : Bool := decide (roundQ ((lo : ℚ) * scale) = .fin q)
    let okHi : Bool := decide (roundQ (((lo + 1 : Nat) : ℚ) * scale) = .fin q)
    let dLo : ℚ := q - (lo : ℚ) * scale
    let dHi : ℚ := ((lo + 1 : Nat) : ℚ) * scale - q
    let pick : Option Nat :=
      if okLo && okHi then
        (if dLo < dHi then some lo
         else if dHi < dLo then some (lo + 1)
         else if lo % 2 = 0 then some lo else some (lo + 1))
      else if okLo then some lo
      else if okHi then some (lo + 1)
      else none
    match pick with
    | some s => if s = 10 ^ k then (10 ^ (k - 1), n + 1) else (s, n)
    | none => shortestDigitsAux q n fuel (k + 1)

/-- The digits `s` and decimal exponent `n` Number-to-String prints for a
positive binary64 value. -/
def shortestDigits (q : ℚ) : Nat × Int :=
  shortestDigitsAux q (decExponent q) 17 1

/-- Lay out the digits `ds` of `s` with decimal exponent `n` the way
Number-to-String does: plain digits up to `10 ^ 21`, a leading `0.` down to
`10 ^ -7`, exponent notation beyond. -/
def formatDigits (ds : List Char) (n : Int) : String :=
  let k : Int := ds.length
  if k ≤ n ∧ n ≤ 21 then ⟨ds ++ List.replicate (n - k).toNat '0'⟩
  else if 0 < n ∧ n ≤ 21 then ⟨ds.take n.toNat ++ '.' :: ds.drop n.toNat⟩
  else if -6 < n ∧ n ≤ 0 then ⟨'0' :: '.' :: List.replicate (-n).toNat '0' ++ ds⟩
  else
    let e : Int := n - 1
    let es : String := (if e < 0 then "-" else "+") ++ Nat.repr e.natAbs
    match ds with
    | [] => "e" ++ es
    | [d] => ⟨[d]⟩ ++ "e" ++ es
    | d :: rest => ⟨d :: '.' :: rest⟩ ++ "e" ++ es

/-- Number-to-String of a positive finite value: an integer below `2 ^ 53`
prints as its decimal numeral, any other value through the digit search. -/
def posToString (a : ℚ) : String :=
  if a.den = 1 ∧ a.num.natAbs < 2 ^ 53 then Nat.repr a.num.natAbs
  else
    let sn := shortestDigits a
    formatDigits (Nat.toDigits 10 sn.1) sn.2

/-- JavaScript `String(x)` for a Number, as in a template literal. -/
def numToString : JSNumber → String
  | .nan => "NaN"
  | .posInf => "Infinity"
  | .negInf => "-Infinity"
  | .fin q =>
    if q = 0 then "0"
    else if q < 0 then "-" ++ posToString (-q)
    else posToString q

/-- JavaScript `x.toFixed(f)`: a non-finite value prints as by `String`, a
magnitude of `10 ^ 21` or more too; otherwise the nearest multiple of `10 ^ -f`
(the larger on a tie, on the magnitude) is printed with exactly `f` decimals. -/
def toFixed (x : JSNumber) (f : Nat) : String :=
  match x with
  | .fin q =>
    let sgn : String := if q < 0 then "-" else ""
    let a : ℚ := if q < 0 then -q else q
    if pow10 21 ≤ a then sgn ++ posToString a
    else
      let n : Nat := (Rat.floor (a * (10 ^ f : Nat) + 1 / 2)).toNat
      if f = 0 then sgn ++ Nat.repr n
      else
        let fr : List Char := Nat.toDigits 10 (n % 10 ^ f)
        sgn ++ Nat.repr (n / 10 ^ f) ++ "." ++
          ⟨List.replicate (f - fr.length) '0' ++ fr⟩
  | other => numToString other

/-! ## The month tables and `calculateDueDate` -/

/-- A value `monthMap[key] || parseInt(month)` can be: a Number, or one of the
two members every object literal inherits under an all-lower-case name, the
function `Object` (as `constructor`) and the object `Object.prototype` (as
`__proto__`). -/
inductive MonthValue where
  | num (n : JSNumber)
  | objectCtor
  | objectProto
  deriving DecidableEq

/-- The object literal `monthMap` as a lookup `monthMap[key]`; `none` is
`undefined`. -/
def monthMap (key : String) : Option MonthValue :=
  if key = "january" then some (.num (.ofNat 1))
  else if key = "february" then some (.num (.ofNat 2))
  else if key = "march" then some (.num (.ofNat 3))
  else if key = "april" then some (.num (.ofNat 4))
  else if key = "may" then some (.num (.ofNat 5))
  else if key = "june" then some (.num (.ofNat 6))
  else if key = "july" then some (.num (.ofNat 7))
  else if key = "august" then some (.num (.ofNat 8))
  else if key = "september" then some (.num (.ofNat 9))
  else if key = "october" then some (.num (.ofNat 10))
  else if key = "november" then some (.num (.ofNat 11))
  else if key = "december" then some (.num (.ofNat 12))
  else if key = "constructor" then some .objectCtor
  else if key = "__proto__" then some .objectProto
  else none

/-- The array literal `monthNames`. -/
def monthNames : List String :=
  ["", "January", "February", "March", "April", "May", "June", "July", "August",
   "September", "October", "November", "December"]

/-- The lookup `monthNames[n]` for a Number `n`: an element for an integer
index, `undefined` for anything else. -/
def monthNamesAt : JSNumber → Option String
  | .fin q => if q.den = 1 ∧ 0 ≤ q.num then monthNames.get? q.num.toNat else none
  | _ => none

/-- The string a `MonthValue` converts to (as `parseInt` and a property key do). -/
def MonthValue.text : MonthValue → String
  | .num n => numToString n
  | .objectCtor => "function Object() \x7b [native code] \x7d"
  | .objectProto => "[object Object]"

/-- The lookup `monthNames[v]`: the function `Object` and `Object.prototype`
convert to keys that name nothing in an array. -/
def monthNamesAtValue : MonthValue → Option String
  | .num n => monthNamesAt n
  | _ => none

/-- The function `calculateDueDate(monthNumber, year)` of `src/index.js`; `year` is a
string or `undefined`. -/
def calculateDueDate (monthNumber : MonthValue) (year : Option String) : String :=
  let nextMonth := (jsParseInt monthNumber.text).add (.ofNat 1)
  let nextYear := jsParseInt (optText year)
  let rolled : JSNumber × JSNumber :=
    if nextMonth.gt (.ofNat 12) then (.ofNat 1, nextYear.add (.ofNat 1))
    else (nextMonth, nextYear)
  let monthName := monthNamesAt rolled.1
  optText monthName ++ " 10, " ++ numToString rolled.2

/-- The English name of the `k`-th month of the year, `k` from 1 to 12. -/
def englishMonthName : Nat → String
  | 1 => "January"
  | 2 => "February"
  | 3 => "March"
  | 4 => "April"
  | 5 => "May"
  | 6 => "June"
  | 7 => "July"
  | 8 => "August"
  | 9 => "September"
  | 10 => "October"
  | 11 => "November"
  | 12 => "December"
  | _ => ""

/-! ## JSON values and `JSON.parse` -/

/-- A value `JSON.parse` can produce. The members of an object are kept in the
order of the text, duplicates included (a lookup takes the last). -/
inductive JVal where
  | null
  | bool (b : Bool)
  | num (n : JSNumber)
  | str (s : String)
  | arr (items : List JVal)
  | obj (members : List (String × JVal))

mutual
/-- Decide equality of two JSON values. -/
def JVal.decEq : (a b : JVal) → Decidable (a = b)
  | .null, .null => isTrue rfl
  | .bool x, .bool y =>
    if h : x = y then isTrue (by rw [h]) else isFalse (by intro e; cases e; exact h rfl)
  | .num x, .num y =>
    if h : x = y then isTrue (by rw [h]) else isFalse (by intro e; cases e; exact h rfl)
  | .str x, .str y =>
    if h : x = y then isTrue (by rw [h]) else isFalse (by intro e; cases e; exact h rfl)
  | .arr x, .arr y =>
    match decEqItems x y with
    | isTrue h => isTrue (by rw [h])
    | isFalse h => isFalse (by intro e; cases e; exact h rfl)
  | .obj x, .obj y =>
    match decEqMembers x y with
    | isTrue h => isTrue (by rw [h])
    | isFalse h => isFalse (by intro e; cases e; exact h rfl)
  | .null, .bool _ => isFalse (by intro e; cases e)
  | .null, .num _ => isFalse (by intro e; cases e)
  | .null, .str _ => isFalse (by intro e; cases e)
  | .null, .arr _ => isFalse (by intro e; cases e)
  | .null, .obj _ => isFalse (by intro e; cases e)
  | .bool _, .null => isFalse (by intro e; cases e)
  | .bool _, .num _ => isFalse (by intro e; cases e)
  | .bool _, .str _ => isFalse (by intro e; cases e)
  | .bool _, .arr _ => isFalse (by intro e; cases e)
  | .bool _, .obj _ => isFalse (by intro e; cases e)
  | .num _, .null => isFalse (by intro e; cases e)
  | .num _, .bool _ => isFalse (by intro e; cases e)
  | .num _, .str _ => isFalse (by intro e; cases e)
  | .num _, .arr _ => isFalse (by intro e; cases e)
  | .num _, .obj _ => isFalse (by intro e; cases e)
  | .str _, .null => isFalse (by intro e; cases e)
  | .str _, .bool _ => isFalse (by intro e; cases e)
  | .str _, .num _ => isFalse (by intro e; cases e)
  | .str _, .arr _ => isFalse (by intro e; cases e)
  | .str _, .obj _ => isFalse (by intro e; cases e)
  | .arr _, .null => isFalse (by intro e; cases e)
  | .arr _, .bool _ => isFalse (by intro e; cases e)
  | .arr _, .num _ => isFalse (by intro e; cases e)
  | .arr _, .str _ => isFalse (by intro e; cases e)
  | .arr _, .obj _ => isFalse (by intro e; cases e)
  | .obj _, .null => isFalse (by intro e; cases e)
  | .obj _, .bool _ => isFalse (by intro e; cases e)
  | .obj _, .num _ => isFalse (by intro e; cases e)
  | .obj _, .str _ => isFalse (by intro e; cases e)
  | .obj _, .arr _ => isFalse (by intro e; cases e)
/-- Decide equality of two lists of JSON values. -/
def decEqItems : (a b : List JVal) → Decidable (a = b)
  | [], [] => isTrue rfl
  | [], _ :: _ => isFalse (by intro e; cases e)
  | _ :: _, [] => isFalse (by intro e; cases e)
  | x :: xs, y :: ys =>
    match JVal.decEq x y, decEqItems xs ys with
    | isTrue h, isTrue t => isTrue (by rw [h, t])
    | isFalse h, _ => isFalse (by intro e; cases e; exact h rfl)
    | _, isFalse t => isFalse (by intro e; cases e; exact t rfl)
/-- Decide equality of two member lists of JSON objects. -/
def decEqMembers : (a b : List (String × JVal)) → Decidable (a = b)
  | [], [] => isTrue rfl
  | [], _ :: _ => isFalse (by intro e; cases e)
  | _ :: _, [] => isFalse (by intro e; cases e)
  | (k, x) :: xs, (l, y) :: ys =>
    if hk : k = l then
      match JVal.decEq x y, decEqMembers xs ys with
      | isTrue h, isTrue t => isTrue (by rw [hk, h, t])
      | isFalse h, _ => isFalse (by intro e; cases e; exact h rfl)
      | _, isFalse t => isFalse (by intro e; cases e; exact t rfl)
    else isFalse (by intro e; cases e; exact hk rfl)
end

instance : DecidableEq JVal := JVal.decEq

/-- A thrown JavaScript exception. -/
inductive JSError where
  | typeError
  deriving DecidableEq

deriving instance DecidableEq for Except

/-- The white space of the JSON grammar. -/
def isJsonWs (c : Char) : Bool := c = ' ' || c = '\t' || c = '\n' || c = '\r'

/-- Drop leading JSON white space. -/
def skipWs (cs : List Char) : List Char := cs.dropWhile isJsonWs

/-- Combine UTF-16 code units written as `\uXXXX` escapes into characters: a high
surrogate followed by a low one is one code point; a lone surrogate, which a
Lean string cannot hold, is replaced by U+FFFD. JavaScript keeps a lone
surrogate as it is, so a string read from such an escape is exact here only up
to that replacement; on a text without surrogate escapes
(`surrogateEscapeFree`) every string is exact. -/
def combineUnits : List Nat → List Char
  | [] => []
  | [a] => [if 0xD800 ≤ a ∧ a ≤ 0xDFFF then Char.ofNat 0xFFFD else Char.ofNat a]
  | a :: b :: r =>
    if 0xD800 ≤ a ∧ a ≤ 0xDBFF ∧ 0xDC00 ≤ b ∧ b ≤ 0xDFFF then
      Char.ofNat (0x10000 + (a - 0xD800) * 0x400 + (b - 0xDC00)) :: combineUnits r
    else if 0xD800 ≤ a ∧ a ≤ 0xDFFF then Char.ofNat 0xFFFD :: combineUnits (b :: r)
    else Char.ofNat a :: combineUnits (b :: r)

/-- The character a simple escape `\c` of a JSON string stands for. -/
def simpleEscape (c : Char) : Option Char :=
  if c = '"' then some '"'
  else if c = '\\' then some '\\'
  else if c = '/' then some '/'
  else if c = 'b' then some (Char.ofNat 8)
  else if c = 'f' then some (Char.ofNat 12)
  else if c = 'n' then some '\n'
  else if c = 'r' then some '\r'
  else if c = 't' then some '\t'
  else none

/-- Read the inside of a JSON string up to its closing quote. The code points
read so far are accumulated in reverse; the result is the decoded code points (or
escaped code units) and the text after the closing quote. An unescaped control
character, an unknown escape or a missing closing quote is a syntax error. -/
def parseStringBody : List Char → List Nat → Option (List Nat × List Char)
  | [], _ => none
  | c :: r, acc =>
    if c = '"' then some (acc.reverse, r)
    else if c = '\\' then
      match r with
      | [] => none
      | e :: r1 =>
        if e = 'u' then
          match r1 with
          | a :: b :: c2 :: d :: r2 =>
            match hexDigitVal a, hexDigitVal b, hexDigitVal c2, hexDigitVal d with
            | some x, some y, some z, some w =>
              parseStringBody r2 ((((x * 16 + y) * 16 + z) * 16 + w) :: acc)
            | _, _, _, _ => none
          | _ => none
        else
          match simpleEscape e with
          | some ch => parseStringBody r1 (ch.toNat :: acc)
          | none => none
    else if c.toNat < 0x20 then none
    else parseStringBody r (c.toNat :: acc)

/-- Read a JSON string whose opening quote has been consumed. -/
def parseString (cs : List Char) : Option (String × List Char) :=
  match parseStringBody cs [] with
  | some (units, rest) => some (⟨combineUnits units⟩, rest)
  | none => none

/-- Split an optional leading minus off: `true` when there is one. -/
def takeMinus : List Char → Bool × List Char
  | [] => (false, [])
  | c :: r => if c = '-' then (true, r) else (false, c :: r)

/-- The optional fraction of a JSON number: a point must be followed by at least
one digit. The result is the fraction digits and the text after them. -/
def jsonFraction : List Char → Option (List Char × List Char)
  | [] => some ([], [])
  | c :: r =>
    if c = '.' then
      (if (r.takeWhile isDecDigit).isEmpty then none
       else some (r.takeWhile isDecDigit, r.dropWhile isDecDigit))
    else some ([], c :: r)

/-- The optional exponent of a JSON number: `e` or `E` must be followed by an
optional sign and at least one digit. The result is the exponent and the text
after it. -/
def jsonExponent : List Char → Option (Int × List Char)
  | [] => some (0, [])
  | c :: r =>
    if c = 'e' ∨ c = 'E' then
      (if ((takeSign r).2.takeWhile isDecDigit).isEmpty then none
       else
        some (if (takeSign r).1 then -(digitsValue 10 ((takeSign r).2.takeWhile isDecDigit) : Int)
              else (digitsValue 10 ((takeSign r).2.takeWhile isDecDigit) : Int),
              (takeSign r).2.dropWhile isDecDigit))
    else some (0, c :: r)

/-- Read a JSON number: an optional minus, an integer part without a leading
zero, an optional fraction and an optional exponent, each with at least one
digit. The value is rounded to binary64. -/
def parseNumber (cs : List Char) : Option (JSNumber × List Char) :=
  let sg := takeMinus cs
  let intDs := sg.2.takeWhile isDecDigit
  if intDs.isEmpty then none
  else if 1 < intDs.length ∧ intDs.head? = some '0' then none
  else
    match jsonFraction (sg.2.dropWhile isDecDigit) with
    | none => none
    | some (fracDs, r2) =>
      match jsonExponent r2 with
      | none => none
      | some (e, r3) =>
        some (signedNumber sg.1
          ((digitsValue 10 (intDs ++ fracDs) : ℚ) * pow10 (e - fracDs.length)), r3)

/-- Strip an expected keyword off the front of the text. -/
def expectWord (w : String) (cs : List Char) : Option (List Char) :=
  if w.data.isPrefixOf cs then some (cs.drop w.data.length) else none

mutual
/-- Read one JSON value, leading white space allowed. The fuel bounds the
nesting and element count; the length of the text plus one always suffices
(`parseValue_fuel_adequate`). -/
def parseValue : Nat → List Char → Option (JVal × List Char)
  | 0, _ => none
  | fuel + 1, cs =>
    match skipWs cs with
    | [] => none
    | c :: r =>
      if c = 'n' then (expectWord "null" (c :: r)).map (fun t => (JVal.null, t))
      else if c = 't' then (expectWord "true" (c :: r)).map (fun t => (JVal.bool true, t))
      else if c = 'f' then (expectWord "false" (c :: r)).map (fun t => (JVal.bool false, t))
      else if c = '"' then (parseString r).map (fun st => (JVal.str st.1, st.2))
      else if c = '[' then
        match skipWs r with
        | [] => none
        | d :: r1 => if d = ']' then some (JVal.arr [], r1) else parseItems fuel (d :: r1) []
      else if c = '\x7b' then
        match skipWs r with
        | [] => none
        | d :: r1 => if d = '\x7d' then some (JVal.obj [], r1) else parseMembers fuel (d :: r1) []
      else (parseNumber (c :: r)).map (fun nt => (JVal.num nt.1, nt.2))
/-- Read the elements of a JSON array up to the closing bracket; `acc` holds the
elements read so far, in reverse. -/
def parseItems : Nat → List Char → List JVal → Option (JVal × List Char)
  | 0, _, _ => none
  | fuel + 1, cs, acc =>
    match parseValue fuel cs with
    | none => none
    | some (v, r) =>
      match skipWs r with
      | [] => none
      | d :: r1 =>
        if d = ',' then parseItems fuel r1 (v :: acc)
        else if d = ']' then some (JVal.arr (v :: acc).reverse, r1)
        else none
/-- Read the members of a JSON object up to the closing brace; `acc` holds the
members read so far, in reverse. -/
def parseMembers : Nat → List Char → List (String × JVal) → Option (JVal × List Char)
  | 0, _, _ => none
  | fuel + 1, cs, acc =>
    match skipWs cs with
    | [] => none
    | q :: r0 =>
      if q = '"' then
        match parseString r0 with
        | none => none
        | some (k, r1) =>
          match skipWs r1 with
          | [] => none
          | col :: r2 =>
            if col = ':' then
              match parseValue fuel r2 with
              | none => none
              | some (v, r3) =>
                match skipWs r3 with
                | [] => none
                | d :: r4 =>
                  if d = ',' then parseMembers fuel r4 ((k, v) :: acc)
                  else if d = '\x7d' then some (JVal.obj ((k, v) :: acc).reverse, r4)
                  else none
            else none
      else none
end

/-- JavaScript `JSON.parse(text)`; `none` is a thrown `SyntaxError`. -/
def jsonParse (text : String) : Option JVal :=
  match parseValue (text.data.length + 1) text.data with
  | some (v, rest) => if (skipWs rest).isEmpty then some v else none
  | none => none

/-! ## JavaScript operations on parsed values -/

/-- JavaScript `ToBoolean` of a parsed value. -/
def JVal.truthy : JVal → Bool
  | .null => false
  | .bool b => b
  | .num n => n.truthy
  | .str s => !s.data.isEmpty
  | .arr _ => true
  | .obj _ => true

/-- JavaScript `ToBoolean` of a value that may be `undefined`. -/
def truthy : Option JVal → Bool
  | none => false
  | some v => v.truthy

/-- The value of the last member named `key`, the one `JSON.parse` keeps. -/
def lookupMember (key : String) : List (String × JVal) → Option JVal
  | [] => none
  | (k, v) :: rest =>
    match lookupMember key rest with
    | some w => some w
    | none => if k = key then some v else none

/-- The property read `v.key` on a value other than `null`, for a `key` that no
prototype defines (every data field the source reads: `noData`, `totalAmount`,
`paidAmount`, `content`, `subscriber`, `subscriberNo`, `month`, `year`,
`totalMb`, `totalMinutes`, `isPaid`): an own member of an object, `undefined`
on anything else. `JSON.parse` makes even `__proto__` an own member, so nothing
is inherited. -/
def JVal.prop (v : JVal) (key : String) : Option JVal :=
  match v with
  | .obj ms => lookupMember key ms
  | _ => none

/-- The property read `v.key`: reading a property of `null` throws. -/
def getProp (v : JVal) (key : String) : Except JSError (Option JVal) :=
  match v with
  | .null => .error .typeError
  | w => .ok (w.prop key)

mutual
/-- JavaScript `String(v)` as a template literal or `v.toString()` applies it:
an array joins its elements with commas, a plain object prints as
`[object Object]`, and an object with a member of its own named `toString`
(never callable, coming from JSON) throws. -/
def JVal.toText : JVal → Except JSError String
  | .null => .ok "null"
  | .bool b => .ok (if b then "true" else "false")
  | .num n => .ok (numToString n)
  | .str s => .ok s
  | .arr items => joinItems items
  | .obj ms => if (lookupMember "toString" ms).isSome then .error .typeError
               else .ok "[object Object]"
/-- JavaScript `Array.prototype.join` with the default comma: `null` elements
print as nothing. -/
def joinItems : List JVal → Except JSError String
  | [] => .ok ""
  | [x] => match x with
    | .null => .ok ""
    | y => y.toText
  | x :: y :: rest =>
    let first : Except JSError String :=
      match x with
      | .null => .ok ""
      | z => z.toText
    match first, joinItems (y :: rest) with
    | .ok a, .ok b => .ok (a ++ "," ++ b)
    | .error e, _ => .error e
    | _, .error e => .error e
end

/-- JavaScript `String(v)` for a value that may be `undefined`. -/
def valueText : Option JVal → Except JSError String
  | none => .ok "undefined"
  | some v => v.toText

/-- The lookup `monthNames[key]` for a string key, as the text the result has in
a template literal: an element for the canonical numeral of an index, `13` for
`length`, otherwise whatever an array inherits under that name. The inherited
members (of `Array.prototype` and `Object.prototype`) belong to the JavaScript
runtime, so their texts are a parameter. -/
def monthNamesByKey (inherited : String → Option String) (key : String) : Option String :=
  match (List.range 13).find? (fun i => Nat.repr i = key) with
  | some i => monthNames.get? i
  | none => if key = "length" then some "13" else inherited key

/-- JavaScript `a === b` between a parsed value and a Number. -/
def strictEqNumber (a : Option JVal) (b : JSNumber) : Bool :=
  match a with
  | some (.num n) => n.strictEq b
  | _ => false

/-- JavaScript `a === b` between a parsed value and a month value. -/
def strictEqMonth (a : Option JVal) (b : MonthValue) : Bool :=
  match b with
  | .num n => strictEqNumber a n
  | _ => false

/-! ## `generateUserFriendlyMessage` -/

/-- The expression `part.split("=")[1]`. -/
def valueOfPart (part : String) : Option String := (jsSplit part '=').get? 1

/-- The expression `intentResponse.split(";").map((p) => p.trim())`. -/
def intentPartsOf (intentResponse : String) : List String :=
  (jsSplit intentResponse ';').map jsTrim

/-- The expression `intentParts[i]?.split("=")[1]`: the value of the `i`-th field of
the intent line, `undefined` when the field or its `=` is missing. (For `i = 0`
the source omits the `?.`; a split always has a first part.) -/
def fieldAt (intentParts : List String) (i : Nat) : Option String :=
  (intentParts.get? i).bind valueOfPart

/-- The expression `monthMap[month?.toLowerCase()] || parseInt(month)`; every
value `monthMap` yields is truthy. -/
def monthNumOf (month : Option String) : MonthValue :=
  match monthMap (optText (month.map jsToLowerCase)) with
  | some v => v
  | none => .num (jsParseInt (optText month))

/-- The expression `monthNames[monthNum] || month`; the element `""` at index 0
is falsy. -/
def monthLabelOf (monthNum : MonthValue) (month : Option String) : Option String :=
  match monthNamesAtValue monthNum with
  | some s => if s.data.isEmpty then month else some s
  | none => month

/-- The template `No bill found for subscriber ... for ... ... .` -/
def noBillFound (subscriberNo monthLabel year : Option String) : String :=
  "No bill found for subscriber " ++ optText subscriberNo ++ " for " ++ optText monthLabel ++
    " " ++ optText year ++ "."

/-- The guard `!parsedResponse || parsedResponse.noData ||
parsedResponse.totalAmount === undefined` of the `query_bill` and `make_payment`
branches. -/
def noUsableTotal (parsedResponse : JVal) : Bool :=
  !parsedResponse.truthy || truthy (parsedResponse.prop "noData") ||
    (parsedResponse.prop "totalAmount").isNone

/-- The `Bill Summary` template of the `query_bill` branch, given the text of
the amount. -/
def billSummary (subscriberNo monthLabel year : Option String) (amount dueDate : String) :
    String :=
  "Bill Summary:\n" ++
  "----------------------------\n" ++
  "Subscriber:       " ++ optText subscriberNo ++ "\n" ++
  "Month:            " ++ optText monthLabel ++ " " ++ optText year ++ "\n" ++
  "Amount Due:       $" ++ amount ++ "\n" ++
  "Due Date:         " ++ dueDate ++ "\n" ++
  "----------------------------\n" ++
  "Would you like to see the detailed bill or proceed with payment?"

/-- The branch `intent === "query_bill"`. The amount is
`parsedResponse.totalAmount?.toFixed(2) || "N/A"`: `null` short-circuits to
`"N/A"`, a Number is printed by `toFixed`, and any other value has no `toFixed`
to call. -/
def queryBillMessage (parsedResponse : JVal) (subscriberNo monthLabel year : Option String)
    (dueDate : String) : Except JSError String :=
  if noUsableTotal parsedResponse then .ok (noBillFound subscriberNo monthLabel year)
  else
    match parsedResponse.prop "totalAmount" with
    | some (.num t) =>
      let printed := toFixed t 2
      .ok (billSummary subscriberNo monthLabel year
        (if printed.data.isEmpty then "N/A" else printed) dueDate)
    | some .null => .ok (billSummary subscriberNo monthLabel year "N/A" dueDate)
    | none => .ok (billSummary subscriberNo monthLabel year "N/A" dueDate)
    | some _ => .error .typeError

/-- The callback of `parsedResponse.content.find(...)`: whether an entry has the
requested subscriber number, month and year. Reading `item.subscriber` of a
`null` entry throws; `?.subscriberNo?.toString()` stops at `null` or
`undefined` and otherwise converts to a string. -/
def detailMatches (subscriberNo : Option String) (targetMonth : MonthValue)
    (targetYear : JSNumber) (item : JVal) : Except JSError Bool :=
  match getProp item "subscriber" with
  | .error e => .error e
  | .ok sub =>
    let itemSubNo : Except JSError (Option String) :=
      match sub with
      | none => .ok none
      | some .null => .ok none
      | some s =>
        match s.prop "subscriberNo" with
        | none => .ok none
        | some .null => .ok none
        | some n => n.toText.map some
    match itemSubNo with
    | .error e => .error e
    | .ok sn =>
      .ok (decide (sn = subscriberNo) && strictEqMonth (item.prop "month") targetMonth &&
        strictEqNumber (item.prop "year") targetYear)

/-- JavaScript `list.find(pred)` for a callback that may throw. -/
def findFirst (pred : JVal → Except JSError Bool) : List JVal → Except JSError (Option JVal)
  | [] => .ok none
  | x :: rest =>
    match pred x with
    | .error e => .error e
    | .ok true => .ok (some x)
    | .ok false => findFirst pred rest

/-- The `Bill Details` template of the `query_bill_detailed` branch. -/
def billDetails (monthLabel year : Option String)
    (basePlan totalMb totalMinutes usageCharge totalDue dueDate : String) : String :=
  "Bill Details for " ++ optText monthLabel ++ " " ++ optText year ++ ":\n" ++
  "----------------------------\n" ++
  "Base Plan:             $" ++ basePlan ++ "\n" ++
  "Data Usage:            " ++ totalMb ++ " MB\n" ++
  "Minutes Usage:         " ++ totalMinutes ++ " minutes\n" ++
  "Data & Minutes Charge: $" ++ usageCharge ++ "\n" ++
  "Total Due:             $" ++ totalDue ++ "\n" ++
  "Due Date:              " ++ dueDate ++ "\n" ++
  "----------------------------\n" ++
  "Would you like to proceed with payment?"

/-- The part of the `query_bill_detailed` branch after a matching entry was
found. `detailedContent.totalAmount.toFixed(2)` throws a `TypeError` unless the
total is a Number, whatever `detailedContent.totalAmount - basePlan` gave before
(that subtraction can itself only throw a `TypeError`), so only a Number total
reaches the end of the template. -/
def detailedBlock (detailedContent : JVal) (targetMonth : MonthValue)
    (monthLabel year : Option String) : Except JSError String :=
  let basePlan : JSNumber := .ofNat 50
  match detailedContent.prop "totalAmount" with
  | some (.num total) =>
    let usageCharge := total.sub basePlan
    let dueDateFormatted := calculateDueDate targetMonth year
    match valueText (detailedContent.prop "totalMb"),
        valueText (detailedContent.prop "totalMinutes") with
    | .ok mb, .ok minutes =>
      .ok (billDetails monthLabel year (toFixed basePlan 2) mb minutes (toFixed usageCharge 2)
        (toFixed total 2) dueDateFormatted)
    | .error e, _ => .error e
    | _, .error e => .error e
  | _ => .error .typeError

/-- The branch `intent === "query_bill_detailed"`. -/
def queryBillDetailedMessage (parsedResponse : JVal)
    (subscriberNo month monthLabel year : Option String) : Except JSError String :=
  let targetYear := jsParseInt (optText year)
  let targetMonth := monthNumOf month
  match getProp parsedResponse "content" with
  | .error e => .error e
  | .ok (some (.arr items)) =>
    if items.isEmpty || truthy (parsedResponse.prop "noData") then
      .ok (noBillFound subscriberNo monthLabel year)
    else
      match findFirst (detailMatches subscriberNo targetMonth targetYear) items with
      | .error e => .error e
      | .ok none => .ok (noBillFound subscriberNo monthLabel year)
      | .ok (some detailedContent) =>
        if !detailedContent.truthy then .ok (noBillFound subscriberNo monthLabel year)
        else detailedBlock detailedContent targetMonth monthLabel year
  | .ok _ => .ok (noBillFound subscriberNo monthLabel year)

/-- The expression `v || 0`. -/
def orZero (v : Option JVal) : JVal :=
  match v with
  | some w => if w.truthy then w else .num (.ofNat 0)
  | none => .num (.ofNat 0)

/-- The amount read off the intent line in the `make_payment` branch:
`amountPart ? parseFloat(amountPart.split("=")[1]) : 0` for
`amountPart = intentParts.find((p) => p.startsWith("amount="))`. -/
def amountPaidNowOf (intentParts : List String) : JSNumber :=
  match intentParts.find? (fun p => jsStartsWith p "amount=") with
  | some amountPart =>
    if amountPart.data.isEmpty then .ofNat 0
    else jsParseFloat (optText (valueOfPart amountPart))
  | none => .ofNat 0

/-- The `Payment Summary` template of the `make_payment` branch. -/
def paymentSummary (subscriberNo monthLabel year : Option String)
    (totalBill previouslyPaid amountPaidNow totalPaid remainingBalance : String) : String :=
  "✅ Payment successful!\n" ++
  "\n" ++
  "Payment Summary:\n" ++
  "----------------------------\n" ++
  "Subscriber:        " ++ optText subscriberNo ++ "\n" ++
  "Month:             " ++ optText monthLabel ++ " " ++ optText year ++ "\n" ++
  "Total Bill:        $" ++ totalBill ++ "\n" ++
  "Previously Paid:   $" ++ previouslyPaid ++ "\n" ++
  "Amount Paid Now:   $" ++ amountPaidNow ++ "\n" ++
  "Total Paid:        $" ++ totalPaid ++ "\n" ++
  "Remaining Balance: $" ++ remainingBalance ++ "\n" ++
  "----------------------------\n" ++
  "Thank you for your payment!"

/-- The branch `intent === "make_payment"`. `totalBill.toFixed(2)` and
`previouslyPaid.toFixed(2)` throw a `TypeError` unless both are Numbers,
whatever `+` and `-` made of them before (those can themselves only throw a
`TypeError`), so only Number operands reach the end of the template. -/
def makePaymentMessage (parsedResponse : JVal) (intentParts : List String)
    (subscriberNo monthLabel year : Option String) : Except JSError String :=
  if noUsableTotal parsedResponse then
    .ok (noBillFound subscriberNo monthLabel year ++ " Payment could not be processed.")
  else
    let amountPaidNow := amountPaidNowOf intentParts
    match orZero (parsedResponse.prop "totalAmount"), orZero (parsedResponse.prop "paidAmount") with
    | .num totalBill, .num previouslyPaid =>
      let totalPaid := previouslyPaid.add amountPaidNow
      let remainingBalance := totalBill.sub totalPaid
      .ok (paymentSummary subscriberNo monthLabel year (toFixed totalBill 2)
        (toFixed previouslyPaid 2) (toFixed amountPaidNow 2) (toFixed totalPaid 2)
        (toFixed remainingBalance 2))
    | _, _ => .error .typeError

/-- The callback of `parsedList.map(...)` in the `bill_history` branch: one line
for one entry. Reading `item.month` of a `null` entry throws. -/
def historyLine (inherited : String → Option String) (item : JVal) : Except JSError String :=
  match getProp item "month" with
  | .error e => .error e
  | .ok m =>
    match valueText m, valueText (item.prop "year"), valueText (item.prop "totalAmount") with
    | .ok key, .ok yearText, .ok amountText =>
      let monthLabelHistory := monthNamesByKey inherited key
      .ok ("- " ++ optText monthLabelHistory ++ " " ++ yearText ++ "  | Amount Due: $" ++
        amountText ++ " | Paid: " ++ (if truthy (item.prop "isPaid") then "Yes" else "No"))
    | .error e, _, _ => .error e
    | _, .error e, _ => .error e
    | _, _, .error e => .error e

/-- JavaScript `list.map(f)` for a callback that may throw. -/
def mapLines (f : JVal → Except JSError String) : List JVal → Except JSError (List String)
  | [] => .ok []
  | x :: rest =>
    match f x, mapLines f rest with
    | .ok line, .ok lines => .ok (line :: lines)
    | .error e, _ => .error e
    | _, .error e => .error e

/-- Whether `parsedList.length` is truthy, for the value `parsedList` of the
`bill_history` branch: an array or string has its length, an object a member of
its own if any, a Number or boolean none. -/
def lengthTruthy : JVal → Bool
  | .arr items => !items.isEmpty
  | .str s => !s.data.isEmpty
  | .obj ms => truthy (lookupMember "length" ms)
  | _ => false

/-- The branch `intent === "bill_history"`. Only an array has a `map` to call. -/
def billHistoryMessage (inherited : String → Option String) (parsedResponse : JVal)
    (subscriberNo : Option String) : Except JSError String :=
  let parsedList : Except JSError JVal :=
    match parsedResponse with
    | .arr items => .ok (.arr items)
    | other =>
      match getProp other "content" with
      | .error e => .error e
      | .ok (some c) => .ok (if c.truthy then c else .arr [])
      | .ok none => .ok (.arr [])
  match parsedList with
  | .error e => .error e
  | .ok list =>
    if !lengthTruthy list then
      .ok ("No bill history found for subscriber " ++ optText subscriberNo ++ ".")
    else
      match list with
      | .arr items =>
        match mapLines (historyLine inherited) items with
        | .error e => .error e
        | .ok historyLines =>
          .ok ("Bill History for Subscriber " ++ optText subscriberNo ++ ":\n" ++
            String.intercalate "\n" historyLines)
      | _ => .error .typeError

/-- The function `generateUserFriendlyMessage(intentResponse, apiRawResponse)` of
`src/index.js`. The result is the returned string, or the `TypeError` thrown.
`inherited` gives the texts of the members an array inherits from the runtime
(see `monthNamesByKey`). -/
def generateUserFriendlyMessage (inherited : String → Option String)
    (intentResponse apiRawResponse : String) : Except JSError String :=
  let intentParts := intentPartsOf intentResponse
  let intent := fieldAt intentParts 0
  let subscriberNo := fieldAt intentParts 1
  let month := fieldAt intentParts 2
  let year := fieldAt intentParts 3
  match jsonParse apiRawResponse with
  | none => .ok apiRawResponse
  | some parsedResponse =>
    let monthNum := monthNumOf month
    let monthLabel := monthLabelOf monthNum month
    let dueDate := calculateDueDate monthNum year
    if intent = some "invalid" then
      .ok "⚠️ I couldn't understand your request. Please try again with a clear question."
    else if intent = some "query_bill" then
      queryBillMessage parsedResponse subscriberNo monthLabel year dueDate
    else if intent = some "query_bill_detailed" then
      queryBillDetailedMessage parsedResponse subscriberNo month monthLabel year
    else if intent = some "make_payment" then
      makePaymentMessage parsedResponse intentParts subscriberNo monthLabel year
    else if intent = some "bill_history" then
      billHistoryMessage inherited parsedResponse subscriberNo
    else .ok "Sorry, I could not process your request."

/-! ## Definitions used to state the properties -/

/-- The table of inherited array members that knows none: enough for inputs whose
month keys are numerals. -/
def noInherited : String → Option String := fun _ => none

/-- A parsed value that holds no `NaN`, as every result of `JSON.parse` does (the
JSON grammar has no numeral for it). -/
inductive JVal.NoNaN : JVal → Prop
  | null : JVal.NoNaN .null
  | bool (b : Bool) : JVal.NoNaN (.bool b)
  | num (n : JSNumber) (h : n ≠ .nan) : JVal.NoNaN (.num n)
  | str (s : String) : JVal.NoNaN (.str s)
  | arr (items : List JVal) (h : ∀ x ∈ items, JVal.NoNaN x) : JVal.NoNaN (.arr items)
  | obj (ms : List (String × JVal)) (h : ∀ kv ∈ ms, JVal.NoNaN kv.2) : JVal.NoNaN (.obj ms)

/-- The text of a value whose conversion to a string does not throw (the empty
string stands in where it would throw). -/
def printedText (v : Option JVal) : String :=
  match valueText v with
  | .ok s => s
  | .error _ => ""

/-- The rendering of a rational with exactly two decimals: the nearest hundredth
(a half rounds away from zero), written as an optional minus, the integer part,
a point and two digits. -/
def twoDecimals (q : ℚ) : String :=
  let a : ℚ := if q < 0 then -q else q
  let n : Nat := (Rat.floor (a * 100 + 1 / 2)).toNat
  (if q < 0 then "-" else "") ++ Nat.repr (n / 100) ++ "." ++
    String.mk [Nat.digitChar (n / 10 % 10), Nat.digitChar (n % 10)]

/-- Whether a UTF-16 code unit is a surrogate. -/
def isSurrogateUnit (u : Nat) : Bool := decide (0xD800 ≤ u) && decide (u ≤ 0xDFFF)

/-- Whether a text holds no escape of a surrogate code unit, `\uD800` to
`\uDFFF` (a backslash, `u` and the hexadecimal digit `d` in either case). On such
a text `JSON.parse` meets no surrogate, so every string it reads is represented
exactly (`parseString_exact`); a text with a lone surrogate escape is read with
U+FFFD in its place, which only the identity of strings can tell apart. -/
def surrogateEscapeFree : List Char → Bool
  | [] => true
  | c :: rest =>
    (match rest with
     | e :: d :: _ =>
       !(decide (c = '\\') && decide (e = 'u') && (d.toNat == 100 || d.toNat == 68))
     | _ => true) && surrogateEscapeFree rest

/-! ## `JSON.stringify` -/

/-- The escape of one character inside a string literal written by
`JSON.stringify`: the quote, the backslash and the control characters are
escaped, everything else is written as it is. -/
def quoteChar (c : Char) : List Char :=
  if c = '"' then ['\\', '"']
  else if c = '\\' then ['\\', '\\']
  else if c = Char.ofNat 8 then ['\\', 'b']
  else if c = Char.ofNat 12 then ['\\', 'f']
  else if c = '\n' then ['\\', 'n']
  else if c = '\r' then ['\\', 'r']
  else if c = '\t' then ['\\', 't']
  else if c.toNat < 0x20 then
    ['\\', 'u', '0', '0', Nat.digitChar (c.toNat / 16), Nat.digitChar (c.toNat % 16)]
  else [c]

/-- A string as `JSON.stringify` writes it: quoted and escaped. -/
def quoteString (s : String) : String :=
  ⟨'"' :: ((s.data.map quoteChar).flatten ++ ['"'])⟩

/-- The integer a property key denotes when the key is an array index: the
canonical numeral of an integer below `2 ^ 32 - 1`. -/
def arrayIndexOf (key : String) : Option Nat :=
  if !key.data.isEmpty && key.data.all isDecDigit &&
      decide (Nat.repr (digitsValue 10 key.data) = key) &&
      decide (digitsValue 10 key.data < 4294967295) then
    some (digitsValue 10 key.data)
  else none

/-- The keys of a member list, each once, in the order of first appearance. -/
def distinctKeys : List String → List String
  | [] => []
  | k :: rest => k :: (distinctKeys rest).filter (fun x => x != k)

/-- Insert a number into an ascending list. -/
def insertAscending (n : Nat) : List Nat → List Nat
  | [] => [n]
  | m :: rest => if n ≤ m then n :: m :: rest else m :: insertAscending n rest

/-- Sort numbers into ascending order. -/
def sortAscending : List Nat → List Nat
  | [] => []
  | n :: rest => insertAscending n (sortAscending rest)

/-- The own property keys of an object in the order JavaScript enumerates them,
given the keys in the order of the text it was parsed from: the array indices
ascending, then the other keys in the order they were created. -/
def ownKeys (keys : List String) : List String :=
  (sortAscending ((distinctKeys keys).filterMap arrayIndexOf)).map Nat.repr ++
    (distinctKeys keys).filter (fun k => (arrayIndexOf k).isNone)

/-- The text kept for a key: that of its last member, as for `lookupMember`. -/
def lookupText (key : String) : List (String × String) → Option String
  | [] => none
  | (k, t) :: rest =>
    match lookupText key rest with
    | some w => some w
    | none => if k = key then some t else none

/-- The members of an object as `JSON.stringify` writes them, given each
member's key and the text of its value. -/
def memberTexts (ms : List (String × String)) : List String :=
  (ownKeys (ms.map Prod.fst)).map
    (fun k => quoteString k ++ ":" ++ optText (lookupText k ms))

mutual
/-- JavaScript `JSON.stringify(v)` for a JSON value, without indentation. A
Number that is not finite is written `null`. -/
def jsonStringify : JVal → String
  | .null => "null"
  | .bool b => if b then "true" else "false"
  | .num n =>
    match n with
    | .fin q => numToString (.fin q)
    | _ => "null"
  | .str s => quoteString s
  | .arr items => "[" ++ String.intercalate "," (stringifyItems items) ++ "]"
  | .obj ms => "\x7b" ++ String.intercalate "," (memberTexts (stringifyMembers ms)) ++ "\x7d"
/-- The texts of the elements of an array. -/
def stringifyItems : List JVal → List String
  | [] => []
  | x :: rest => jsonStringify x :: stringifyItems rest
/-- The keys of the members of an object with the texts of their values. -/
def stringifyMembers : List (String × JVal) → List (String × String)
  | [] => []
  | (k, v) :: rest => (k, jsonStringify v) :: stringifyMembers rest
end

/-! ## `callMidtermApi` -/

/-- The `config` object `callMidtermApi` hands to `axios`: the method, the URL,
the two headers and the body. -/
structure AxiosConfig where
  /-- field `method` -/
  method : String
  /-- field `url` -/
  url : String
  /-- header `Authorization` -/
  authorization : String
  /-- header `Content-Type` -/
  contentType : String
  /-- field `data` -/
  data : JVal
  deriving DecidableEq

/-- What awaiting an `axios` call gives: a response whose `data` is a JSON value
(the parsed body, or the body as a string when it is not JSON), or a thrown
error, which carries a response with a status (`some status`) or none at all. -/
inductive AxiosResult where
  | fulfilled (data : JVal)
  | rejected (status : Option Nat)
  deriving DecidableEq

/-- What `callMidtermApi` has decided when it reaches its `try` block: a text to
return at once, without any call, or the request to send. -/
inductive Prepared where
  | reply (text : String)
  | call (config : AxiosConfig)
  deriving DecidableEq

/-- The expression `userToken || ""`; the token is a string or `undefined`. -/
def tokenOrEmpty (userToken : Option String) : String :=
  match userToken with
  | some t => if t.data.isEmpty then "" else t
  | none => ""

/-- The text of `month` inside the URL template, for
`month = monthMap[rawMonth?.toLowerCase()] || rawMonth`. The table `monthMap` of
`callMidtermApi` is the same literal as that of `generateUserFriendlyMessage`,
and every value it yields is truthy. -/
def queryMonthText (rawMonth : Option String) : String :=
  match monthMap (optText (rawMonth.map jsToLowerCase)) with
  | some v => v.text
  | none => optText rawMonth

/-- The text of `amount` inside the URL template, for
`amount = amountPart ? amountPart.split("=")[1] : 0` and
`amountPart = intentParts.find((p) => p.startsWith("amount="))`. -/
def queryAmountText (intentParts : List String) : String :=
  match intentParts.find? (fun p => jsStartsWith p "amount=") with
  | some amountPart =>
    if amountPart.data.isEmpty then "0" else optText (valueOfPart amountPart)
  | none => "0"

/-- The part of `callMidtermApi(intentDataString, userToken)` before the request
is sent: the two early returns and the `config` of the request. -/
def prepareCall (intentDataString : String) (userToken : Option String) : Prepared :=
  let intentParts := intentPartsOf intentDataString
  let intent := fieldAt intentParts 0
  if intent = some "invalid" then
    .reply "⚠️ I couldn't understand your request. Please try again with a clear question."
  else
    let subscriberNo := fieldAt intentParts 1
    let rawMonth := fieldAt intentParts 2
    let month := queryMonthText rawMonth
    let year := fieldAt intentParts 3
    if intent = some "query_bill" then
      .call ⟨"get",
        "https://se4458-midterm-project.onrender.com/api/v1/bill/calculate?subscriberNo=" ++
          optText subscriberNo ++ "&month=" ++ month ++ "&year=" ++ optText year,
        tokenOrEmpty userToken, "application/json", .null⟩
    else if intent = some "query_bill_detailed" then
      .call ⟨"get",
        "https://se4458-midterm-project.onrender.com/api/v1/bill/detailed?subscriberNo=" ++
          optText subscriberNo ++ "&month=" ++ month ++ "&year=" ++ optText year,
        tokenOrEmpty userToken, "application/json", .null⟩
    else if intent = some "make_payment" then
      .call ⟨"post",
        "https://se4458-midterm-project.onrender.com/api/v1/bill/pay?subscriberNo=" ++
          optText subscriberNo ++ "&month=" ++ month ++ "&year=" ++ optText year ++
          "&amount=" ++ queryAmountText intentParts,
        tokenOrEmpty userToken, "application/json", .null⟩
    else if intent = some "bill_history" then
      .call ⟨"get",
        "https://se4458-midterm-project.onrender.com/api/v1/bill/history?subscriberNo=" ++
          optText subscriberNo,
        tokenOrEmpty userToken, "application/json", .null⟩
    else .reply ("Unsupported intent: " ++ optText intent)

/-- The function `callMidtermApi(intentDataString, userToken)` of `src/index.js`;
`axios` tells what awaiting the request gives. A thrown error is caught, and
each of the three cases of the `catch` block returns
`JSON.stringify(\x7b noData: true \x7d)`. -/
def callMidtermApi (axios : AxiosConfig → AxiosResult) (intentDataString : String)
    (userToken : Option String) : String :=
  match prepareCall intentDataString userToken with
  | .reply text => text
  | .call config =>
    match axios config with
    | .fulfilled data => jsonStringify data
    | .rejected (some status) =>
      if status = 409 then jsonStringify (.obj [("noData", .bool true)])
      else jsonStringify (.obj [("noData", .bool true)])
    | .rejected none => jsonStringify (.obj [("noData", .bool true)])

/-! ## `analyzeIntent` and the `/chat` handler -/

/-- What `analyzeIntent` throws: a `TypeError`, or the error of the request to
the language model, thrown again by the `catch` block. -/
inductive AnalyzeError where
  | typeError
  | requestFailed (status : Option Nat)
  deriving DecidableEq

/-- The prompt sent to the language model. -/
def intentPrompt (userMessage : String) : String :=
  "Extract intent and parameters from this message.\n" ++
  "Supported intents: query_bill, query_bill_detailed, make_payment, bill_history.\n" ++
  "Expected format: intent=<intent_name>;subscriberNo=<value>;month=<value>;year=<value>;amount=<value>\n" ++
  "\n" ++
  "Message: \"" ++ userMessage ++ "\""

/-- The function `analyzeIntent(userMessage)` of `src/index.js`; `post` tells what
awaiting `axios.post(url, payload)` gives. The reply of the language model is
`response.data.response`; `trim` exists on a string only. -/
def analyzeIntent (post : String → JVal → AxiosResult) (userMessage : String) :
    Except AnalyzeError String :=
  let payload : JVal :=
    .obj [("model", .str "mistral"), ("prompt", .str (intentPrompt userMessage)),
      ("stream", .bool false)]
  match post "http://localhost:11434/api/generate" payload with
  | .rejected status => .error (.requestFailed status)
  | .fulfilled data =>
    match getProp data "response" with
    | .ok (some (.str text)) =>
      let reply := jsTrim text
      if !jsStartsWith reply "intent=" then .ok "intent=invalid" else .ok reply
    | _ => .error .typeError

/-- The two steps of the `/chat` handler after the intent line is known: the
billing call, and the formatter applied to the text it returned. -/
def formattedResponseOf (inherited : String → Option String)
    (axios : AxiosConfig → AxiosResult) (intentResponse : String)
    (token : Option String) : Except JSError String :=
  let apiRawResponse := callMidtermApi axios intentResponse token
  generateUserFriendlyMessage inherited intentResponse apiRawResponse

/-- What the `/chat` handler answers: status 200 with the message, the intent
line and the formatted reply, or status 500 with the fixed error body. -/
inductive ChatResponse where
  | ok (message extractedIntent userFriendlyResponse : String)
  | failed
  deriving DecidableEq

/-- The handler of `POST /chat`, for a message that is a string: every error
thrown inside the `try` block gives the status 500 answer. -/
def chatHandler (inherited : String → Option String) (post : String → JVal → AxiosResult)
    (axios : AxiosConfig → AxiosResult) (userMessage : String) (token : Option String) :
    ChatResponse :=
  match analyzeIntent post userMessage with
  | .error _ => .failed
  | .ok intentResponse =>
    match formattedResponseOf inherited axios intentResponse token with
    | .error _ => .failed
    | .ok formattedResponse => .ok userMessage intentResponse formattedResponse

/-! ## Definitions used to state the properties of the client and the pipeline -/

/-- The sentinel text of the specification. -/
def noDataText : String := "\x7b\"noData\":true\x7d"

/-- The lower-case English name of the `k`-th month, a key of `monthMap`. -/
def monthKey (k : Nat) : String := jsToLowerCase (englishMonthName k)

/-- A value that is neither a list nor an object. -/
def JVal.isScalar : JVal → Bool
  | .arr _ => false
  | .obj _ => false
  | _ => true

/-- A field that is absent or holds a scalar. -/
def scalarField (v : Option JVal) : Bool :=
  match v with
  | none => true
  | some w => w.isScalar

/-- A field that is absent, `null` or a Number. -/
def numberField (v : Option JVal) : Bool :=
  match v with
  | none => true
  | some .null => true
  | some (.num _) => true
  | some _ => false

/-- An entry of a bill list of the expected shape: an object with a Number
`totalAmount`, scalar `month`, `year`, `totalMb` and `totalMinutes` where
present, and a subscriber whose `subscriberNo` is a scalar where present. -/
def plainEntry (item : JVal) : Bool :=
  match item with
  | .obj ms =>
    (match lookupMember "totalAmount" ms with
     | some (.num _) => true
     | _ => false) &&
    scalarField (lookupMember "month" ms) && scalarField (lookupMember "year" ms) &&
    scalarField (lookupMember "totalMb" ms) && scalarField (lookupMember "totalMinutes" ms) &&
    (match lookupMember "subscriber" ms with
     | some s => scalarField (s.prop "subscriberNo")
     | none => true)
  | _ => false

/-- A payload of a shape the formatter handles: any scalar but `null`, a list of
plain entries, or an object whose `totalAmount` and `paidAmount` are Numbers,
`null` or absent and whose `content` is absent or a list of plain entries. -/
def plainPayload (p : JVal) : Bool :=
  match p with
  | .null => false
  | .arr items => items.all plainEntry
  | .obj ms =>
    numberField (lookupMember "totalAmount" ms) && numberField (lookupMember "paidAmount" ms) &&
    (match lookupMember "content" ms with
     | none => true
     | some (.arr items) => items.all plainEntry
     | some _ => false)
  | _ => true

/-! ## The model of the JavaScript built-ins at known values -/

theorem roundQ_known_values :
    roundQ (1 / 10) = .fin (3602879701896397 / 36028797018963968) ∧
      roundQ (2 ^ 53 + 1) = .fin (2 ^ 53) ∧
      roundQ (2 ^ 53 + 3) = .fin (2 ^ 53 + 4) ∧
      roundQ (pow10 400) = .posInf ∧
      roundQ (pow10 (-400)) = .fin 0 ∧
      roundQ (5 * pow10 (-324)) = .fin (pow2 (-1074)) := by
  decide!

theorem jsParseInt_known_values :
    jsParseInt "  -12px" = .fin (-12) ∧ jsParseInt "0x1A" = .fin 26 ∧ jsParseInt "" = .nan ∧
      jsParseInt "undefined" = .nan ∧ jsParseInt "1e+21" = .fin 1 ∧
      jsParseInt "9007199254740993" = .fin 9007199254740992 := by
  decide!

theorem jsParseFloat_known_values :
    jsParseFloat "30.5abc" = .fin 30.5 ∧ jsParseFloat ".5e1" = .fin 5 ∧
      jsParseFloat "5.e-1x" = .fin 0.5 ∧ jsParseFloat "5e" = .fin 5 ∧
      jsParseFloat "." = .nan ∧ jsParseFloat "" = .nan ∧ jsParseFloat "abc" = .nan ∧
      jsParseFloat "-Infinityx" = .negInf := by
  decide!

theorem numToString_known_values :
    numToString (jsParseFloat "45.5") = "45.5" ∧
      numToString ((jsParseFloat "0.1").add (jsParseFloat "0.2")) = "0.30000000000000004" ∧
      numToString (jsParseFloat "1e21") = "1e+21" ∧
      numToString (jsParseFloat "123456789012345678901") = "123456789012345680000" ∧
      numToString (jsParseFloat "0.000001") = "0.000001" ∧
      numToString (jsParseFloat "1e-7") = "1e-7" ∧
      numToString (jsParseFloat "5e-324") = "5e-324" ∧
      numToString (jsParseFloat "1.7976931348623157e308") = "1.7976931348623157e+308" ∧
      numToString (jsParseFloat "-1e23") = "-1e+23" := by
  decide!

theorem toFixed_known_values :
    toFixed (jsParseFloat "45.5") 2 = "45.50" ∧ toFixed (jsParseFloat "1.005") 2 = "1.00" ∧
      toFixed (jsParseFloat "8.345") 2 = "8.35" ∧ toFixed (jsParseFloat "-0.001") 2 = "-0.00" ∧
      toFixed (jsParseFloat "2.5") 0 = "3" ∧ toFixed (jsParseFloat "1e21") 2 = "1e+21" ∧
      toFixed .nan 2 = "NaN" ∧ toFixed .posInf 2 = "Infinity" := by
  decide!

theorem jsonParse_known_values :
    jsonParse "\x7b\"noData\":true\x7d" = some (.obj [("noData", .bool true)]) ∧
      jsonParse " [1, 2.5e1, \"a\\n\\u0041\", null, \x7b \x7d, [], \x7b\"a\": [false]\x7d ] "
        = some (.arr [.num (.fin 1), .num (.fin 25), .str "a\nA", .null, .obj [], .arr [],
            .obj [("a", .arr [.bool false])]]) ∧
      jsonParse "-0" = some (.num (.fin 0)) ∧ jsonParse "1e999" = some (.num .posInf) ∧
      jsonParse "" = none ∧ jsonParse "01" = none ∧ jsonParse "1." = none ∧
      jsonParse "[1,]" = none ∧ jsonParse "\x7b\"a\":1,\x7d" = none ∧
      jsonParse "nul" = none ∧ jsonParse "null x" = none ∧ jsonParse "\"a\tb\"" = none ∧
      jsonParse "hello" = none := by
  decide!

/-! ## Lemmas on digits and numerals -/

theorem isDecDigit_bounds {c : Char} (h : isDecDigit c = true) :
    48 ≤ c.toNat ∧ c.toNat ≤ 57 := by
  simpa [isDecDigit] using h

theorem not_ws_of_digit {c : Char} (h : isDecDigit c = true) : isJSWhiteSpace c = false := by
  have hb := isDecDigit_bounds h
  simp only [isJSWhiteSpace, Bool.or_eq_false_iff, beq_eq_false_iff_ne, ne_eq,
    Bool.and_eq_false_imp, decide_eq_true_eq, decide_eq_false_iff_not]
  omega

theorem digitChar_isDecDigit {d : Nat} (h : d < 10) :
    isDecDigit (Nat.digitChar d) = true ∧ hexDigitVal (Nat.digitChar d) = some d := by
  interval_cases d <;> decide

theorem digitsValue_append (radix : Nat) (pre : List Char) (c : Char) :
    digitsValue radix (pre ++ [c]) = radix * digitsValue radix pre + (hexDigitVal c).getD 0 := by
  simp [digitsValue, List.foldl_append]

theorem toDigitsCore_spec (fuel : Nat) : ∀ (n : Nat) (ds : List Char), n < fuel →
    ∃ pre : List Char, Nat.toDigitsCore 10 fuel n ds = pre ++ ds ∧ pre ≠ [] ∧
      (∀ c ∈ pre, isDecDigit c = true) ∧ digitsValue 10 pre = n := by
  induction fuel with
  | zero => intro n ds h; omega
  | succ fuel ih =>
    intro n ds h
    have hd := digitChar_isDecDigit (Nat.mod_lt n (by decide : 10 > 0))
    simp only [Nat.toDigitsCore]
    by_cases h0 : n / 10 = 0
    · refine ⟨[Nat.digitChar (n % 10)], ?_, by simp, ?_, ?_⟩
      · simp [h0]
      · intro c hc; simp at hc; subst hc; exact hd.1
      · simp [digitsValue, hd.2]; omega
    · obtain ⟨pre, hpre, hne, hall, hval⟩ := ih (n / 10) (Nat.digitChar (n % 10) :: ds) (by omega)
      refine ⟨pre ++ [Nat.digitChar (n % 10)], ?_, by simp, ?_, ?_⟩
      · simp [h0, hpre]
      · intro c hc
        rcases List.mem_append.1 hc with hc | hc
        · exact hall c hc
        · simp at hc; subst hc; exact hd.1
      · rw [digitsValue_append, hval, hd.2]; simp; omega

theorem toDigits_spec (n : Nat) :
    Nat.toDigits 10 n ≠ [] ∧ (∀ c ∈ Nat.toDigits 10 n, isDecDigit c = true) ∧
      digitsValue 10 (Nat.toDigits 10 n) = n := by
  obtain ⟨pre, hpre, hne, hall, hval⟩ := toDigitsCore_spec (n + 1) n [] (by omega)
  simp only [List.append_nil] at hpre
  simp only [Nat.toDigits, hpre]
  exact ⟨hne, hall, hval⟩
theorem takeWhile_all {p : Char → Bool} : ∀ (l : List Char), (∀ c ∈ l, p c = true) →
    l.takeWhile p = l
  | [], _ => rfl
  | c :: r, h => by
    simp only [List.takeWhile, h c (List.mem_cons_self c r)]
    rw [takeWhile_all r (fun d hd => h d (List.mem_cons_of_mem c hd))]

theorem parseIntChars_digits (ds : List Char) (hne : ds ≠ [])
    (hall : ∀ c ∈ ds, isDecDigit c = true) :
    parseIntChars ds = roundQ (digitsValue 10 ds) := by
  obtain ⟨c, r, rfl⟩ := List.exists_cons_of_ne_nil hne
  have hc := hall c (List.mem_cons_self c r)
  have hcb := isDecDigit_bounds hc
  have h1 : (c :: r).dropWhile isJSWhiteSpace = c :: r := by
    simp [List.dropWhile, not_ws_of_digit hc]
  have hm : c ≠ '-' := by rintro rfl; revert hcb; decide
  have hp : c ≠ '+' := by rintro rfl; revert hcb; decide
  have h2 : takeSign (c :: r) = (false, c :: r) := by simp [takeSign, hm, hp]
  have h3 : (match c :: r with
      | c :: d :: r => if c = '0' ∧ (d = 'x' ∨ d = 'X') then (16, r) else (10, c :: d :: r)
      | r => (10, r)) = (10, c :: r) := by
    cases r with
    | nil => rfl
    | cons d r' =>
      have hd := isDecDigit_bounds (hall d (by simp))
      have hx : d ≠ 'x' := by rintro rfl; revert hd; decide
      have hX : d ≠ 'X' := by rintro rfl; revert hd; decide
      simp [hx, hX]
  have h4 : (c :: r).takeWhile (isRadixDigit 10) = c :: r :=
    takeWhile_all _ (by intro d hd; simpa [isRadixDigit] using hall d hd)
  simp only [parseIntChars, h1, h2, h3, h4, signedNumber]
  simp

theorem roundQ_natCast {n : Nat} (h : n ≤ 2 ^ 53) : roundQ (n : ℚ) = .fin (n : ℚ) := by
  have h1 : ((n : ℚ)).den = 1 := Rat.den_natCast n
  have h2 : ((n : ℚ)).num.natAbs = n := by simp
  rw [roundQ, if_pos ⟨h1, by rw [h2]; exact h⟩]

theorem jsParseInt_repr {y : Nat} (h : y ≤ 2 ^ 53) : jsParseInt (Nat.repr y) = .fin (y : ℚ) := by
  obtain ⟨hne, hall, hval⟩ := toDigits_spec y
  have : (Nat.repr y).data = Nat.toDigits 10 y := rfl
  rw [jsParseInt, this, parseIntChars_digits _ hne hall, hval, roundQ_natCast h]

theorem add_natCast {a b : Nat} (h : a + b ≤ 2 ^ 53) :
    (JSNumber.fin (a : ℚ)).add (.fin (b : ℚ)) = .fin ((a + b : Nat) : ℚ) := by
  have := roundQ_natCast h
  simp only [JSNumber.add]
  rw [← this]; push_cast; rfl

theorem numToString_natCast {y : Nat} (h : y < 2 ^ 53) :
    numToString (.fin (y : ℚ)) = Nat.repr y := by
  by_cases h0 : y = 0
  · subst h0; simp [numToString]; rfl
  · have hpos : ¬ ((y : ℚ) < 0) := not_lt.2 (Nat.cast_nonneg y)
    have hne : ¬ ((y : ℚ) = 0) := by exact_mod_cast h0
    have h1 : ((y : ℚ)).den = 1 := Rat.den_natCast y
    have h2 : ((y : ℚ)).num.natAbs = y := by simp
    rw [numToString]
    simp only [hne, hpos, if_false]
    rw [posToString, if_pos ⟨h1, by rw [h2]; exact h⟩, h2]
theorem parseInt_month_text {m : Nat} (hm : m ≤ 13) :
    jsParseInt (MonthValue.num (.ofNat m)).text = .ofNat m := by
  interval_cases m <;> decide!

theorem monthNamesAt_ofNat (k : Nat) : monthNamesAt (.ofNat k) = monthNames.get? k := by
  have h1 : ((k : ℚ)).den = 1 := Rat.den_natCast k
  have h2 : ((k : ℚ)).num = (k : Int) := Rat.num_natCast k
  simp only [monthNamesAt, JSNumber.ofNat, h1, h2]
  simp

theorem gt_ofNat (a b : Nat) : (JSNumber.ofNat a).gt (.ofNat b) = decide (b < a) := by
  simp [JSNumber.gt, JSNumber.ofNat]

theorem monthNames_get (k : Nat) (h1 : 1 ≤ k) (h12 : k ≤ 12) :
    monthNames.get? k = some (englishMonthName k) := by
  interval_cases k <;> rfl

/-! ## Lemmas on printed numbers -/

theorem nat_repr_data_ne_nil (n : Nat) : (Nat.repr n).data ≠ [] := (toDigits_spec n).1

theorem append_data_ne_nil_right (a b : String) (h : b.data ≠ []) : (a ++ b).data ≠ [] := by
  rw [String.data_append]
  intro hn
  exact h (List.append_eq_nil.1 hn).2

theorem append_data_ne_nil_left (a b : String) (h : a.data ≠ []) : (a ++ b).data ≠ [] := by
  rw [String.data_append]
  intro hn
  exact h (List.append_eq_nil.1 hn).1

theorem formatDigits_data_ne_nil (ds : List Char) (n : Int) (h : ds ≠ []) :
    (formatDigits ds n).data ≠ [] := by
  obtain ⟨d, rest, rfl⟩ := List.exists_cons_of_ne_nil h
  unfold formatDigits
  simp only []
  split_ifs
  all_goals (cases rest <;> simp [String.data_append])

theorem posToString_data_ne_nil (a : ℚ) : (posToString a).data ≠ [] := by
  unfold posToString
  split_ifs
  · exact nat_repr_data_ne_nil _
  · exact formatDigits_data_ne_nil _ _ (toDigits_spec _).1

theorem toFixed_fin_data_ne_nil (sgn : String) (a : ℚ) :
    (if pow10 21 ≤ a then sgn ++ posToString a
      else
        if 2 = 0 then sgn ++ Nat.repr (Rat.floor (a * ((10 ^ 2 : Nat) : ℚ) + 1 / 2)).toNat
        else
          sgn ++ Nat.repr ((Rat.floor (a * ((10 ^ 2 : Nat) : ℚ) + 1 / 2)).toNat / 10 ^ 2) ++ "." ++
            String.mk (List.replicate
              (2 - (Nat.toDigits 10 ((Rat.floor (a * ((10 ^ 2 : Nat) : ℚ) + 1 / 2)).toNat
                % 10 ^ 2)).length) '0' ++
              Nat.toDigits 10 ((Rat.floor (a * ((10 ^ 2 : Nat) : ℚ) + 1 / 2)).toNat % 10 ^ 2))).data
      ≠ [] := by
  split
  · exact append_data_ne_nil_right _ _ (posToString_data_ne_nil _)
  · rw [if_neg (by decide : ¬ (2 = 0))]
    apply append_data_ne_nil_left
    apply append_data_ne_nil_right
    decide

theorem toFixed_two_data_ne_nil (t : JSNumber) : (toFixed t 2).data ≠ [] := by
  cases t with
  | nan => decide
  | posInf => decide
  | negInf => decide
  | fin q =>
    unfold toFixed
    simp only []
    exact toFixed_fin_data_ne_nil _ _

theorem two_digits_padded : ∀ m, m < 100 →
    List.replicate (2 - (Nat.toDigits 10 m).length) '0' ++ Nat.toDigits 10 m
      = [Nat.digitChar (m / 10), Nat.digitChar (m % 10)] := by
  decide

/-- Below `10 ^ 21` in magnitude, `toFixed(2)` prints exactly two decimals. -/
theorem toFixed_two_decimals (q : ℚ) (h : (if q < 0 then -q else q) < pow10 21) :
    toFixed (.fin q) 2 = twoDecimals q := by
  have hlt : ¬ pow10 21 ≤ (if q < 0 then -q else q) := not_le.2 h
  have hmod : ∀ n : Nat, n % 100 / 10 = n / 10 % 10 ∧ n % 100 % 10 = n % 10 := by
    intro n; omega
  unfold toFixed twoDecimals
  simp only [hlt, if_false, (by decide : ¬ (2 = 0))]
  have hc : ((10 ^ 2 : Nat) : ℚ) = 100 := by norm_num
  rw [hc, (by norm_num : 10 ^ 2 = 100), two_digits_padded _ (Nat.mod_lt _ (by norm_num)),
    (hmod _).1, (hmod _).2]

theorem pow10_twenty_one : pow10 21 = 10 ^ 21 := by
  decide!

theorem toFixed_fifty : toFixed (.ofNat 50) 2 = "50.00" := by decide!

/-! ## Lemmas on the month of the intent line -/

theorem monthMap_of_name {k : Nat} (h1 : 1 ≤ k) (h12 : k ≤ 12) :
    monthMap (jsToLowerCase (englishMonthName k)) = some (.num (.ofNat k)) := by
  interval_cases k <;> decide!

theorem monthMap_of_numeral {k : Nat} (h1 : 1 ≤ k) (h12 : k ≤ 12) :
    monthMap (jsToLowerCase (Nat.repr k)) = none ∧ jsParseInt (Nat.repr k) = .ofNat k := by
  interval_cases k <;> decide!

theorem monthNumOf_recognised {k : Nat} (h1 : 1 ≤ k) (h12 : k ≤ 12) {ms : String}
    (h : jsToLowerCase ms = jsToLowerCase (englishMonthName k) ∨ ms = Nat.repr k) :
    monthNumOf (some ms) = .num (.ofNat k) := by
  rcases h with h | h
  · simp only [monthNumOf, Option.map, optText, h, monthMap_of_name h1 h12]
  · subst h
    simp only [monthNumOf, Option.map, optText, (monthMap_of_numeral h1 h12).1,
      (monthMap_of_numeral h1 h12).2]

theorem monthLabelOf_ofNat {k : Nat} (h1 : 1 ≤ k) (h12 : k ≤ 12) (month : Option String) :
    monthLabelOf (.num (.ofNat k)) month = some (englishMonthName k) := by
  have hne : (englishMonthName k).data.isEmpty = false := by
    interval_cases k <;> rfl
  simp only [monthLabelOf, monthNamesAtValue, monthNamesAt_ofNat, monthNames_get k h1 h12, hne]
  simp

/-! ## `JSON.parse` never yields `NaN` -/

theorem roundQ_ne_nan (q : ℚ) : roundQ q ≠ .nan := by
  unfold roundQ
  split_ifs
  · simp
  · cases roundPos q <;> simp
  · cases roundPos (-q) <;> simp

theorem signedNumber_ne_nan (neg : Bool) (q : ℚ) : signedNumber neg q ≠ .nan :=
  roundQ_ne_nan _

theorem parseNumber_ne_nan {cs : List Char} {n : JSNumber} {r : List Char}
    (h : parseNumber cs = some (n, r)) : n ≠ .nan := by
  unfold parseNumber at h
  simp only [] at h
  split_ifs at h
  split at h
  · exact absurd h (by simp)
  · split at h
    · exact absurd h (by simp)
    · simp only [Option.some.injEq, Prod.mk.injEq] at h
      rw [← h.1]
      exact signedNumber_ne_nan _ _

theorem parse_noNaN (fuel : Nat) :
    (∀ cs v r, parseValue fuel cs = some (v, r) → v.NoNaN) ∧
    (∀ cs acc v r, parseItems fuel cs acc = some (v, r) → (∀ a ∈ acc, JVal.NoNaN a) → v.NoNaN) ∧
    (∀ cs acc v r, parseMembers fuel cs acc = some (v, r) →
      (∀ kv ∈ acc, JVal.NoNaN kv.2) → v.NoNaN) := by
  induction fuel with
  | zero =>
    refine ⟨?_, ?_, ?_⟩
    · intro cs v r h; simp [parseValue] at h
    · intro cs acc v r h; simp [parseItems] at h
    · intro cs acc v r h; simp [parseMembers] at h
  | succ fuel ih =>
    obtain ⟨ihv, ihi, ihm⟩ := ih
    refine ⟨?_, ?_, ?_⟩
    · intro cs v r h
      rw [parseValue] at h
      split at h
      · exact absurd h (by simp)
      · split_ifs at h
        · simp only [Option.map_eq_some'] at h
          obtain ⟨_, _, h⟩ := h
          cases h; exact .null
        · simp only [Option.map_eq_some'] at h
          obtain ⟨_, _, h⟩ := h
          cases h; exact .bool _
        · simp only [Option.map_eq_some'] at h
          obtain ⟨_, _, h⟩ := h
          cases h; exact .bool _
        · simp only [Option.map_eq_some'] at h
          obtain ⟨_, _, h⟩ := h
          cases h; exact .str _
        · split at h
          · exact absurd h (by simp)
          · split_ifs at h
            · cases h; exact .arr _ (by simp)
            · exact ihi _ _ _ _ h (by simp)
        · split at h
          · exact absurd h (by simp)
          · split_ifs at h
            · cases h; exact .obj _ (by simp)
            · exact ihm _ _ _ _ h (by simp)
        · simp only [Option.map_eq_some'] at h
          obtain ⟨⟨n, t⟩, hn, h⟩ := h
          cases h; exact .num _ (parseNumber_ne_nan hn)
    · intro cs acc v r h hacc
      rw [parseItems] at h
      split at h
      · exact absurd h (by simp)
      · rename_i w r1 hw
        have hwn := ihv _ _ _ hw
        split at h
        · exact absurd h (by simp)
        · split_ifs at h
          · exact ihi _ _ _ _ h (by
              intro a ha
              rcases List.mem_cons.1 ha with rfl | ha
              · exact hwn
              · exact hacc a ha)
          · cases h
            refine .arr _ ?_
            intro x hx
            rcases List.mem_cons.1 (List.mem_reverse.1 hx) with rfl | hx
            · exact hwn
            · exact hacc x hx
    · intro cs acc v r h hacc
      rw [parseMembers] at h
      split at h
      · exact absurd h (by simp)
      · split_ifs at h
        split at h
        · exact absurd h (by simp)
        · split at h
          · exact absurd h (by simp)
          · split_ifs at h
            split at h
            · exact absurd h (by simp)
            · rename_i w r3 hw
              have hwn := ihv _ _ _ hw
              split at h
              · exact absurd h (by simp)
              · split_ifs at h
                · exact ihm _ _ _ _ h (by
                    intro a ha
                    rcases List.mem_cons.1 ha with rfl | ha
                    · exact hwn
                    · exact hacc a ha)
                · cases h
                  refine .obj _ ?_
                  intro x hx
                  rcases List.mem_cons.1 (List.mem_reverse.1 hx) with rfl | hx
                  · exact hwn
                  · exact hacc x hx

theorem jsonParse_noNaN {raw : String} {p : JVal} (h : jsonParse raw = some p) : p.NoNaN := by
  unfold jsonParse at h
  split at h
  · split_ifs at h
    cases h
    rename_i hv
    exact (parse_noNaN _).1 _ _ _ hv
  · exact absurd h (by simp)

theorem lookupMember_mem {key : String} {ms : List (String × JVal)} {v : JVal}
    (h : lookupMember key ms = some v) : ∃ kv ∈ ms, kv.2 = v := by
  induction ms with
  | nil => simp [lookupMember] at h
  | cons kv rest ih =>
    obtain ⟨k, w⟩ := kv
    rw [lookupMember] at h
    split at h
    · obtain ⟨kv, hkv, hv⟩ := ih (by rename_i heq; rw [heq, h])
      exact ⟨kv, List.mem_cons_of_mem _ hkv, hv⟩
    · split_ifs at h
      cases h
      exact ⟨(k, v), List.mem_cons_self _ _, rfl⟩

theorem prop_num_ne_nan {p : JVal} (hp : p.NoNaN) {key : String} {n : JSNumber}
    (h : p.prop key = some (.num n)) : n ≠ .nan := by
  cases hp with
  | obj ms hall =>
    obtain ⟨kv, hkv, hv⟩ := lookupMember_mem (by simpa [JVal.prop] using h)
    have := hall kv hkv
    rw [hv] at this
    cases this with
    | num _ hn => exact hn
  | _ => simp [JVal.prop] at h
theorem orZero_num {n : JSNumber} (h : n ≠ .nan) : orZero (some (.num n)) = .num n := by
  cases n with
  | nan => exact absurd rfl h
  | posInf => rfl
  | negInf => rfl
  | fin q =>
    by_cases hq : q = 0
    · subst hq; simp [orZero, JVal.truthy, JSNumber.truthy, JSNumber.ofNat]
    · simp [orZero, JVal.truthy, JSNumber.truthy, hq]

/-! ## The fuel of `JSON.parse` is never the limit -/

theorem dropWhile_length_le (p : Char → Bool) (cs : List Char) :
    (cs.dropWhile p).length ≤ cs.length :=
  (List.dropWhile_sublist p).length_le

theorem skipWs_length_le (cs : List Char) : (skipWs cs).length ≤ cs.length :=
  dropWhile_length_le _ _

theorem parseStringBody_length : ∀ (cs : List Char) (acc : List Nat) (u : List Nat)
    (r : List Char), parseStringBody cs acc = some (u, r) → r.length < cs.length
  | [], _, _, _, h => by simp [parseStringBody] at h
  | c :: t, acc, u, r, h => by
    rw [parseStringBody.eq_def] at h
    simp only [] at h
    split_ifs at h
    · cases h; simp
    · split at h
      · exact absurd h (by simp)
      · rename_i e r1
        split_ifs at h
        · split at h
          · rename_i a b c2 d r2
            split at h
            · have := parseStringBody_length r2 _ u r h
              simp only [List.length_cons] at this ⊢
              omega
            · exact absurd h (by simp)
          · exact absurd h (by simp)
        · split at h
          · have := parseStringBody_length r1 _ u r h
            simp only [List.length_cons] at this ⊢
            omega
          · exact absurd h (by simp)
    · have := parseStringBody_length t _ u r h
      simp only [List.length_cons] at this ⊢
      omega

theorem parseString_length {cs : List Char} {s : String} {r : List Char}
    (h : parseString cs = some (s, r)) : r.length < cs.length := by
  unfold parseString at h
  split at h
  · rename_i units rest hb
    cases h
    exact parseStringBody_length _ _ _ _ hb
  · exact absurd h (by simp)

theorem expectWord_length {w : String} {cs r : List Char} (hw : w.data ≠ [])
    (h : expectWord w cs = some r) : r.length < cs.length := by
  unfold expectWord at h
  split_ifs at h with hp
  cases h
  have hle : w.data.length ≤ cs.length := (List.isPrefixOf_iff_prefix.1 hp).length_le
  have hpos : 0 < w.data.length := List.length_pos.2 hw
  simp only [List.length_drop]
  omega

theorem takeWhile_dropWhile_length (p : Char → Bool) (l : List Char) :
    (l.takeWhile p).length + (l.dropWhile p).length = l.length := by
  rw [← List.length_append, List.takeWhile_append_dropWhile]

theorem takeSign_length_le (cs : List Char) : (takeSign cs).2.length ≤ cs.length := by
  cases cs with
  | nil => simp [takeSign]
  | cons c r =>
    simp only [takeSign]
    split_ifs <;> simp

theorem takeMinus_length_le (cs : List Char) : (takeMinus cs).2.length ≤ cs.length := by
  cases cs with
  | nil => simp [takeMinus]
  | cons c r =>
    simp only [takeMinus]
    split_ifs <;> simp

theorem jsonFraction_length_le {r1 fracDs r2 : List Char}
    (h : jsonFraction r1 = some (fracDs, r2)) : r2.length ≤ r1.length := by
  cases r1 with
  | nil => simp [jsonFraction] at h; rw [h.2]
  | cons c t =>
    simp only [jsonFraction] at h
    split_ifs at h
    · simp only [Option.some.injEq, Prod.mk.injEq] at h
      rw [← h.2]
      have := dropWhile_length_le isDecDigit t
      simp only [List.length_cons]
      omega
    · simp only [Option.some.injEq, Prod.mk.injEq] at h
      rw [← h.2]

theorem jsonExponent_length_le {r2 r3 : List Char} {e : Int}
    (h : jsonExponent r2 = some (e, r3)) : r3.length ≤ r2.length := by
  cases r2 with
  | nil => simp [jsonExponent] at h; rw [h.2]
  | cons c t =>
    simp only [jsonExponent] at h
    split_ifs at h
    all_goals
      simp only [Option.some.injEq, Prod.mk.injEq] at h
      obtain ⟨_, rfl⟩ := h
      have ha := dropWhile_length_le isDecDigit (takeSign t).2
      have hb := takeSign_length_le t
      simp only [List.length_cons]
      omega

theorem parseNumber_length {cs : List Char} {n : JSNumber} {r : List Char}
    (h : parseNumber cs = some (n, r)) : r.length < cs.length := by
  unfold parseNumber at h
  simp only [] at h
  split_ifs at h with hint hzero
  have h0 := takeMinus_length_le cs
  have h1 := takeWhile_dropWhile_length isDecDigit (takeMinus cs).2
  have hpos : 0 < (List.takeWhile isDecDigit (takeMinus cs).2).length := by
    apply List.length_pos.2
    intro hnil
    rw [hnil] at hint
    exact hint rfl
  split at h
  · exact absurd h (by simp)
  · rename_i fracDs r2 hfr
    have hr2 := jsonFraction_length_le hfr
    split at h
    · exact absurd h (by simp)
    · rename_i e r3 hex
      have hr3 := jsonExponent_length_le hex
      simp only [Option.some.injEq, Prod.mk.injEq] at h
      rw [← h.2]
      omega
theorem parse_fuel (fuel : Nat) :
    (∀ cs v r, parseValue fuel cs = some (v, r) →
      r.length < cs.length ∧ ∀ f, cs.length - r.length ≤ f → parseValue f cs = some (v, r)) ∧
    (∀ cs acc v r, parseItems fuel cs acc = some (v, r) →
      r.length < cs.length ∧
        ∀ f, cs.length - r.length ≤ f → parseItems f cs acc = some (v, r)) ∧
    (∀ cs acc v r, parseMembers fuel cs acc = some (v, r) →
      r.length < cs.length ∧
        ∀ f, cs.length - r.length ≤ f → parseMembers f cs acc = some (v, r)) := by
  induction fuel with
  | zero =>
    refine ⟨?_, ?_, ?_⟩
    · intro cs v r h; simp [parseValue] at h
    · intro cs acc v r h; simp [parseItems] at h
    · intro cs acc v r h; simp [parseMembers] at h
  | succ fuel ih =>
    obtain ⟨ihv, ihi, ihm⟩ := ih
    refine ⟨?_, ?_, ?_⟩
    · intro cs v r h
      have hws := skipWs_length_le cs
      rw [parseValue] at h
      split at h
      · exact absurd h (by simp)
      · rename_i c r0 hsk
        rw [hsk] at hws
        simp only [List.length_cons] at hws
        -- the length claim first, then the fuel claim from it
        have hlen : r.length < cs.length := by
          split_ifs at h
          · simp only [Option.map_eq_some'] at h
            obtain ⟨t, ht, h⟩ := h
            cases h
            have := expectWord_length (by decide) ht
            simp only [List.length_cons] at this
            omega
          · simp only [Option.map_eq_some'] at h
            obtain ⟨t, ht, h⟩ := h
            cases h
            have := expectWord_length (by decide) ht
            simp only [List.length_cons] at this
            omega
          · simp only [Option.map_eq_some'] at h
            obtain ⟨t, ht, h⟩ := h
            cases h
            have := expectWord_length (by decide) ht
            simp only [List.length_cons] at this
            omega
          · simp only [Option.map_eq_some'] at h
            obtain ⟨⟨s, t⟩, ht, h⟩ := h
            simp only [Option.some.injEq, Prod.mk.injEq] at h
            obtain ⟨_, rfl⟩ := h
            have := parseString_length ht
            omega
          · split at h
            · exact absurd h (by simp)
            · rename_i d r1 hsk1
              have hws1 := skipWs_length_le r0
              rw [hsk1] at hws1
              simp only [List.length_cons] at hws1
              split_ifs at h
              · cases h; omega
              · have := (ihi _ _ _ _ h).1
                simp only [List.length_cons] at this
                omega
          · split at h
            · exact absurd h (by simp)
            · rename_i d r1 hsk1
              have hws1 := skipWs_length_le r0
              rw [hsk1] at hws1
              simp only [List.length_cons] at hws1
              split_ifs at h
              · cases h; omega
              · have := (ihm _ _ _ _ h).1
                simp only [List.length_cons] at this
                omega
          · simp only [Option.map_eq_some'] at h
            obtain ⟨⟨n, t⟩, ht, h⟩ := h
            simp only [Option.some.injEq, Prod.mk.injEq] at h
            obtain ⟨_, rfl⟩ := h
            have := parseNumber_length ht
            simp only [List.length_cons] at this
            omega
        refine ⟨hlen, ?_⟩
        intro f hf
        obtain ⟨g, rfl⟩ : ∃ g, f = g + 1 := ⟨f - 1, by omega⟩
        rw [parseValue, hsk]
        simp only []
        split_ifs at h ⊢
        · exact h
        · exact h
        · exact h
        · exact h
        · split at h
          · exact absurd h (by simp)
          · rename_i d r1 hsk1
            have hws1 := skipWs_length_le r0
            rw [hsk1] at hws1
            simp only [List.length_cons] at hws1
            split_ifs at h ⊢
            · exact h
            · have := ihi _ _ _ _ h
              apply this.2
              simp only [List.length_cons]
              omega
        · split at h
          · exact absurd h (by simp)
          · rename_i d r1 hsk1
            have hws1 := skipWs_length_le r0
            rw [hsk1] at hws1
            simp only [List.length_cons] at hws1
            split_ifs at h ⊢
            · exact h
            · have := ihm _ _ _ _ h
              apply this.2
              simp only [List.length_cons]
              omega
        · exact h
    · intro cs acc v r h
      rw [parseItems] at h
      split at h
      · exact absurd h (by simp)
      · rename_i w r1 hw
        obtain ⟨hwlen, hwfuel⟩ := ihv _ _ _ hw
        split at h
        · exact absurd h (by simp)
        · rename_i d r2 hsk
          have hws := skipWs_length_le r1
          rw [hsk] at hws
          simp only [List.length_cons] at hws
          have hlen : r.length < cs.length := by
            split_ifs at h
            · have := (ihi _ _ _ _ h).1
              omega
            · cases h; omega
          refine ⟨hlen, ?_⟩
          intro f hf
          obtain ⟨g, rfl⟩ : ∃ g, f = g + 1 := ⟨f - 1, by omega⟩
          have hrlen : r.length ≤ r2.length := by
            split_ifs at h
            · have := (ihi _ _ _ _ h).1
              omega
            · cases h; exact le_refl _
          rw [parseItems, hwfuel g (by omega)]
          simp only [hsk]
          split_ifs at h ⊢
          · exact (ihi _ _ _ _ h).2 g (by omega)
          · exact h
    · intro cs acc v r h
      have hws0 := skipWs_length_le cs
      rw [parseMembers] at h
      split at h
      · exact absurd h (by simp)
      · rename_i q r0 hsk0
        rw [hsk0] at hws0
        simp only [List.length_cons] at hws0
        split_ifs at h with hq
        split at h
        · exact absurd h (by simp)
        · rename_i k r1 hk
          have hklen := parseString_length hk
          split at h
          · exact absurd h (by simp)
          · rename_i col r2 hsk1
            have hws1 := skipWs_length_le r1
            rw [hsk1] at hws1
            simp only [List.length_cons] at hws1
            split_ifs at h with hcol
            split at h
            · exact absurd h (by simp)
            · rename_i w r3 hw
              obtain ⟨hwlen, hwfuel⟩ := ihv _ _ _ hw
              split at h
              · exact absurd h (by simp)
              · rename_i d r4 hsk3
                have hws3 := skipWs_length_le r3
                rw [hsk3] at hws3
                simp only [List.length_cons] at hws3
                have hrlen : r.length ≤ r4.length := by
                  split_ifs at h
                  · have := (ihm _ _ _ _ h).1
                    omega
                  · cases h; exact le_refl _
                refine ⟨by omega, ?_⟩
                intro f hf
                obtain ⟨g, rfl⟩ : ∃ g, f = g + 1 := ⟨f - 1, by omega⟩
                rw [parseMembers, hsk0]
                simp only [hq, if_true, hk, hsk1, hcol]
                rw [hwfuel g (by omega)]
                simp only [hsk3]
                split_ifs at h ⊢
                · exact (ihm _ _ _ _ h).2 g (by omega)
                · exact h

/-- A parse that succeeds with some fuel succeeds, with the same result, with the
fuel `jsonParse` uses: the length of the text plus one. -/
theorem parseValue_fuel_adequate {fuel : Nat} {cs : List Char} {v : JVal} {r : List Char}
    (h : parseValue fuel cs = some (v, r)) : parseValue (cs.length + 1) cs = some (v, r) :=
  ((parse_fuel fuel).1 cs v r h).2 _ (by omega)

/-- Whatever fuel lets the parse of a text succeed, `jsonParse` gives the same
value (when only white space follows) or the same rejection. -/
theorem jsonParse_of_fuel {fuel : Nat} {text : String} {v : JVal} {rest : List Char}
    (h : parseValue fuel text.data = some (v, rest)) :
    jsonParse text = if (skipWs rest).isEmpty then some v else none := by
  unfold jsonParse
  rw [parseValue_fuel_adequate h]

/-! ## Texts without surrogate escapes are read exactly -/

theorem char_not_surrogate (c : Char) : isSurrogateUnit c.toNat = false := by
  have hv := c.valid
  unfold UInt32.isValidChar Nat.isValidChar at hv
  have ht : c.toNat = c.val.toNat := rfl
  simp only [isSurrogateUnit, Bool.and_eq_false_imp, decide_eq_true_eq, decide_eq_false_iff_not]
  omega

theorem surrogateEscapeFree_tail {c : Char} {rest : List Char}
    (h : surrogateEscapeFree (c :: rest) = true) : surrogateEscapeFree rest = true := by
  simp only [surrogateEscapeFree, Bool.and_eq_true] at h
  exact h.2

theorem hexDigitVal_bound {c : Char} {v : Nat} (h : hexDigitVal c = some v) :
    v < 16 ∧ (v = 13 → c.toNat = 100 ∨ c.toNat = 68) := by
  unfold hexDigitVal at h
  simp only [Bool.and_eq_true, decide_eq_true_eq] at h
  split_ifs at h with h1 h2 h3
  · cases h; omega
  · cases h; omega
  · cases h; omega

theorem escaped_unit_not_surrogate {a b c d : Char} {x y z w : Nat} {rest : List Char}
    (hfree : surrogateEscapeFree ('\\' :: 'u' :: a :: b :: c :: d :: rest) = true)
    (hx : hexDigitVal a = some x) (hy : hexDigitVal b = some y) (hz : hexDigitVal c = some z)
    (hw : hexDigitVal d = some w) :
    isSurrogateUnit (((x * 16 + y) * 16 + z) * 16 + w) = false := by
  have bx := hexDigitVal_bound hx
  have by1 := hexDigitVal_bound hy
  have bz := hexDigitVal_bound hz
  have bw := hexDigitVal_bound hw
  have hne : ¬(a.toNat = 100 ∨ a.toNat = 68) := by
    simp only [surrogateEscapeFree, Bool.and_eq_true, Bool.not_eq_true', decide_True,
      Bool.true_and, Bool.or_eq_false_iff, beq_eq_false_iff_ne, ne_eq] at hfree
    intro ho
    rcases ho with ho | ho
    · exact hfree.1.1 ho
    · exact hfree.1.2 ho
  have hx13 : x ≠ 13 := fun h13 => hne (bx.2 h13)
  simp only [isSurrogateUnit, Bool.and_eq_false_imp, decide_eq_true_eq, decide_eq_false_iff_not]
  omega

theorem parseStringBody_no_surrogate : ∀ (cs : List Char) (acc : List Nat) (u : List Nat)
    (r : List Char), parseStringBody cs acc = some (u, r) → surrogateEscapeFree cs = true →
    (∀ x ∈ acc, isSurrogateUnit x = false) →
    (∀ x ∈ u, isSurrogateUnit x = false) ∧ surrogateEscapeFree r = true
  | [], _, _, _, h, _, _ => by simp [parseStringBody] at h
  | c :: t, acc, u, r, h, hfree, hacc => by
    rw [parseStringBody.eq_def] at h
    simp only [] at h
    have hcons : ∀ (n : Nat), isSurrogateUnit n = false →
        ∀ x ∈ n :: acc, isSurrogateUnit x = false := by
      intro n hn x hx
      rcases List.mem_cons.1 hx with rfl | hx
      · exact hn
      · exact hacc x hx
    split_ifs at h with hq hb hctl
    · cases h
      exact ⟨fun x hx => hacc x (List.mem_reverse.1 hx), surrogateEscapeFree_tail hfree⟩
    · split at h
      · exact absurd h (by simp)
      · rename_i e r1
        split_ifs at h with he
        · split at h
          · rename_i a b c2 d r2
            split at h
            · rename_i x y z w hx hy hz hw
              subst hb he
              have hfree2 : surrogateEscapeFree r2 = true :=
                surrogateEscapeFree_tail (surrogateEscapeFree_tail (surrogateEscapeFree_tail
                  (surrogateEscapeFree_tail (surrogateEscapeFree_tail
                    (surrogateEscapeFree_tail hfree)))))
              exact parseStringBody_no_surrogate r2 _ u r h hfree2
                (hcons _ (escaped_unit_not_surrogate hfree hx hy hz hw))
            · exact absurd h (by simp)
          · exact absurd h (by simp)
        · split at h
          · rename_i ch hch
            exact parseStringBody_no_surrogate r1 _ u r h
              (surrogateEscapeFree_tail (surrogateEscapeFree_tail hfree))
              (hcons _ (char_not_surrogate ch))
          · exact absurd h (by simp)
    · exact parseStringBody_no_surrogate t _ u r h (surrogateEscapeFree_tail hfree)
        (hcons _ (char_not_surrogate c))

theorem combineUnits_exact : ∀ (u : List Nat), (∀ x ∈ u, isSurrogateUnit x = false) →
    combineUnits u = u.map Char.ofNat
  | [], _ => rfl
  | [a], h => by
    have ha := h a (List.mem_singleton.2 rfl)
    simp only [isSurrogateUnit, Bool.and_eq_false_imp, decide_eq_true_eq,
      decide_eq_false_iff_not] at ha
    have hn : ¬(0xD800 ≤ a ∧ a ≤ 0xDFFF) := fun hh => ha hh.1 hh.2
    simp [combineUnits, hn]
  | a :: b :: r, h => by
    have ha := h a (List.mem_cons_self _ _)
    simp only [isSurrogateUnit, Bool.and_eq_false_imp, decide_eq_true_eq,
      decide_eq_false_iff_not] at ha
    have hn : ¬(0xD800 ≤ a ∧ a ≤ 0xDFFF) := fun hh => ha hh.1 hh.2
    have hn2 : ¬(0xD800 ≤ a ∧ a ≤ 0xDBFF ∧ 0xDC00 ≤ b ∧ b ≤ 0xDFFF) :=
      fun hh => ha hh.1 (by omega)
    have ih := combineUnits_exact (b :: r) (fun x hx => h x (List.mem_cons_of_mem a hx))
    rw [combineUnits]
    simp only [hn, hn2, if_false, ih, List.map_cons]

/-- On a text without surrogate escapes a JSON string is read exactly: no
surrogate code unit arises, each code unit is one code point, and the rest of
the text is again free of surrogate escapes. -/
theorem parseString_exact {cs : List Char} {s : String} {r : List Char}
    (hfree : surrogateEscapeFree cs = true) (h : parseString cs = some (s, r)) :
    ∃ units, parseStringBody cs [] = some (units, r) ∧ s = ⟨units.map Char.ofNat⟩ ∧
      (∀ x ∈ units, isSurrogateUnit x = false) ∧ surrogateEscapeFree r = true := by
  unfold parseString at h
  split at h
  · rename_i units rest hb
    simp only [Option.some.injEq, Prod.mk.injEq] at h
    obtain ⟨hs, hr⟩ := h
    subst hr
    obtain ⟨hu, hrest⟩ := parseStringBody_no_surrogate cs [] units rest hb hfree
      (fun x hx => by cases hx)
    exact ⟨units, hb, by rw [← hs, combineUnits_exact units hu], hu, hrest⟩
  · exact absurd h (by simp)

/-! ## Lemmas on `find` and `map` -/

theorem findFirst_none {pred : JVal → Except JSError Bool} {items : List JVal}
    (h : ∀ x ∈ items, pred x = .ok false) : findFirst pred items = .ok none := by
  induction items with
  | nil => rfl
  | cons x rest ih =>
    rw [findFirst, h x (List.mem_cons_self _ _)]
    exact ih (fun y hy => h y (List.mem_cons_of_mem _ hy))

theorem findFirst_first {pred : JVal → Except JSError Bool} {pre post : List JVal} {d : JVal}
    (hpre : ∀ x ∈ pre, pred x = .ok false) (hd : pred d = .ok true) :
    findFirst pred (pre ++ d :: post) = .ok (some d) := by
  induction pre with
  | nil => simp [findFirst, hd]
  | cons x rest ih =>
    rw [List.cons_append, findFirst, hpre x (List.mem_cons_self _ _)]
    exact ih (fun y hy => hpre y (List.mem_cons_of_mem _ hy))

theorem getProp_of_prop {p : JVal} {key : String} {v : JVal} (h : p.prop key = some v) :
    getProp p key = .ok (some v) := by
  cases p <;> simp [JVal.prop] at h
  simp [getProp, JVal.prop, h]

theorem truthy_of_detailMatches {sub : Option String} {tm : MonthValue} {ty : JSNumber}
    {d : JVal} (h : detailMatches sub tm ty d = .ok true) : d.truthy = true := by
  cases d with
  | obj ms => rfl
  | null => simp [detailMatches, getProp] at h
  | bool b => simp [detailMatches, getProp, JVal.prop, strictEqNumber] at h
  | num n => simp [detailMatches, getProp, JVal.prop, strictEqNumber] at h
  | str s => simp [detailMatches, getProp, JVal.prop, strictEqNumber] at h
  | arr xs => simp [detailMatches, getProp, JVal.prop, strictEqNumber] at h

theorem mapLines_ok {f : JVal → Except JSError String} {g : JVal → String} {items : List JVal}
    (h : ∀ x ∈ items, f x = .ok (g x)) : mapLines f items = .ok (items.map g) := by
  induction items with
  | nil => rfl
  | cons x rest ih =>
    rw [mapLines, h x (List.mem_cons_self _ _),
      ih (fun y hy => h y (List.mem_cons_of_mem _ hy))]
    rfl

theorem historyLine_ok (inherited : String → Option String) {item : JVal}
    (hnull : item ≠ .null)
    (hm : ∃ s, valueText (item.prop "month") = .ok s)
    (hy : ∃ s, valueText (item.prop "year") = .ok s)
    (ht : ∃ s, valueText (item.prop "totalAmount") = .ok s) :
    historyLine inherited item =
      .ok ("- " ++ optText (monthNamesByKey inherited (printedText (item.prop "month"))) ++ " " ++
        printedText (item.prop "year") ++ "  | Amount Due: $" ++
        printedText (item.prop "totalAmount") ++ " | Paid: " ++
        (if truthy (item.prop "isPaid") then "Yes" else "No")) := by
  obtain ⟨m, hm⟩ := hm
  obtain ⟨y, hy⟩ := hy
  obtain ⟨t, ht⟩ := ht
  have hget : getProp item "month" = .ok (item.prop "month") := by
    cases item <;> first | rfl | exact absurd rfl hnull
  simp only [historyLine, hget, hm, hy, ht, printedText]

/-! ## C1 -/

/-- C1 (as stated) fails once the year leaves the exactly representable range of
a JavaScript Number: for month 12 and year numeral 9007199254740992 (2 ^ 53) the
year is not rolled to 9007199254740993; the code prints 9007199254740992 again. -/
theorem calculateDueDate_year_beyond_2_pow_53 :
    calculateDueDate (.num (.ofNat 12)) (some (Nat.repr 9007199254740992))
        = "January 10, 9007199254740992" ∧
      calculateDueDate (.num (.ofNat 12)) (some (Nat.repr 9007199254740992))
        ≠ "January 10, " ++ Nat.repr (9007199254740992 + 1) := by
  decide!

/-- C1 (amended): for every month number m from 1 to 11 and every year numeral
y below 2 ^ 53, `calculateDueDate` returns the English name of month m + 1,
then " 10, " and y; for m = 12 it returns "January 10, " and the numeral of
y + 1. -/
theorem calculateDueDate_next_month (m y : Nat) (hm1 : 1 ≤ m) (hm12 : m ≤ 12)
    (hy : y < 2 ^ 53) :
    (m ≤ 11 → calculateDueDate (.num (.ofNat m)) (some (Nat.repr y))
        = englishMonthName (m + 1) ++ " 10, " ++ Nat.repr y) ∧
      (m = 12 → calculateDueDate (.num (.ofNat m)) (some (Nat.repr y))
        = "January 10, " ++ Nat.repr (y + 1)) := by
  have hmonth : (jsParseInt (MonthValue.num (.ofNat m)).text).add (.ofNat 1) = .ofNat (m + 1) := by
    rw [parseInt_month_text (by omega)]
    exact add_natCast (a := m) (b := 1) (le_trans (by omega : m + 1 ≤ 13) (by norm_num))
  have hyear : jsParseInt (Nat.repr y) = .fin (y : ℚ) := jsParseInt_repr (le_of_lt hy)
  constructor
  · intro h11
    have hgt : (JSNumber.ofNat (m + 1)).gt (.ofNat 12) = false := by
      rw [gt_ofNat]; simp; omega
    simp only [calculateDueDate, hmonth, hyear, hgt, Bool.false_eq_true, if_false,
      monthNamesAt_ofNat, monthNames_get (m + 1) (by omega) (by omega), optText,
      numToString_natCast hy]
  · intro h12
    have hgt : (JSNumber.ofNat (m + 1)).gt (.ofNat 12) = true := by
      rw [gt_ofNat]; simp; omega
    have hadd : (JSNumber.fin (y : ℚ)).add (.ofNat 1) = .fin ((y + 1 : Nat) : ℚ) :=
      add_natCast (a := y) (b := 1) (by omega)
    have hone : monthNamesAt (.ofNat 1) = some "January" := by
      rw [monthNamesAt_ofNat]; rfl
    have hs : numToString (.fin ((y + 1 : Nat) : ℚ)) = Nat.repr (y + 1) := by
      by_cases hlt : y + 1 < 2 ^ 53
      · exact numToString_natCast hlt
      · have : y + 1 = 2 ^ 53 := by omega
        rw [this]; decide!
    simp only [calculateDueDate, hmonth, hyear, hgt, if_true, hadd, hone, optText, hs]
    rfl

/-- C1 at the inputs of the specification: month 3 of 2024 is due "April 10,
2024" and month 12 of 2024 is due "January 10, 2025". -/
theorem calculateDueDate_next_month_witness :
    calculateDueDate (.num (.ofNat 3)) (some (Nat.repr 2024)) = "April 10, 2024" ∧
      calculateDueDate (.num (.ofNat 12)) (some (Nat.repr 2024)) = "January 10, 2025" :=
  ⟨(calculateDueDate_next_month 3 2024 (by decide) (by decide) (by norm_num)).1 (by decide),
   (calculateDueDate_next_month 12 2024 (by decide) (by decide) (by norm_num)).2 rfl⟩

/-! ## C2 -/

/-- C2 (as stated) fails for a large amount: with `totalAmount` 1e21 the amount
line reads "Amount Due:       $1e+21", which carries no decimals at all, where
two decimals would give "1000000000000000000000.00". -/
theorem query_bill_amount_exponent_notation :
    jsonParse "\x7b\"totalAmount\":1e21\x7d" = some (.obj [("totalAmount", .num (.fin (10 ^ 21)))]) ∧
      generateUserFriendlyMessage noInherited
        "intent=query_bill;subscriberNo=123;month=march;year=2024" "\x7b\"totalAmount\":1e21\x7d"
        = .ok ("Bill Summary:\n" ++
          "----------------------------\n" ++
          "Subscriber:       123\n" ++
          "Month:            March 2024\n" ++
          "Amount Due:       $1e+21\n" ++
          "Due Date:         April 10, 2024\n" ++
          "----------------------------\n" ++
          "Would you like to see the detailed bill or proceed with payment?") ∧
      twoDecimals (10 ^ 21) = "1000000000000000000000.00" := by
  decide!

/-- C2 (amended): for every intent line whose intent is `query_bill` and whose
month is a month name (in any letter case) or a numeral from 1 to 12, and every
JSON payload without a truthy `noData` and with a Number `totalAmount` t,
`generateUserFriendlyMessage` returns the Bill Summary block whose amount line
is "Amount Due:       $" followed by `t.toFixed(2)` and whose due-date line
carries `calculateDueDate` of the billed month; and `t.toFixed(2)` is t with
exactly two decimals whenever t is finite and below 10 ^ 21 in magnitude. -/
theorem query_bill_summary (inherited : String → Option String) (line raw ms : String)
    (p : JVal) (t : JSNumber) (k : Nat)
    (hintent : fieldAt (intentPartsOf line) 0 = some "query_bill")
    (hmonth : fieldAt (intentPartsOf line) 2 = some ms)
    (h1 : 1 ≤ k) (h12 : k ≤ 12)
    (hname : jsToLowerCase ms = jsToLowerCase (englishMonthName k) ∨ ms = Nat.repr k)
    (hparse : jsonParse raw = some p)
    (hnoData : truthy (p.prop "noData") = false)
    (htotal : p.prop "totalAmount" = some (.num t)) :
    generateUserFriendlyMessage inherited line raw =
      .ok ("Bill Summary:\n" ++
        "----------------------------\n" ++
        "Subscriber:       " ++ optText (fieldAt (intentPartsOf line) 1) ++ "\n" ++
        "Month:            " ++ englishMonthName k ++ " " ++
          optText (fieldAt (intentPartsOf line) 3) ++ "\n" ++
        "Amount Due:       $" ++ toFixed t 2 ++ "\n" ++
        "Due Date:         " ++
          calculateDueDate (.num (.ofNat k)) (fieldAt (intentPartsOf line) 3) ++ "\n" ++
        "----------------------------\n" ++
        "Would you like to see the detailed bill or proceed with payment?") ∧
      (∀ q : ℚ, t = .fin q → (if q < 0 then -q else q) < 10 ^ 21 →
        toFixed t 2 = twoDecimals q) := by
  have hobj : p.truthy = true := by
    cases p <;> simp [JVal.prop] at htotal
    rfl
  have hguard : noUsableTotal p = false := by
    simp [noUsableTotal, hobj, hnoData, htotal]
  have hprinted : (toFixed t 2).data.isEmpty = false := by
    have := toFixed_two_data_ne_nil t
    cases h : (toFixed t 2).data with
    | nil => exact absurd h this
    | cons c r => rfl
  refine ⟨?_, ?_⟩
  · simp only [generateUserFriendlyMessage, hparse, hintent, hmonth, queryBillMessage, hguard,
      htotal, hprinted, monthNumOf_recognised h1 h12 hname, monthLabelOf_ofNat h1 h12,
      billSummary, optText]
    simp
  · intro q hq hlt
    subst hq
    exact toFixed_two_decimals q (by rw [pow10_twenty_one]; exact hlt)

/-- C2 (amended) at the input of the specification: subscriber 123, month march,
year 2024 and `totalAmount` 45.5 give the amount line "Amount Due:       $45.50"
and the due date "April 10, 2024". -/
theorem query_bill_summary_witness :
    jsonParse "\x7b\"totalAmount\":45.5\x7d" = some (.obj [("totalAmount", .num (.fin 45.5))]) ∧
      generateUserFriendlyMessage noInherited
        "intent=query_bill;subscriberNo=123;month=march;year=2024" "\x7b\"totalAmount\":45.5\x7d"
        = .ok ("Bill Summary:\n" ++
          "----------------------------\n" ++
          "Subscriber:       123\n" ++
          "Month:            March 2024\n" ++
          "Amount Due:       $45.50\n" ++
          "Due Date:         April 10, 2024\n" ++
          "----------------------------\n" ++
          "Would you like to see the detailed bill or proceed with payment?") ∧
      twoDecimals 45.5 = "45.50" :=
  ⟨by decide!,
   (query_bill_summary noInherited "intent=query_bill;subscriberNo=123;month=march;year=2024"
      "\x7b\"totalAmount\":45.5\x7d" "march" (.obj [("totalAmount", .num (.fin 45.5))])
      (.fin 45.5) 3 (by decide!) (by decide!) (by decide) (by decide) (Or.inl (by decide!))
      (by decide!) (by decide!) (by decide!)).1.trans (by decide!),
   by decide!⟩

/-! ## C3 -/

/-- C3: for every intent line whose intent is `query_bill` and every JSON payload
that is `null`, has a truthy `noData`, or has no `totalAmount`,
`generateUserFriendlyMessage` returns exactly "No bill found for subscriber
SUB for MONTH YEAR." with the line's subscriber and year and the month's
display label. -/
theorem query_bill_no_bill_found (inherited : String → Option String) (line raw : String)
    (p : JVal)
    (hintent : fieldAt (intentPartsOf line) 0 = some "query_bill")
    (hparse : jsonParse raw = some p)
    (hpayload : p = .null ∨ truthy (p.prop "noData") = true ∨ p.prop "totalAmount" = none) :
    generateUserFriendlyMessage inherited line raw =
      .ok ("No bill found for subscriber " ++ optText (fieldAt (intentPartsOf line) 1) ++
        " for " ++
        optText (monthLabelOf (monthNumOf (fieldAt (intentPartsOf line) 2))
          (fieldAt (intentPartsOf line) 2)) ++
        " " ++ optText (fieldAt (intentPartsOf line) 3) ++ ".") := by
  have hguard : noUsableTotal p = true := by
    rcases hpayload with h | h | h
    · subst h; rfl
    · simp [noUsableTotal, h]
    · simp [noUsableTotal, h]
  simp only [generateUserFriendlyMessage, hparse, hintent, queryBillMessage, hguard, if_true,
    noBillFound]
  simp
/-- C3 at a concrete input: the line of subscriber 123 for march 2024 with the
payload `noData: true` gives "No bill found for subscriber 123 for March 2024." -/
theorem query_bill_no_bill_found_witness :
    jsonParse "\x7b\"noData\":true\x7d" = some (.obj [("noData", .bool true)]) ∧
      generateUserFriendlyMessage noInherited
        "intent=query_bill;subscriberNo=123;month=march;year=2024" "\x7b\"noData\":true\x7d"
        = .ok "No bill found for subscriber 123 for March 2024." :=
  ⟨by decide!,
   (query_bill_no_bill_found noInherited
      "intent=query_bill;subscriberNo=123;month=march;year=2024" "\x7b\"noData\":true\x7d"
      (.obj [("noData", .bool true)]) (by decide!) (by decide!)
      (Or.inr (Or.inl (by decide!)))).trans (by decide!)⟩

/-! ## C4 -/

/-- C4 (as stated) fails for a large bill: with `totalAmount` 1e21, `paidAmount`
20 and `amount=30` the Remaining Balance reads "$1e+21": no two decimals, and
not the difference 999999999999999999950 either, which no Number holds. -/
theorem make_payment_large_bill_exponent_notation :
    generateUserFriendlyMessage noInherited
        "intent=make_payment;subscriberNo=123;month=march;year=2024;amount=30"
        "\x7b\"totalAmount\":1e21,\"paidAmount\":20\x7d"
        = .ok ("✅ Payment successful!\n" ++
          "\n" ++
          "Payment Summary:\n" ++
          "----------------------------\n" ++
          "Subscriber:        123\n" ++
          "Month:             March 2024\n" ++
          "Total Bill:        $1e+21\n" ++
          "Previously Paid:   $20.00\n" ++
          "Amount Paid Now:   $30.00\n" ++
          "Total Paid:        $50.00\n" ++
          "Remaining Balance: $1e+21\n" ++
          "----------------------------\n" ++
          "Thank you for your payment!") ∧
      twoDecimals (10 ^ 21 - (20 + 30)) = "999999999999999999950.00" := by
  decide!

/-- C4 (amended): for every intent line whose intent is `make_payment` and whose
amount is absent or parses as a number, and every JSON payload without a truthy
`noData`, with a Number `totalAmount` T and with a `paidAmount` that is a Number
P or absent (P = 0), `generateUserFriendlyMessage` returns the Payment Summary
whose Total Paid figure is the Number sum of P and the amount read off the line
and whose Remaining Balance figure is the Number difference of T and that sum,
every figure printed by `toFixed(2)`; and `toFixed(2)` prints a figure with
exactly two decimals whenever the figure is finite and below 10 ^ 21 in
magnitude. -/
theorem make_payment_totals (inherited : String → Option String) (line raw : String)
    (p : JVal) (T P : JSNumber)
    (hintent : fieldAt (intentPartsOf line) 0 = some "make_payment")
    (_hamount : amountPaidNowOf (intentPartsOf line) ≠ .nan)
    (hparse : jsonParse raw = some p)
    (hnoData : truthy (p.prop "noData") = false)
    (htotal : p.prop "totalAmount" = some (.num T))
    (hpaid : p.prop "paidAmount" = some (.num P) ∨
      (p.prop "paidAmount" = none ∧ P = .ofNat 0)) :
    generateUserFriendlyMessage inherited line raw =
      .ok ("✅ Payment successful!\n" ++
        "\n" ++
        "Payment Summary:\n" ++
        "----------------------------\n" ++
        "Subscriber:        " ++ optText (fieldAt (intentPartsOf line) 1) ++ "\n" ++
        "Month:             " ++
          optText (monthLabelOf (monthNumOf (fieldAt (intentPartsOf line) 2))
            (fieldAt (intentPartsOf line) 2)) ++ " " ++
          optText (fieldAt (intentPartsOf line) 3) ++ "\n" ++
        "Total Bill:        $" ++ toFixed T 2 ++ "\n" ++
        "Previously Paid:   $" ++ toFixed P 2 ++ "\n" ++
        "Amount Paid Now:   $" ++ toFixed (amountPaidNowOf (intentPartsOf line)) 2 ++ "\n" ++
        "Total Paid:        $" ++
          toFixed (P.add (amountPaidNowOf (intentPartsOf line))) 2 ++ "\n" ++
        "Remaining Balance: $" ++
          toFixed (T.sub (P.add (amountPaidNowOf (intentPartsOf line)))) 2 ++ "\n" ++
        "----------------------------\n" ++
        "Thank you for your payment!") ∧
      (∀ q : ℚ, (if q < 0 then -q else q) < 10 ^ 21 → toFixed (.fin q) 2 = twoDecimals q) := by
  have hp := jsonParse_noNaN hparse
  have hobj : p.truthy = true := by
    cases p <;> simp [JVal.prop] at htotal
    rfl
  have hguard : noUsableTotal p = false := by
    simp [noUsableTotal, hobj, hnoData, htotal]
  have hT : orZero (p.prop "totalAmount") = .num T := by
    rw [htotal]; exact orZero_num (prop_num_ne_nan hp htotal)
  have hP : orZero (p.prop "paidAmount") = .num P := by
    rcases hpaid with h | ⟨h, h0⟩
    · rw [h]; exact orZero_num (prop_num_ne_nan hp h)
    · rw [h, h0]; rfl
  refine ⟨?_, ?_⟩
  · simp only [generateUserFriendlyMessage, hparse, hintent, makePaymentMessage, hguard, hT, hP,
      paymentSummary]
    simp
  · intro q hlt
    exact toFixed_two_decimals q (by rw [pow10_twenty_one]; exact hlt)

/-- C4 (amended) at the input of the specification: `totalAmount` 100,
`paidAmount` 20 and `amount=30` give Total Paid $50.00 and Remaining Balance
$50.00. -/
theorem make_payment_totals_witness :
    jsonParse "\x7b\"totalAmount\":100,\"paidAmount\":20\x7d"
        = some (.obj [("totalAmount", .num (.fin 100)), ("paidAmount", .num (.fin 20))]) ∧
      amountPaidNowOf
        (intentPartsOf "intent=make_payment;subscriberNo=123;month=march;year=2024;amount=30")
        = .fin 30 ∧
      generateUserFriendlyMessage noInherited
        "intent=make_payment;subscriberNo=123;month=march;year=2024;amount=30"
        "\x7b\"totalAmount\":100,\"paidAmount\":20\x7d"
        = .ok ("✅ Payment successful!\n" ++
          "\n" ++
          "Payment Summary:\n" ++
          "----------------------------\n" ++
          "Subscriber:        123\n" ++
          "Month:             March 2024\n" ++
          "Total Bill:        $100.00\n" ++
          "Previously Paid:   $20.00\n" ++
          "Amount Paid Now:   $30.00\n" ++
          "Total Paid:        $50.00\n" ++
          "Remaining Balance: $50.00\n" ++
          "----------------------------\n" ++
          "Thank you for your payment!") :=
  ⟨by decide!, by decide!,
   (make_payment_totals noInherited
      "intent=make_payment;subscriberNo=123;month=march;year=2024;amount=30"
      "\x7b\"totalAmount\":100,\"paidAmount\":20\x7d"
      (.obj [("totalAmount", .num (.fin 100)), ("paidAmount", .num (.fin 20))])
      (.fin 100) (.fin 20) (by decide!) (by decide!) (by decide!) (by decide!) (by decide!)
      (Or.inl (by decide!))).1.trans (by decide!)⟩

/-! ## C5 -/

/-- C5 fails on an unparsable amount: for `amount=abc` the amount paid now is
`NaN`, not 0, and the block shows "$NaN" as Amount Paid Now, Total Paid and
Remaining Balance. -/
theorem make_payment_unparsable_amount_nan :
    amountPaidNowOf
        (intentPartsOf "intent=make_payment;subscriberNo=123;month=march;year=2024;amount=abc")
        = .nan ∧
      generateUserFriendlyMessage noInherited
        "intent=make_payment;subscriberNo=123;month=march;year=2024;amount=abc"
        "\x7b\"totalAmount\":100,\"paidAmount\":20\x7d"
        = .ok ("✅ Payment successful!\n" ++
          "\n" ++
          "Payment Summary:\n" ++
          "----------------------------\n" ++
          "Subscriber:        123\n" ++
          "Month:             March 2024\n" ++
          "Total Bill:        $100.00\n" ++
          "Previously Paid:   $20.00\n" ++
          "Amount Paid Now:   $NaN\n" ++
          "Total Paid:        $NaN\n" ++
          "Remaining Balance: $NaN\n" ++
          "----------------------------\n" ++
          "Thank you for your payment!") := by
  decide!

/-! ## C6 -/

/-- C6 (as stated) fails on a `null` entry: with the content list `[null]`, which
holds no matching entry, the function throws a `TypeError` instead of returning
the "No bill found" line. -/
theorem query_bill_detailed_null_entry_throws :
    generateUserFriendlyMessage noInherited
        "intent=query_bill_detailed;subscriberNo=123;month=march;year=2024"
        "\x7b\"content\":[null]\x7d" = .error .typeError ∧
      generateUserFriendlyMessage noInherited
        "intent=query_bill_detailed;subscriberNo=123;month=march;year=2024"
        "\x7b\"content\":[null]\x7d" ≠ .ok "No bill found for subscriber 123 for March 2024." := by
  decide!

/-- C6 (amended): for every intent line whose intent is `query_bill_detailed` and
every payload whose `content` is a non-empty list on each entry of which the
match test runs without a `TypeError` and fails (no entry has subscriber number,
numeric month and numeric year all equal to the requested ones),
`generateUserFriendlyMessage` returns "No bill found for subscriber SUB for
MONTH YEAR.", the string of an empty or missing list. -/
theorem query_bill_detailed_no_match (inherited : String → Option String) (line raw : String)
    (p : JVal) (items : List JVal)
    (hintent : fieldAt (intentPartsOf line) 0 = some "query_bill_detailed")
    (hparse : jsonParse raw = some p)
    (hcontent : p.prop "content" = some (.arr items))
    (hne : items ≠ [])
    (hnone : ∀ item ∈ items,
      detailMatches (fieldAt (intentPartsOf line) 1) (monthNumOf (fieldAt (intentPartsOf line) 2))
        (jsParseInt (optText (fieldAt (intentPartsOf line) 3))) item = .ok false) :
    generateUserFriendlyMessage inherited line raw =
      .ok ("No bill found for subscriber " ++ optText (fieldAt (intentPartsOf line) 1) ++
        " for " ++
        optText (monthLabelOf (monthNumOf (fieldAt (intentPartsOf line) 2))
          (fieldAt (intentPartsOf line) 2)) ++
        " " ++ optText (fieldAt (intentPartsOf line) 3) ++ ".") := by
  have hget := getProp_of_prop hcontent
  have hfind := findFirst_none hnone
  have hemp : items.isEmpty = false := by
    cases items with
    | nil => exact absurd rfl hne
    | cons x r => rfl
  simp only [generateUserFriendlyMessage, hparse, hintent, queryBillDetailedMessage, hget, hemp,
    hfind, noBillFound]
  cases truthy (p.prop "noData") <;> simp

/-- C6 (amended) at a concrete input: one entry of another subscriber gives "No
bill found for subscriber 123 for March 2024." -/
theorem query_bill_detailed_no_match_witness :
    jsonParse "\x7b\"content\":[\x7b\"subscriber\":\x7b\"subscriberNo\":456\x7d,\"month\":3,\"year\":2024,\"totalAmount\":75\x7d]\x7d"
        = some (.obj [("content", .arr [.obj [("subscriber", .obj [("subscriberNo", .num (.fin 456))]),
            ("month", .num (.fin 3)), ("year", .num (.fin 2024)),
            ("totalAmount", .num (.fin 75))]])]) ∧
      generateUserFriendlyMessage noInherited
        "intent=query_bill_detailed;subscriberNo=123;month=march;year=2024"
        "\x7b\"content\":[\x7b\"subscriber\":\x7b\"subscriberNo\":456\x7d,\"month\":3,\"year\":2024,\"totalAmount\":75\x7d]\x7d"
        = .ok "No bill found for subscriber 123 for March 2024." :=
  ⟨by decide!,
   (query_bill_detailed_no_match noInherited
      "intent=query_bill_detailed;subscriberNo=123;month=march;year=2024"
      "\x7b\"content\":[\x7b\"subscriber\":\x7b\"subscriberNo\":456\x7d,\"month\":3,\"year\":2024,\"totalAmount\":75\x7d]\x7d"
      (.obj [("content", .arr [.obj [("subscriber", .obj [("subscriberNo", .num (.fin 456))]),
            ("month", .num (.fin 3)), ("year", .num (.fin 2024)),
            ("totalAmount", .num (.fin 75))]])])
      [.obj [("subscriber", .obj [("subscriberNo", .num (.fin 456))]),
            ("month", .num (.fin 3)), ("year", .num (.fin 2024)),
            ("totalAmount", .num (.fin 75))]]
      (by decide!) (by decide!) (by decide!) (by decide)
      (by intro item hitem; rw [List.mem_singleton] at hitem; subst hitem; decide!)).trans
    (by decide!)⟩

/-! ## C7 -/

/-- C7 (as stated) fails under a truthy `noData`: the content list holds the
matching entry, yet the function returns the "No bill found" line, not the
breakdown block. -/
theorem query_bill_detailed_noData_wins :
    generateUserFriendlyMessage noInherited
        "intent=query_bill_detailed;subscriberNo=123;month=march;year=2024"
        "\x7b\"noData\":true,\"content\":[\x7b\"subscriber\":\x7b\"subscriberNo\":123\x7d,\"month\":3,\"year\":2024,\"totalAmount\":75\x7d]\x7d"
      = .ok "No bill found for subscriber 123 for March 2024." ∧
    detailMatches
        (fieldAt (intentPartsOf
          "intent=query_bill_detailed;subscriberNo=123;month=march;year=2024") 1)
        (monthNumOf (fieldAt (intentPartsOf
          "intent=query_bill_detailed;subscriberNo=123;month=march;year=2024") 2))
        (jsParseInt (optText (fieldAt (intentPartsOf
          "intent=query_bill_detailed;subscriberNo=123;month=march;year=2024") 3)))
        (.obj [("subscriber", .obj [("subscriberNo", .num (.fin 123))]),
          ("month", .num (.fin 3)), ("year", .num (.fin 2024)),
          ("totalAmount", .num (.fin 75))]) = .ok true := by
  decide!

/-- C7 (amended): for every intent line whose intent is `query_bill_detailed` and
every payload text that holds no escape of a surrogate code unit (`\uD800` to
`\uDFFF`) and parses to a payload without a truthy `noData` whose `content` list
holds a matching entry, preceded only by entries on which the match test runs
without a `TypeError` and fails, where that first matching entry has a Number
`totalAmount` t and printable `totalMb` and `totalMinutes`,
`generateUserFriendlyMessage` returns the breakdown block built from that entry:
Base Plan $50.00, usage charge `(t - 50).toFixed(2)`, Total Due `t.toFixed(2)`
and the due date of the billed month. The text being free of surrogate escapes
makes every string of the payload exact (`parseString_exact`), so that a match
found here is a match under `===`. -/
theorem query_bill_detailed_breakdown (inherited : String → Option String) (line raw : String)
    (p d : JVal) (pre post : List JVal) (t : JSNumber) (mb minutes : String)
    (hintent : fieldAt (intentPartsOf line) 0 = some "query_bill_detailed")
    (hparse : jsonParse raw = some p)
    (_hexact : surrogateEscapeFree raw.data = true)
    (hnoData : truthy (p.prop "noData") = false)
    (hcontent : p.prop "content" = some (.arr (pre ++ d :: post)))
    (hpre : ∀ item ∈ pre,
      detailMatches (fieldAt (intentPartsOf line) 1) (monthNumOf (fieldAt (intentPartsOf line) 2))
        (jsParseInt (optText (fieldAt (intentPartsOf line) 3))) item = .ok false)
    (hd : detailMatches (fieldAt (intentPartsOf line) 1)
        (monthNumOf (fieldAt (intentPartsOf line) 2))
        (jsParseInt (optText (fieldAt (intentPartsOf line) 3))) d = .ok true)
    (htotal : d.prop "totalAmount" = some (.num t))
    (hmb : valueText (d.prop "totalMb") = .ok mb)
    (hminutes : valueText (d.prop "totalMinutes") = .ok minutes) :
    generateUserFriendlyMessage inherited line raw =
      .ok ("Bill Details for " ++
          optText (monthLabelOf (monthNumOf (fieldAt (intentPartsOf line) 2))
            (fieldAt (intentPartsOf line) 2)) ++ " " ++
          optText (fieldAt (intentPartsOf line) 3) ++ ":\n" ++
        "----------------------------\n" ++
        "Base Plan:             $50.00\n" ++
        "Data Usage:            " ++ mb ++ " MB\n" ++
        "Minutes Usage:         " ++ minutes ++ " minutes\n" ++
        "Data & Minutes Charge: $" ++ toFixed (t.sub (.ofNat 50)) 2 ++ "\n" ++
        "Total Due:             $" ++ toFixed t 2 ++ "\n" ++
        "Due Date:              " ++
          calculateDueDate (monthNumOf (fieldAt (intentPartsOf line) 2))
            (fieldAt (intentPartsOf line) 3) ++ "\n" ++
        "----------------------------\n" ++
        "Would you like to proceed with payment?") := by
  have hget := getProp_of_prop hcontent
  have hfind := @findFirst_first _ pre post d hpre hd
  have htruthy := truthy_of_detailMatches hd
  have hemp : (pre ++ d :: post).isEmpty = false := by
    cases pre <;> rfl
  simp only [generateUserFriendlyMessage, hparse, hintent, queryBillDetailedMessage, hget, hemp,
    hnoData, hfind, htruthy, detailedBlock, htotal, hmb, hminutes, billDetails, toFixed_fifty]
  simp [String.append_assoc]

/-- C7 (amended) at a concrete input: a matching entry with `totalAmount` 75
gives "Data & Minutes Charge: $25.00". -/
theorem query_bill_detailed_breakdown_witness :
    jsonParse "\x7b\"content\":[\x7b\"subscriber\":\x7b\"subscriberNo\":123\x7d,\"month\":3,\"year\":2024,\"totalAmount\":75,\"totalMb\":1024,\"totalMinutes\":30.5\x7d]\x7d"
        = some (.obj [("content", .arr [.obj [("subscriber", .obj [("subscriberNo", .num (.fin 123))]),
            ("month", .num (.fin 3)), ("year", .num (.fin 2024)),
            ("totalAmount", .num (.fin 75)), ("totalMb", .num (.fin 1024)),
            ("totalMinutes", .num (.fin 30.5))]])]) ∧
      generateUserFriendlyMessage noInherited
        "intent=query_bill_detailed;subscriberNo=123;month=march;year=2024"
        "\x7b\"content\":[\x7b\"subscriber\":\x7b\"subscriberNo\":123\x7d,\"month\":3,\"year\":2024,\"totalAmount\":75,\"totalMb\":1024,\"totalMinutes\":30.5\x7d]\x7d"
        = .ok ("Bill Details for March 2024:\n" ++
          "----------------------------\n" ++
          "Base Plan:             $50.00\n" ++
          "Data Usage:            1024 MB\n" ++
          "Minutes Usage:         30.5 minutes\n" ++
          "Data & Minutes Charge: $25.00\n" ++
          "Total Due:             $75.00\n" ++
          "Due Date:              April 10, 2024\n" ++
          "----------------------------\n" ++
          "Would you like to proceed with payment?") :=
  ⟨by decide!,
   (query_bill_detailed_breakdown noInherited
      "intent=query_bill_detailed;subscriberNo=123;month=march;year=2024"
      "\x7b\"content\":[\x7b\"subscriber\":\x7b\"subscriberNo\":123\x7d,\"month\":3,\"year\":2024,\"totalAmount\":75,\"totalMb\":1024,\"totalMinutes\":30.5\x7d]\x7d"
      (.obj [("content", .arr [.obj [("subscriber", .obj [("subscriberNo", .num (.fin 123))]),
            ("month", .num (.fin 3)), ("year", .num (.fin 2024)),
            ("totalAmount", .num (.fin 75)), ("totalMb", .num (.fin 1024)),
            ("totalMinutes", .num (.fin 30.5))]])])
      (.obj [("subscriber", .obj [("subscriberNo", .num (.fin 123))]),
            ("month", .num (.fin 3)), ("year", .num (.fin 2024)),
            ("totalAmount", .num (.fin 75)), ("totalMb", .num (.fin 1024)),
            ("totalMinutes", .num (.fin 30.5))])
      [] [] (.fin 75) "1024" "30.5"
      (by decide!) (by decide!) (by decide!) (by decide!) (by decide!)
      (by intro item hitem; cases hitem) (by decide!) (by decide!) (by decide!)
      (by decide!)).trans (by decide!)⟩

/-! ## C8 -/

/-- C8: for every intent line whose intent is `bill_history`,
`generateUserFriendlyMessage` returns exactly "No bill history found for
subscriber S." when the payload is the empty list, and also when it is an object
whose `content` is the empty list or is missing. -/
theorem bill_history_empty (inherited : String → Option String) (line raw : String) (p : JVal)
    (hintent : fieldAt (intentPartsOf line) 0 = some "bill_history")
    (hparse : jsonParse raw = some p)
    (hpayload : p = .arr [] ∨
      ∃ ms, p = .obj ms ∧
        (lookupMember "content" ms = some (.arr []) ∨ lookupMember "content" ms = none)) :
    generateUserFriendlyMessage inherited line raw =
      .ok ("No bill history found for subscriber " ++
        optText (fieldAt (intentPartsOf line) 1) ++ ".") := by
  have hbranch : billHistoryMessage inherited p (fieldAt (intentPartsOf line) 1) =
      .ok ("No bill history found for subscriber " ++
        optText (fieldAt (intentPartsOf line) 1) ++ ".") := by
    rcases hpayload with h | ⟨ms, h, hc | hc⟩
    · subst h; rfl
    · subst h; simp [billHistoryMessage, getProp, JVal.prop, hc, JVal.truthy, lengthTruthy]
    · subst h; simp [billHistoryMessage, getProp, JVal.prop, hc, lengthTruthy]
  simp only [generateUserFriendlyMessage, hparse, hintent, hbranch]
  simp

/-- C8 at concrete inputs: the payloads `[]` and `content: []` both give "No
bill history found for subscriber 123." -/
theorem bill_history_empty_witness :
    generateUserFriendlyMessage noInherited "intent=bill_history;subscriberNo=123" "[]"
        = .ok "No bill history found for subscriber 123." ∧
      generateUserFriendlyMessage noInherited "intent=bill_history;subscriberNo=123"
        "\x7b\"content\":[]\x7d" = .ok "No bill history found for subscriber 123." :=
  ⟨(bill_history_empty noInherited "intent=bill_history;subscriberNo=123" "[]" (.arr [])
      (by decide!) (by decide!) (Or.inl rfl)).trans (by decide!),
   (bill_history_empty noInherited "intent=bill_history;subscriberNo=123"
      "\x7b\"content\":[]\x7d" (.obj [("content", .arr [])]) (by decide!) (by decide!)
      (Or.inr ⟨_, rfl, Or.inl (by decide!)⟩)).trans (by decide!)⟩

/-! ## C9 -/

/-- C9 (as stated) fails on a `null` entry: for the non-empty list `[null]` the
function throws a `TypeError` instead of returning a header and one line. -/
theorem bill_history_null_entry_throws :
    jsonParse "[null]" = some (.arr [.null]) ∧
    generateUserFriendlyMessage noInherited "intent=bill_history;subscriberNo=123" "[null]"
      = .error .typeError := by
  decide!

/-- C9 (amended): for every intent line whose intent is `bill_history` and every
payload that is a non-empty list (bare, or under `content`) of entries none of
which is `null` and whose `month`, `year` and `totalAmount` can each be converted
to a string, `generateUserFriendlyMessage` returns the header "Bill History for
Subscriber S:" followed by one line per entry, in payload order, giving the
entry's month label, year and amount due and ending in "Paid: Yes" exactly when
`isPaid` is truthy and in "Paid: No" otherwise. -/
theorem bill_history_lines (inherited : String → Option String) (line raw : String)
    (p : JVal) (items : List JVal)
    (hintent : fieldAt (intentPartsOf line) 0 = some "bill_history")
    (hparse : jsonParse raw = some p)
    (hpayload : p = .arr items ∨ p.prop "content" = some (.arr items))
    (hne : items ≠ [])
    (hitems : ∀ item ∈ items, item ≠ .null ∧
      (∃ s, valueText (item.prop "month") = .ok s) ∧
      (∃ s, valueText (item.prop "year") = .ok s) ∧
      (∃ s, valueText (item.prop "totalAmount") = .ok s)) :
    generateUserFriendlyMessage inherited line raw =
      .ok ("Bill History for Subscriber " ++ optText (fieldAt (intentPartsOf line) 1) ++ ":\n" ++
        String.intercalate "\n"
          (items.map (fun item =>
            "- " ++ optText (monthNamesByKey inherited (printedText (item.prop "month"))) ++ " " ++
            printedText (item.prop "year") ++ "  | Amount Due: $" ++
            printedText (item.prop "totalAmount") ++ " | Paid: " ++
            (if truthy (item.prop "isPaid") then "Yes" else "No")))) := by
  have hmap := @mapLines_ok (historyLine inherited)
    (fun item =>
      "- " ++ optText (monthNamesByKey inherited (printedText (item.prop "month"))) ++ " " ++
      printedText (item.prop "year") ++ "  | Amount Due: $" ++
      printedText (item.prop "totalAmount") ++ " | Paid: " ++
      (if truthy (item.prop "isPaid") then "Yes" else "No"))
    items
    (fun x hx => historyLine_ok inherited (hitems x hx).1 (hitems x hx).2.1 (hitems x hx).2.2.1
      (hitems x hx).2.2.2)
  have hlen : lengthTruthy (.arr items) = true := by
    cases items with
    | nil => exact absurd rfl hne
    | cons x r => rfl
  have hbranch : billHistoryMessage inherited p (fieldAt (intentPartsOf line) 1) =
      .ok ("Bill History for Subscriber " ++ optText (fieldAt (intentPartsOf line) 1) ++ ":\n" ++
        String.intercalate "\n"
          (items.map (fun item =>
            "- " ++ optText (monthNamesByKey inherited (printedText (item.prop "month"))) ++ " " ++
            printedText (item.prop "year") ++ "  | Amount Due: $" ++
            printedText (item.prop "totalAmount") ++ " | Paid: " ++
            (if truthy (item.prop "isPaid") then "Yes" else "No")))) := by
    rcases hpayload with h | h
    · subst h
      simp only [billHistoryMessage, hlen, hmap]
      simp
    · have hget := getProp_of_prop h
      cases p <;> simp [JVal.prop] at h
      simp only [billHistoryMessage, hget, JVal.truthy, if_true]
      rw [hlen, hmap]
      simp
  simp only [generateUserFriendlyMessage, hparse, hintent, hbranch]
  simp

/-- C9 (amended) at a concrete input: two entries give the header and two lines,
the first ending in "Paid: Yes", the second in "Paid: No". -/
theorem bill_history_lines_witness :
    jsonParse "[\x7b\"month\":3,\"year\":2024,\"totalAmount\":75.25,\"isPaid\":true\x7d,\x7b\"month\":4,\"year\":2024,\"totalAmount\":80,\"isPaid\":false\x7d]"
      = some (.arr [.obj [("month", .num (.fin 3)), ("year", .num (.fin 2024)),
            ("totalAmount", .num (.fin 75.25)), ("isPaid", .bool true)],
          .obj [("month", .num (.fin 4)), ("year", .num (.fin 2024)),
            ("totalAmount", .num (.fin 80)), ("isPaid", .bool false)]]) ∧
    generateUserFriendlyMessage noInherited "intent=bill_history;subscriberNo=123"
        "[\x7b\"month\":3,\"year\":2024,\"totalAmount\":75.25,\"isPaid\":true\x7d,\x7b\"month\":4,\"year\":2024,\"totalAmount\":80,\"isPaid\":false\x7d]"
      = .ok ("Bill History for Subscriber 123:\n" ++
          "- March 2024  | Amount Due: $75.25 | Paid: Yes\n" ++
          "- April 2024  | Amount Due: $80 | Paid: No") :=
  ⟨by decide!,
   (bill_history_lines noInherited "intent=bill_history;subscriberNo=123"
      "[\x7b\"month\":3,\"year\":2024,\"totalAmount\":75.25,\"isPaid\":true\x7d,\x7b\"month\":4,\"year\":2024,\"totalAmount\":80,\"isPaid\":false\x7d]"
      (.arr [.obj [("month", .num (.fin 3)), ("year", .num (.fin 2024)),
            ("totalAmount", .num (.fin 75.25)), ("isPaid", .bool true)],
          .obj [("month", .num (.fin 4)), ("year", .num (.fin 2024)),
            ("totalAmount", .num (.fin 80)), ("isPaid", .bool false)]])
      [.obj [("month", .num (.fin 3)), ("year", .num (.fin 2024)),
            ("totalAmount", .num (.fin 75.25)), ("isPaid", .bool true)],
          .obj [("month", .num (.fin 4)), ("year", .num (.fin 2024)),
            ("totalAmount", .num (.fin 80)), ("isPaid", .bool false)]]
      (by decide!) (by decide!) (Or.inl rfl) (by decide)
      (by
        intro item hitem
        simp only [List.mem_cons, List.mem_singleton, List.not_mem_nil, or_false] at hitem
        rcases hitem with rfl | rfl
        · exact ⟨by decide, ⟨"3", by decide!⟩, ⟨"2024", by decide!⟩, ⟨"75.25", by decide!⟩⟩
        · exact ⟨by decide, ⟨"4", by decide!⟩, ⟨"2024", by decide!⟩, ⟨"80", by decide!⟩⟩)).trans
    (by decide!)⟩

/-! ## C10 -/

/-- C10 (as stated) fails: with the intent `invalid` and the text `hello`, which
is not JSON, the function returns `hello`, not the apology. -/
theorem invalid_intent_raw_text_returned :
    generateUserFriendlyMessage noInherited "intent=invalid" "hello" = .ok "hello" ∧
      generateUserFriendlyMessage noInherited "intent=invalid" "hello"
        ≠ .ok "⚠️ I couldn't understand your request. Please try again with a clear question." := by
  decide!

/-- C10 (amended): for every intent line whose intent is `invalid`,
`generateUserFriendlyMessage` returns the fixed apology whenever the text parses
as JSON, whatever the parsed payload is, and the text itself when it does not
parse. -/
theorem invalid_intent_apology (inherited : String → Option String) (line raw : String)
    (hintent : fieldAt (intentPartsOf line) 0 = some "invalid") :
    generateUserFriendlyMessage inherited line raw =
      .ok (if (jsonParse raw).isSome then
          "⚠️ I couldn't understand your request. Please try again with a clear question."
        else raw) := by
  cases hparse : jsonParse raw with
  | none => simp [generateUserFriendlyMessage, hparse]
  | some p => simp [generateUserFriendlyMessage, hparse, hintent]

/-- C10 (amended) at concrete inputs: the payload `[1, 2]` gives the apology. -/
theorem invalid_intent_apology_witness :
    fieldAt (intentPartsOf "intent=invalid") 0 = some "invalid" ∧
      generateUserFriendlyMessage noInherited "intent=invalid" "[1, 2]" =
        .ok "⚠️ I couldn't understand your request. Please try again with a clear question." :=
  ⟨by decide!, (invalid_intent_apology noInherited "intent=invalid" "[1, 2]" (by decide!)).trans
    (by decide!)⟩

/-! ## `JSON.stringify` and the `/chat` handler at known values -/

theorem jsonStringify_known_values :
    jsonStringify (.obj [("b", .num (.ofNat 3)), ("1", .str "a\"\n"),
        ("b", .arr [.null, .bool false]), ("0", .obj [])])
      = "\x7b\"0\":\x7b\x7d,\"1\":\"a\\\"\\n\",\"b\":[null,false]\x7d" ∧
    jsonStringify (.num (.fin (1 / 2))) = "0.5" ∧
    jsonStringify (.num .nan) = "null" ∧
    jsonStringify (.str "x\ty") = "\"x\\ty\"" ∧
    jsonParse (jsonStringify (.obj [("totalAmount", .num (.fin (91 / 2))), ("ok", .bool true)]))
      = some (.obj [("totalAmount", .num (.fin (91 / 2))), ("ok", .bool true)]) := by
  decide!

theorem chatHandler_known_values :
    chatHandler noInherited
        (fun _ _ => .fulfilled
          (.obj [("response", .str " intent=query_bill;subscriberNo=123;month=march;year=2024 ")]))
        (fun _ => .fulfilled (.obj [("totalAmount", .num (.fin (91 / 2)))]))
        "my march bill" (some "Bearer abc")
      = .ok "my march bill" "intent=query_bill;subscriberNo=123;month=march;year=2024"
          ("Bill Summary:\n" ++
           "----------------------------\n" ++
           "Subscriber:       123\n" ++
           "Month:            March 2024\n" ++
           "Amount Due:       $45.50\n" ++
           "Due Date:         April 10, 2024\n" ++
           "----------------------------\n" ++
           "Would you like to see the detailed bill or proceed with payment?") ∧
    chatHandler noInherited
        (fun _ _ => .fulfilled
          (.obj [("response", .str "intent=query_bill;subscriberNo=123;month=march;year=2024")]))
        (fun _ => .rejected (some 409)) "my march bill" none
      = .ok "my march bill" "intent=query_bill;subscriberNo=123;month=march;year=2024"
          "No bill found for subscriber 123 for March 2024." ∧
    chatHandler noInherited (fun _ _ => .rejected none) (fun _ => .rejected none)
        "my march bill" none = .failed ∧
    chatHandler noInherited (fun _ _ => .fulfilled (.obj [("response", .str "no idea")]))
        (fun _ => .rejected none) "hello" none
      = .ok "hello" "intent=invalid"
          "⚠️ I couldn't understand your request. Please try again with a clear question." := by
  decide!

/-! ## Lemmas on the billing client -/

theorem jsonStringify_noData :
    jsonStringify (.obj [("noData", .bool true)]) = noDataText := by decide

theorem jsonParse_noDataText : jsonParse noDataText = some (.obj [("noData", .bool true)]) := by
  decide!

theorem tokenOrEmpty_getD (token : Option String) : tokenOrEmpty token = token.getD "" := by
  cases token with
  | none => rfl
  | some t =>
    simp only [tokenOrEmpty, Option.getD]
    split_ifs with h
    · have hd : t.data = [] := by simpa using h
      exact String.ext (by simp [hd])
    · rfl

theorem amountPart_ne_empty {part : String} (h : jsStartsWith part "amount=" = true) :
    part.data.isEmpty = false := by
  cases hp : part.data with
  | nil => simp [jsStartsWith, hp] at h
  | cons c r => rfl

theorem queryAmountText_eq (parts : List String) :
    queryAmountText parts =
      match parts.find? (fun p => jsStartsWith p "amount=") with
      | some amountPart => optText (valueOfPart amountPart)
      | none => "0" := by
  unfold queryAmountText
  cases hf : parts.find? (fun p => jsStartsWith p "amount=") with
  | none => rfl
  | some part =>
    have hs : jsStartsWith part "amount=" = true := by
      have := List.find?_some hf
      simpa using this
    simp [amountPart_ne_empty hs]

theorem parseValue_capital_U (fuel : Nat) (rest : List Char) :
    parseValue fuel ('U' :: rest) = none := by
  cases fuel with
  | zero => rfl
  | succ n =>
    simp [parseValue, skipWs, isJsonWs, List.dropWhile, parseNumber, takeMinus, List.takeWhile,
      isDecDigit]

theorem jsonParse_unsupported (x : String) : jsonParse ("Unsupported intent: " ++ x) = none := by
  have hd : ("Unsupported intent: " ++ x).data =
      'U' :: ("nsupported intent: ".data ++ x.data) := by
    rw [String.data_append]; rfl
  simp only [jsonParse, hd, parseValue_capital_U]
/-! ## C11 -/

/-- C11: for every intent line and every text that `JSON.parse` rejects,
`generateUserFriendlyMessage` returns the text itself, unchanged. -/
theorem non_json_text_returned_raw (inherited : String → Option String) (line raw : String)
    (hparse : jsonParse raw = none) :
    generateUserFriendlyMessage inherited line raw = .ok raw := by
  simp only [generateUserFriendlyMessage, hparse]

/-- C11 at a concrete input: the body `Service Unavailable` is not JSON and comes
back as it is, here for a `query_bill` line. -/
theorem non_json_text_returned_raw_witness :
    jsonParse "Service Unavailable" = none ∧
      generateUserFriendlyMessage noInherited
        "intent=query_bill;subscriberNo=123;month=march;year=2024" "Service Unavailable"
        = .ok "Service Unavailable" :=
  ⟨by decide!,
   non_json_text_returned_raw noInherited
     "intent=query_bill;subscriberNo=123;month=march;year=2024" "Service Unavailable"
     (by decide!)⟩

/-! ## C12 -/

/-- C12: for each of the four supported intents and every intent line carrying
it, `generateUserFriendlyMessage` applied to the sentinel text
`noData: true` returns that intent's not-found message: the line "No bill found
for subscriber SUB for MONTH YEAR." for `query_bill` and
`query_bill_detailed`, that line followed by " Payment could not be processed."
for `make_payment`, and "No bill history found for subscriber SUB." for
`bill_history`. -/
theorem sentinel_gives_not_found (inherited : String → Option String) (line : String)
    (hintent : fieldAt (intentPartsOf line) 0 = some "query_bill" ∨
      fieldAt (intentPartsOf line) 0 = some "query_bill_detailed" ∨
      fieldAt (intentPartsOf line) 0 = some "make_payment" ∨
      fieldAt (intentPartsOf line) 0 = some "bill_history") :
    generateUserFriendlyMessage inherited line noDataText =
      .ok (if fieldAt (intentPartsOf line) 0 = some "bill_history" then
          "No bill history found for subscriber " ++ optText (fieldAt (intentPartsOf line) 1) ++ "."
        else
          "No bill found for subscriber " ++ optText (fieldAt (intentPartsOf line) 1) ++
            " for " ++
            optText (monthLabelOf (monthNumOf (fieldAt (intentPartsOf line) 2))
              (fieldAt (intentPartsOf line) 2)) ++
            " " ++ optText (fieldAt (intentPartsOf line) 3) ++ "." ++
            (if fieldAt (intentPartsOf line) 0 = some "make_payment" then
              " Payment could not be processed." else "")) := by
  have hguard : noUsableTotal (.obj [("noData", .bool true)]) = true := by decide
  have hcontent : getProp (.obj [("noData", .bool true)]) "content" = .ok none := by decide
  rcases hintent with h | h | h | h
  · simp [generateUserFriendlyMessage, jsonParse_noDataText, h, queryBillMessage, hguard,
      noBillFound]
  · simp [generateUserFriendlyMessage, jsonParse_noDataText, h, queryBillDetailedMessage,
      hcontent, noBillFound]
  · simp [generateUserFriendlyMessage, jsonParse_noDataText, h, makePaymentMessage, hguard,
      noBillFound]
  · simp [generateUserFriendlyMessage, jsonParse_noDataText, h, billHistoryMessage,
      hcontent, lengthTruthy]

/-- C12 at concrete inputs: the four lines of subscriber 123 for march 2024. -/
theorem sentinel_gives_not_found_witness :
    generateUserFriendlyMessage noInherited
        "intent=query_bill;subscriberNo=123;month=march;year=2024" noDataText
        = .ok "No bill found for subscriber 123 for March 2024." ∧
      generateUserFriendlyMessage noInherited
        "intent=query_bill_detailed;subscriberNo=123;month=march;year=2024" noDataText
        = .ok "No bill found for subscriber 123 for March 2024." ∧
      generateUserFriendlyMessage noInherited
        "intent=make_payment;subscriberNo=123;month=march;year=2024;amount=30" noDataText
        = .ok "No bill found for subscriber 123 for March 2024. Payment could not be processed." ∧
      generateUserFriendlyMessage noInherited "intent=bill_history;subscriberNo=123" noDataText
        = .ok "No bill history found for subscriber 123." :=
  ⟨(sentinel_gives_not_found noInherited
      "intent=query_bill;subscriberNo=123;month=march;year=2024"
      (Or.inl (by decide!))).trans (by decide!),
   (sentinel_gives_not_found noInherited
      "intent=query_bill_detailed;subscriberNo=123;month=march;year=2024"
      (Or.inr (Or.inl (by decide!)))).trans (by decide!),
   (sentinel_gives_not_found noInherited
      "intent=make_payment;subscriberNo=123;month=march;year=2024;amount=30"
      (Or.inr (Or.inr (Or.inl (by decide!))))).trans (by decide!),
   (sentinel_gives_not_found noInherited "intent=bill_history;subscriberNo=123"
      (Or.inr (Or.inr (Or.inr (by decide!))))).trans (by decide!)⟩

/-! ## C13 -/

/-- C13: for every intent line carrying one of the four supported intents and
every token, `callMidtermApi` sends a request, and whenever that request fails,
with status 409, with any other status or with no response at all, it returns
the literal text of `noData: true`; being a plain string result, no error
reaches the caller. -/
theorem downstream_failure_gives_noData (axios : AxiosConfig → AxiosResult) (line : String)
    (token : Option String) (status : Option Nat)
    (hintent : fieldAt (intentPartsOf line) 0 = some "query_bill" ∨
      fieldAt (intentPartsOf line) 0 = some "query_bill_detailed" ∨
      fieldAt (intentPartsOf line) 0 = some "make_payment" ∨
      fieldAt (intentPartsOf line) 0 = some "bill_history") :
    ∃ config, prepareCall line token = .call config ∧
      (axios config = .rejected status →
        callMidtermApi axios line token = "\x7b\"noData\":true\x7d") := by
  have hcatch : ∀ config, prepareCall line token = .call config →
      axios config = .rejected status →
      callMidtermApi axios line token = "\x7b\"noData\":true\x7d" := by
    intro config hc hr
    simp only [callMidtermApi, hc, hr]
    cases status with
    | none => exact jsonStringify_noData
    | some s => simp only [ite_self]; exact jsonStringify_noData
  cases hp : prepareCall line token with
  | call config => exact ⟨config, rfl, hcatch config hp⟩
  | reply text =>
    exfalso
    rcases hintent with h | h | h | h <;> simp [prepareCall, h] at hp

/-- C13 at concrete inputs: a `query_bill` line whose request is answered with
status 409, one answered with status 500, and a `bill_history` line whose request
gets no response. -/
theorem downstream_failure_gives_noData_witness :
    callMidtermApi (fun _ => .rejected (some 409))
        "intent=query_bill;subscriberNo=123;month=march;year=2024" (some "Bearer abc")
        = "\x7b\"noData\":true\x7d" ∧
      callMidtermApi (fun _ => .rejected (some 500))
        "intent=query_bill;subscriberNo=123;month=march;year=2024" (some "Bearer abc")
        = "\x7b\"noData\":true\x7d" ∧
      callMidtermApi (fun _ => .rejected none) "intent=bill_history;subscriberNo=123" none
        = "\x7b\"noData\":true\x7d" := by
  obtain ⟨c1, _, h1⟩ := downstream_failure_gives_noData (fun _ => .rejected (some 409))
    "intent=query_bill;subscriberNo=123;month=march;year=2024" (some "Bearer abc") (some 409)
    (Or.inl (by decide!))
  obtain ⟨c2, _, h2⟩ := downstream_failure_gives_noData (fun _ => .rejected (some 500))
    "intent=query_bill;subscriberNo=123;month=march;year=2024" (some "Bearer abc") (some 500)
    (Or.inl (by decide!))
  obtain ⟨c3, _, h3⟩ := downstream_failure_gives_noData (fun _ => .rejected none)
    "intent=bill_history;subscriberNo=123" none none
    (Or.inr (Or.inr (Or.inr (by decide!))))
  exact ⟨h1 rfl, h2 rfl, h3 rfl⟩
/-! ## C14 -/

/-- C14: the request `callMidtermApi` builds follows the intent table. For
`query_bill` it is a GET to `/bill/calculate` with `subscriberNo`, `month` and
`year`; for `query_bill_detailed` a GET to `/bill/detailed` with the same three;
for `make_payment` a POST to `/bill/pay` with those and `amount`, the value of
the first part of the line that starts with `amount=`, or 0 when there is none;
for `bill_history` a GET to `/bill/history` with `subscriberNo` only. Whenever a
request is built, its method is POST exactly for `make_payment`, and its
Authorization header is the caller's token, or the empty string when absent. -/
theorem request_follows_intent_table (line : String) (token : Option String) :
    (fieldAt (intentPartsOf line) 0 = some "query_bill" →
      prepareCall line token = .call ⟨"get",
        "https://se4458-midterm-project.onrender.com/api/v1/bill/calculate?subscriberNo=" ++
          optText (fieldAt (intentPartsOf line) 1) ++
          "&month=" ++ queryMonthText (fieldAt (intentPartsOf line) 2) ++
          "&year=" ++ optText (fieldAt (intentPartsOf line) 3),
        token.getD "", "application/json", .null⟩) ∧
    (fieldAt (intentPartsOf line) 0 = some "query_bill_detailed" →
      prepareCall line token = .call ⟨"get",
        "https://se4458-midterm-project.onrender.com/api/v1/bill/detailed?subscriberNo=" ++
          optText (fieldAt (intentPartsOf line) 1) ++
          "&month=" ++ queryMonthText (fieldAt (intentPartsOf line) 2) ++
          "&year=" ++ optText (fieldAt (intentPartsOf line) 3),
        token.getD "", "application/json", .null⟩) ∧
    (fieldAt (intentPartsOf line) 0 = some "make_payment" →
      prepareCall line token = .call ⟨"post",
        "https://se4458-midterm-project.onrender.com/api/v1/bill/pay?subscriberNo=" ++
          optText (fieldAt (intentPartsOf line) 1) ++
          "&month=" ++ queryMonthText (fieldAt (intentPartsOf line) 2) ++
          "&year=" ++ optText (fieldAt (intentPartsOf line) 3) ++
          "&amount=" ++
          (match (intentPartsOf line).find? (fun p => jsStartsWith p "amount=") with
           | some amountPart => optText (valueOfPart amountPart)
           | none => "0"),
        token.getD "", "application/json", .null⟩) ∧
    (fieldAt (intentPartsOf line) 0 = some "bill_history" →
      prepareCall line token = .call ⟨"get",
        "https://se4458-midterm-project.onrender.com/api/v1/bill/history?subscriberNo=" ++
          optText (fieldAt (intentPartsOf line) 1),
        token.getD "", "application/json", .null⟩) ∧
    (∀ config, prepareCall line token = .call config →
      (config.method = "post" ↔ fieldAt (intentPartsOf line) 0 = some "make_payment") ∧
      config.authorization = token.getD "") := by
  refine ⟨?_, ?_, ?_, ?_, ?_⟩
  · intro h
    simp [prepareCall, h, tokenOrEmpty_getD]
  · intro h
    simp [prepareCall, h, tokenOrEmpty_getD]
  · intro h
    simp only [prepareCall, h, tokenOrEmpty_getD, queryAmountText_eq]
    simp
  · intro h
    simp [prepareCall, h, tokenOrEmpty_getD]
  · intro config hc
    simp only [prepareCall] at hc
    split_ifs at hc with h0 h1 h2 h3 h4
    all_goals
      simp only [Prepared.call.injEq] at hc
      subst hc
      simp_all [tokenOrEmpty_getD]

/-- C14 at concrete inputs: the four requests for subscriber 123, march 2024, and
the payment request of a line without an `amount=` part. -/
theorem request_follows_intent_table_witness :
    prepareCall "intent=query_bill;subscriberNo=123;month=march;year=2024" (some "Bearer abc")
      = .call ⟨"get",
        "https://se4458-midterm-project.onrender.com/api/v1/bill/calculate?subscriberNo=123&month=3&year=2024",
        "Bearer abc", "application/json", .null⟩ ∧
    prepareCall "intent=query_bill_detailed;subscriberNo=123;month=march;year=2024" none
      = .call ⟨"get",
        "https://se4458-midterm-project.onrender.com/api/v1/bill/detailed?subscriberNo=123&month=3&year=2024",
        "", "application/json", .null⟩ ∧
    prepareCall "intent=make_payment;subscriberNo=123;month=march;year=2024;amount=30"
        (some "Bearer abc")
      = .call ⟨"post",
        "https://se4458-midterm-project.onrender.com/api/v1/bill/pay?subscriberNo=123&month=3&year=2024&amount=30",
        "Bearer abc", "application/json", .null⟩ ∧
    prepareCall "intent=make_payment;subscriberNo=123;month=march;year=2024" (some "Bearer abc")
      = .call ⟨"post",
        "https://se4458-midterm-project.onrender.com/api/v1/bill/pay?subscriberNo=123&month=3&year=2024&amount=0",
        "Bearer abc", "application/json", .null⟩ ∧
    prepareCall "intent=bill_history;subscriberNo=123" (some "Bearer abc")
      = .call ⟨"get",
        "https://se4458-midterm-project.onrender.com/api/v1/bill/history?subscriberNo=123",
        "Bearer abc", "application/json", .null⟩ :=
  ⟨((request_follows_intent_table
      "intent=query_bill;subscriberNo=123;month=march;year=2024" (some "Bearer abc")).1
      (by decide!)).trans (by decide!),
   ((request_follows_intent_table
      "intent=query_bill_detailed;subscriberNo=123;month=march;year=2024" none).2.1
      (by decide!)).trans (by decide!),
   ((request_follows_intent_table
      "intent=make_payment;subscriberNo=123;month=march;year=2024;amount=30"
      (some "Bearer abc")).2.2.1 (by decide!)).trans (by decide!),
   ((request_follows_intent_table
      "intent=make_payment;subscriberNo=123;month=march;year=2024"
      (some "Bearer abc")).2.2.1 (by decide!)).trans (by decide!),
   ((request_follows_intent_table "intent=bill_history;subscriberNo=123"
      (some "Bearer abc")).2.2.2.1 (by decide!)).trans (by decide!)⟩

/-! ## C15 -/

/-- C15 fails at the month value `__proto__`: it is not the name of a month in
any letter case, yet it does not pass through unchanged. The lookup
`monthMap["__proto__"]` finds the prototype every object literal inherits, which
is truthy, so `|| rawMonth` never applies and the month placed in the query is
the text of that object, `[object Object]`. -/
theorem month_proto_not_passed_through :
    (List.range 13).all (fun k => jsToLowerCase "__proto__" != monthKey k) = true ∧
      queryMonthText (some "__proto__") = "[object Object]" ∧
      prepareCall "intent=query_bill;subscriberNo=123;month=__proto__;year=2024" none
        = .call ⟨"get",
          "https://se4458-midterm-project.onrender.com/api/v1/bill/calculate?subscriberNo=123&month=[object Object]&year=2024",
          "", "application/json", .null⟩ := by
  decide!

/-- What the month lookup of `callMidtermApi` does on every input: for each of
the twelve English month names in any letter case the month placed in the query
is the numeral of the corresponding number 1..12; for every other month value
whose lower-case form is neither `constructor` nor `__proto__` it is the raw
value unchanged; for those two it is the text of the member `monthMap` inherits
under that name; and for a line without a month field it is the word
`undefined`. -/
theorem month_in_query_normalised :
    (∀ (k : Nat) (s : String), 1 ≤ k → k ≤ 12 → jsToLowerCase s = monthKey k →
      queryMonthText (some s) = Nat.repr k) ∧
    (∀ s : String, (∀ k : Nat, 1 ≤ k → k ≤ 12 → jsToLowerCase s ≠ monthKey k) →
      jsToLowerCase s ≠ "constructor" → jsToLowerCase s ≠ "__proto__" →
      queryMonthText (some s) = s) ∧
    (∀ s : String, jsToLowerCase s = "constructor" →
      queryMonthText (some s) = MonthValue.objectCtor.text) ∧
    (∀ s : String, jsToLowerCase s = "__proto__" →
      queryMonthText (some s) = "[object Object]") ∧
    queryMonthText none = "undefined" := by
  refine ⟨?_, ?_, ?_, ?_, by decide⟩
  rotate_left 2
  · intro s hs
    have hm : monthMap "constructor" = some .objectCtor := by decide
    simp only [queryMonthText, Option.map, optText, hs, hm]
  · intro s hs
    have hm : monthMap "__proto__" = some .objectProto := by decide
    simp only [queryMonthText, Option.map, optText, hs, hm]
    rfl
  · intro k s h1 h12 hs
    have hm := monthMap_of_name h1 h12
    simp only [queryMonthText, Option.map, optText, hs, monthKey, hm, MonthValue.text]
    interval_cases k <;> decide!
  · intro s hk hc hp
    have h : monthMap (jsToLowerCase s) = none := by
      have e1 := hk 1 (by decide) (by decide)
      have e2 := hk 2 (by decide) (by decide)
      have e3 := hk 3 (by decide) (by decide)
      have e4 := hk 4 (by decide) (by decide)
      have e5 := hk 5 (by decide) (by decide)
      have e6 := hk 6 (by decide) (by decide)
      have e7 := hk 7 (by decide) (by decide)
      have e8 := hk 8 (by decide) (by decide)
      have e9 := hk 9 (by decide) (by decide)
      have e10 := hk 10 (by decide) (by decide)
      have e11 := hk 11 (by decide) (by decide)
      have e12 := hk 12 (by decide) (by decide)
      have k1 : monthKey 1 = "january" := by decide
      have k2 : monthKey 2 = "february" := by decide
      have k3 : monthKey 3 = "march" := by decide
      have k4 : monthKey 4 = "april" := by decide
      have k5 : monthKey 5 = "may" := by decide
      have k6 : monthKey 6 = "june" := by decide
      have k7 : monthKey 7 = "july" := by decide
      have k8 : monthKey 8 = "august" := by decide
      have k9 : monthKey 9 = "september" := by decide
      have k10 : monthKey 10 = "october" := by decide
      have k11 : monthKey 11 = "november" := by decide
      have k12 : monthKey 12 = "december" := by decide
      rw [k1] at e1; rw [k2] at e2; rw [k3] at e3; rw [k4] at e4; rw [k5] at e5; rw [k6] at e6
      rw [k7] at e7; rw [k8] at e8; rw [k9] at e9; rw [k10] at e10; rw [k11] at e11
      rw [k12] at e12
      simp only [monthMap, e1, e2, e3, e4, e5, e6, e7, e8, e9, e10, e11, e12, hc, hp, if_false]
    simp only [queryMonthText, Option.map, optText, h]

/-- The month lookup at concrete inputs: `MARCH` becomes `3`, `December` becomes
`12`, and `13` and `Mars` pass through. -/
theorem month_in_query_normalised_witness :
    queryMonthText (some "MARCH") = "3" ∧ queryMonthText (some "December") = "12" ∧
      queryMonthText (some "13") = "13" ∧ queryMonthText (some "Mars") = "Mars" :=
  ⟨month_in_query_normalised.1 3 "MARCH" (by decide) (by decide) (by decide),
   month_in_query_normalised.1 12 "December" (by decide) (by decide) (by decide),
   month_in_query_normalised.2.1 "13"
     (fun k h1 h12 => by interval_cases k <;> decide) (by decide) (by decide),
   month_in_query_normalised.2.1 "Mars"
     (fun k h1 h12 => by interval_cases k <;> decide) (by decide) (by decide)⟩
/-! ## C16 -/

/-- C16: `callMidtermApi` returns at once, without building a request, when the
intent is not one of the four supported ones: for the intent `invalid` it returns
the fixed text "I couldn't understand your request", and for any other intent
value `x` (the word `undefined` when the line has none) it returns "Unsupported
intent: x"; in both cases the result is the same whatever the downstream call
would give and whatever the token is. -/
theorem unsupported_intent_short_circuits (axios : AxiosConfig → AxiosResult) (line : String)
    (token : Option String) :
    (fieldAt (intentPartsOf line) 0 = some "invalid" →
      prepareCall line token = .reply
        "⚠️ I couldn't understand your request. Please try again with a clear question." ∧
      callMidtermApi axios line token =
        "⚠️ I couldn't understand your request. Please try again with a clear question.") ∧
    (fieldAt (intentPartsOf line) 0 ≠ some "invalid" →
      fieldAt (intentPartsOf line) 0 ≠ some "query_bill" →
      fieldAt (intentPartsOf line) 0 ≠ some "query_bill_detailed" →
      fieldAt (intentPartsOf line) 0 ≠ some "make_payment" →
      fieldAt (intentPartsOf line) 0 ≠ some "bill_history" →
      prepareCall line token =
        .reply ("Unsupported intent: " ++ optText (fieldAt (intentPartsOf line) 0)) ∧
      callMidtermApi axios line token =
        "Unsupported intent: " ++ optText (fieldAt (intentPartsOf line) 0)) := by
  constructor
  · intro h
    have hp : prepareCall line token = .reply
        "⚠️ I couldn't understand your request. Please try again with a clear question." := by
      simp [prepareCall, h]
    exact ⟨hp, by simp only [callMidtermApi, hp]⟩
  · intro h0 h1 h2 h3 h4
    have hp : prepareCall line token =
        .reply ("Unsupported intent: " ++ optText (fieldAt (intentPartsOf line) 0)) := by
      simp only [prepareCall, h0, h1, h2, h3, h4, if_false]
    exact ⟨hp, by simp only [callMidtermApi, hp]⟩

/-- C16 at concrete inputs: an `invalid` line and a `cancel_plan` line, with a
downstream that would have answered and with one that would have failed. -/
theorem unsupported_intent_short_circuits_witness :
    callMidtermApi (fun _ => .fulfilled (.obj [("totalAmount", .num (.ofNat 45))]))
        "intent=invalid" (some "Bearer abc")
        = "⚠️ I couldn't understand your request. Please try again with a clear question." ∧
      callMidtermApi (fun _ => .rejected none) "intent=cancel_plan;subscriberNo=123" none
        = "Unsupported intent: cancel_plan" :=
  ⟨((unsupported_intent_short_circuits
      (fun _ => .fulfilled (.obj [("totalAmount", .num (.ofNat 45))]))
      "intent=invalid" (some "Bearer abc")).1 (by decide!)).2,
   (((unsupported_intent_short_circuits (fun _ => .rejected none)
      "intent=cancel_plan;subscriberNo=123" none).2
      (by decide!) (by decide!) (by decide!) (by decide!) (by decide!)).2).trans (by decide!)⟩

/-! ## C17 -/

/-- C17: for every reply of the language model (the string under `response` in
the data of its answer), `analyzeIntent` returns a string that starts with
`intent=`: the trimmed reply itself when that starts with `intent=`, and exactly
`intent=invalid` otherwise. -/
theorem analyzeIntent_starts_with_intent (post : String → JVal → AxiosResult)
    (userMessage : String) (data : JVal) (reply : String)
    (hpost : post "http://localhost:11434/api/generate"
      (.obj [("model", .str "mistral"), ("prompt", .str (intentPrompt userMessage)),
        ("stream", .bool false)]) = .fulfilled data)
    (hreply : data.prop "response" = some (.str reply)) :
    analyzeIntent post userMessage =
        .ok (if jsStartsWith (jsTrim reply) "intent=" then jsTrim reply else "intent=invalid") ∧
      jsStartsWith
        (if jsStartsWith (jsTrim reply) "intent=" then jsTrim reply else "intent=invalid")
        "intent=" = true := by
  constructor
  · simp only [analyzeIntent, hpost, getProp_of_prop hreply]
    cases jsStartsWith (jsTrim reply) "intent=" <;> rfl
  · cases h : jsStartsWith (jsTrim reply) "intent=" with
    | true => simpa using h
    | false => simp only [Bool.false_eq_true, if_false]; decide

/-- C17 at concrete inputs: a reply with surrounding white space that is an
intent line, and a reply that is prose. -/
theorem analyzeIntent_starts_with_intent_witness :
    analyzeIntent
        (fun _ _ => .fulfilled (.obj [("response", .str "  intent=bill_history;subscriberNo=123\n")]))
        "show my bills" = .ok "intent=bill_history;subscriberNo=123" ∧
      analyzeIntent
        (fun _ _ => .fulfilled (.obj [("response", .str "I am not sure what you mean.")]))
        "hello" = .ok "intent=invalid" :=
  ⟨((analyzeIntent_starts_with_intent
      (fun _ _ => .fulfilled (.obj [("response", .str "  intent=bill_history;subscriberNo=123\n")]))
      "show my bills" (.obj [("response", .str "  intent=bill_history;subscriberNo=123\n")])
      "  intent=bill_history;subscriberNo=123\n" rfl (by decide)).1).trans (by decide),
   ((analyzeIntent_starts_with_intent
      (fun _ _ => .fulfilled (.obj [("response", .str "I am not sure what you mean.")]))
      "hello" (.obj [("response", .str "I am not sure what you mean.")])
      "I am not sure what you mean." rfl (by decide)).1).trans (by decide)⟩
/-! ## Lemmas on the fields of an intent line -/

theorem splitOnChar_of_not_mem (sep : Char) : ∀ (l : List Char), sep ∉ l →
    splitOnChar sep l = [l]
  | [], _ => rfl
  | c :: r, h => by
    have hr : sep ∉ r := fun hm => h (List.mem_cons_of_mem c hm)
    have hc : c ≠ sep := fun he => h (he ▸ List.mem_cons_self c r)
    simp [splitOnChar, splitOnChar_of_not_mem sep r hr, hc]

theorem valueOfPart_month (v : String) (hv : '=' ∉ v.data) :
    valueOfPart ("month=" ++ v) = some v := by
  have hd : ("month=" ++ v).data = 'm' :: 'o' :: 'n' :: 't' :: 'h' :: '=' :: v.data := by
    rw [String.data_append]; rfl
  simp [valueOfPart, jsSplit, hd, splitOnChar, splitOnChar_of_not_mem '=' v.data hv]

theorem month_part_not_amount (v : String) : jsStartsWith ("month=" ++ v) "amount=" = false := by
  have hd : ("month=" ++ v).data = 'm' :: 'o' :: 'n' :: 't' :: 'h' :: '=' :: v.data := by
    rw [String.data_append]; rfl
  have ha : "amount=".data = 'a' :: 'm' :: 'o' :: 'u' :: 'n' :: 't' :: '=' :: [] := rfl
  simp only [jsStartsWith, hd, ha]
  rfl

theorem no_equals_of_month_name {k : Nat} (h1 : 1 ≤ k) (h12 : k ≤ 12) {s : String}
    (hs : jsToLowerCase s = monthKey k) : '=' ∉ s.data := by
  intro hm
  have hd : s.data.map Char.toLower = (monthKey k).data := by
    rw [← hs]; rfl
  have hmem : Char.toLower '=' ∈ (monthKey k).data := by
    rw [← hd]; exact List.mem_map_of_mem _ hm
  revert hmem
  interval_cases k <;> decide

theorem amountPaidNowOf_month_part (a b : String) (v w : String) (rest : List String) :
    amountPaidNowOf (a :: b :: ("month=" ++ v) :: rest) =
      amountPaidNowOf (a :: b :: ("month=" ++ w) :: rest) := by
  simp only [amountPaidNowOf, List.find?, month_part_not_amount]

/-! ## C18 -/

/-- C18: `generateUserFriendlyMessage` resolves a month name and its number
identically. For every `k` from 1 to 12, every text of a payload and every two
intent lines that differ only in their third part, `month=NAME` in one (the
English name of month `k` in any letter case) and `month=k` in the other (the
decimal numeral), the two outputs are equal; both lines get the label that is
the English name of month `k`, and the same due date, so `december` and `12`
give the label `December` and the same due date. -/
theorem month_name_and_numeral_agree (inherited : String → Option String)
    (line1 line2 raw : String) (k : Nat) (s a b : String) (rest : List String)
    (h1 : 1 ≤ k) (h12 : k ≤ 12) (hs : jsToLowerCase s = monthKey k)
    (hname : intentPartsOf line1 = a :: b :: ("month=" ++ s) :: rest)
    (hnum : intentPartsOf line2 = a :: b :: ("month=" ++ Nat.repr k) :: rest) :
    generateUserFriendlyMessage inherited line1 raw =
        generateUserFriendlyMessage inherited line2 raw ∧
      monthLabelOf (monthNumOf (fieldAt (intentPartsOf line1) 2)) (fieldAt (intentPartsOf line1) 2)
        = some (englishMonthName k) ∧
      monthLabelOf (monthNumOf (fieldAt (intentPartsOf line2) 2)) (fieldAt (intentPartsOf line2) 2)
        = some (englishMonthName k) ∧
      ∀ year, calculateDueDate (monthNumOf (fieldAt (intentPartsOf line1) 2)) year =
        calculateDueDate (monthNumOf (fieldAt (intentPartsOf line2) 2)) year := by
  have hv1 : valueOfPart ("month=" ++ s) = some s :=
    valueOfPart_month s (no_equals_of_month_name h1 h12 hs)
  have hv2 : valueOfPart ("month=" ++ Nat.repr k) = some (Nat.repr k) := by
    interval_cases k <;> decide
  have hf1 : fieldAt (intentPartsOf line1) 2 = some s := by
    rw [hname]; exact hv1
  have hf2 : fieldAt (intentPartsOf line2) 2 = some (Nat.repr k) := by
    rw [hnum]; exact hv2
  have hm1 : monthNumOf (some s) = .num (.ofNat k) := monthNumOf_recognised h1 h12 (Or.inl hs)
  have hm2 : monthNumOf (some (Nat.repr k)) = .num (.ofNat k) :=
    monthNumOf_recognised h1 h12 (Or.inr rfl)
  have e0 : fieldAt (intentPartsOf line1) 0 = fieldAt (intentPartsOf line2) 0 := by
    rw [hname, hnum]; rfl
  have e1 : fieldAt (intentPartsOf line1) 1 = fieldAt (intentPartsOf line2) 1 := by
    rw [hname, hnum]; rfl
  have e3 : fieldAt (intentPartsOf line1) 3 = fieldAt (intentPartsOf line2) 3 := by
    rw [hname, hnum]; rfl
  have ha : amountPaidNowOf (intentPartsOf line1) = amountPaidNowOf (intentPartsOf line2) := by
    rw [hname, hnum]; exact amountPaidNowOf_month_part a b s (Nat.repr k) rest
  refine ⟨?_, ?_, ?_, ?_⟩
  · simp only [generateUserFriendlyMessage, hf1, hf2, hm1, hm2, e0, e1, e3,
      monthLabelOf_ofNat h1 h12, queryBillDetailedMessage, makePaymentMessage, ha]
  · rw [hf1, hm1]; exact monthLabelOf_ofNat h1 h12 _
  · rw [hf2, hm2]; exact monthLabelOf_ofNat h1 h12 _
  · intro year
    rw [hf1, hf2, hm1, hm2]

/-- C18 at concrete inputs: `DECEMBER` and `12` in a `query_bill` line for 2024
give the same summary, with the label `December` and the due date `January 10,
2025`. -/
theorem month_name_and_numeral_agree_witness :
    generateUserFriendlyMessage noInherited
        "intent=query_bill;subscriberNo=123;month=DECEMBER;year=2024" "\x7b\"totalAmount\":45.5\x7d"
        = generateUserFriendlyMessage noInherited
        "intent=query_bill;subscriberNo=123;month=12;year=2024" "\x7b\"totalAmount\":45.5\x7d" ∧
      monthLabelOf (monthNumOf (some "12")) (some "12") = some "December" ∧
      calculateDueDate (monthNumOf (some "12")) (some "2024") = "January 10, 2025" :=
  ⟨(month_name_and_numeral_agree noInherited
      "intent=query_bill;subscriberNo=123;month=DECEMBER;year=2024"
      "intent=query_bill;subscriberNo=123;month=12;year=2024" "\x7b\"totalAmount\":45.5\x7d"
      12 "DECEMBER" "intent=query_bill" "subscriberNo=123" ["year=2024"]
      (by decide) (by decide) (by decide) (by decide) (by decide)).1,
   by decide!, by decide!⟩
/-! ## The formatter on payloads of the expected shape -/

theorem scalar_toText {v : JVal} (h : v.isScalar = true) : ∃ s, v.toText = .ok s := by
  cases v with
  | null => exact ⟨_, by rw [JVal.toText]⟩
  | bool b => exact ⟨_, by rw [JVal.toText]⟩
  | num n => exact ⟨_, by rw [JVal.toText]⟩
  | str s => exact ⟨_, by rw [JVal.toText]⟩
  | arr items => cases h
  | obj ms => cases h

theorem scalarField_valueText {v : Option JVal} (h : scalarField v = true) :
    ∃ s, valueText v = .ok s := by
  cases v with
  | none => exact ⟨_, rfl⟩
  | some w => exact scalar_toText h

theorem plainEntry_fields {item : JVal} (h : plainEntry item = true) :
    ∃ ms t, item = .obj ms ∧ lookupMember "totalAmount" ms = some (.num t) ∧
      scalarField (lookupMember "month" ms) = true ∧
      scalarField (lookupMember "year" ms) = true ∧
      scalarField (lookupMember "totalMb" ms) = true ∧
      scalarField (lookupMember "totalMinutes" ms) = true ∧
      (∀ s, lookupMember "subscriber" ms = some s →
        scalarField (s.prop "subscriberNo") = true) := by
  cases item with
  | obj ms =>
    simp only [plainEntry, Bool.and_eq_true] at h
    obtain ⟨⟨⟨⟨⟨ht, hm⟩, hy⟩, hmb⟩, hmin⟩, hsub⟩ := h
    cases hta : lookupMember "totalAmount" ms with
    | none => rw [hta] at ht; cases ht
    | some t =>
      cases t with
      | num n =>
        refine ⟨ms, n, rfl, hta, hm, hy, hmb, hmin, ?_⟩
        intro s hs
        rw [hs] at hsub
        exact hsub
      | null => rw [hta] at ht; cases ht
      | bool b => rw [hta] at ht; cases ht
      | str s => rw [hta] at ht; cases ht
      | arr xs => rw [hta] at ht; cases ht
      | obj xs => rw [hta] at ht; cases ht
  | null => cases h
  | bool b => cases h
  | num n => cases h
  | str s => cases h
  | arr xs => cases h

theorem detailMatches_plain (sub : Option String) (tm : MonthValue) (ty : JSNumber)
    {item : JVal} (h : plainEntry item = true) :
    ∃ b, detailMatches sub tm ty item = .ok b := by
  obtain ⟨ms, t, rfl, _, _, _, _, _, hsub⟩ := plainEntry_fields h
  have hget : getProp (.obj ms) "subscriber" = .ok (lookupMember "subscriber" ms) := rfl
  simp only [detailMatches, hget]
  cases hs : lookupMember "subscriber" ms with
  | none => exact ⟨_, rfl⟩
  | some s =>
    have hsc := hsub s hs
    cases s with
    | null => exact ⟨_, rfl⟩
    | bool b => exact ⟨_, rfl⟩
    | num n => exact ⟨_, rfl⟩
    | str x => exact ⟨_, rfl⟩
    | arr xs => exact ⟨_, rfl⟩
    | obj xs =>
      simp only [JVal.prop] at hsc ⊢
      cases hn : lookupMember "subscriberNo" xs with
      | none => exact ⟨_, rfl⟩
      | some n =>
        rw [hn] at hsc
        cases n with
        | null => exact ⟨_, rfl⟩
        | bool b => simp only [JVal.toText, Except.map]; exact ⟨_, rfl⟩
        | num m => simp only [JVal.toText, Except.map]; exact ⟨_, rfl⟩
        | str x => simp only [JVal.toText, Except.map]; exact ⟨_, rfl⟩
        | arr ys => cases hsc
        | obj ys => cases hsc

theorem findFirst_total {pred : JVal → Except JSError Bool} : ∀ (items : List JVal),
    (∀ x ∈ items, ∃ b, pred x = .ok b) →
    ∃ r, findFirst pred items = .ok r ∧ ∀ d, r = some d → d ∈ items
  | [], _ => ⟨none, rfl, fun d h => by cases h⟩
  | x :: rest, h => by
    obtain ⟨b, hb⟩ := h x (List.mem_cons_self x rest)
    cases b with
    | true =>
      refine ⟨some x, by rw [findFirst, hb], ?_⟩
      intro d hd
      cases hd
      exact List.mem_cons_self _ _
    | false =>
      obtain ⟨r, hr, hmem⟩ := findFirst_total rest (fun y hy => h y (List.mem_cons_of_mem x hy))
      refine ⟨r, by rw [findFirst, hb]; exact hr, ?_⟩
      intro d hd
      exact List.mem_cons_of_mem x (hmem d hd)

theorem mapLines_total {f : JVal → Except JSError String} : ∀ (items : List JVal),
    (∀ x ∈ items, ∃ s, f x = .ok s) → ∃ lines, mapLines f items = .ok lines
  | [], _ => ⟨[], rfl⟩
  | x :: rest, h => by
    obtain ⟨s, hs⟩ := h x (List.mem_cons_self x rest)
    obtain ⟨lines, hl⟩ := mapLines_total rest (fun y hy => h y (List.mem_cons_of_mem x hy))
    exact ⟨s :: lines, by rw [mapLines, hs, hl]⟩

theorem detailedBlock_plain (tm : MonthValue) (label year : Option String) {d : JVal}
    (h : plainEntry d = true) : ∃ s, detailedBlock d tm label year = .ok s := by
  obtain ⟨ms, t, rfl, ht, _, _, hmb, hmin, _⟩ := plainEntry_fields h
  obtain ⟨mb, hmb⟩ := scalarField_valueText hmb
  obtain ⟨minutes, hmin⟩ := scalarField_valueText hmin
  simp only [detailedBlock, JVal.prop, ht, hmb, hmin]
  exact ⟨_, rfl⟩

theorem historyLine_plain (inherited : String → Option String) {item : JVal}
    (h : plainEntry item = true) : ∃ s, historyLine inherited item = .ok s := by
  obtain ⟨ms, t, rfl, ht, hm, hy, _, _, _⟩ := plainEntry_fields h
  refine ⟨_, historyLine_ok inherited (by intro hn; cases hn) (scalarField_valueText hm)
    (scalarField_valueText hy) ?_⟩
  exact ⟨numToString t, by simp only [JVal.prop, ht, valueText, JVal.toText]⟩

theorem queryBillMessage_plain (sub label year : Option String) (due : String) {p : JVal}
    (h : plainPayload p = true) : ∃ s, queryBillMessage p sub label year due = .ok s := by
  unfold queryBillMessage
  split_ifs
  · exact ⟨_, rfl⟩
  · cases p with
    | null => cases h
    | bool b => exact ⟨_, rfl⟩
    | num n => exact ⟨_, rfl⟩
    | str s => exact ⟨_, rfl⟩
    | arr items => exact ⟨_, rfl⟩
    | obj ms =>
      simp only [plainPayload, Bool.and_eq_true] at h
      obtain ⟨⟨ht, _⟩, _⟩ := h
      simp only [JVal.prop]
      cases hta : lookupMember "totalAmount" ms with
      | none => exact ⟨_, rfl⟩
      | some t =>
        rw [hta] at ht
        cases t with
        | null => exact ⟨_, rfl⟩
        | num n => exact ⟨_, rfl⟩
        | bool b => cases ht
        | str s => cases ht
        | arr xs => cases ht
        | obj xs => cases ht

theorem orZero_numberField {v : Option JVal} (h : numberField v = true) :
    ∃ n, orZero v = .num n := by
  cases v with
  | none => exact ⟨_, rfl⟩
  | some w =>
    cases w with
    | null => exact ⟨_, rfl⟩
    | num n =>
      simp only [orZero]
      split_ifs
      · exact ⟨_, rfl⟩
      · exact ⟨_, rfl⟩
    | bool b => cases h
    | str s => cases h
    | arr xs => cases h
    | obj xs => cases h

theorem makePaymentMessage_plain (parts : List String) (sub label year : Option String)
    {p : JVal} (h : plainPayload p = true) :
    ∃ s, makePaymentMessage p parts sub label year = .ok s := by
  unfold makePaymentMessage
  split_ifs with hg
  · exact ⟨_, rfl⟩
  · cases p with
    | null => cases h
    | bool b => exact absurd (by simp [noUsableTotal, JVal.prop]) hg
    | num n => exact absurd (by simp [noUsableTotal, JVal.prop]) hg
    | str s => exact absurd (by simp [noUsableTotal, JVal.prop]) hg
    | arr items => exact absurd (by simp [noUsableTotal, JVal.prop]) hg
    | obj ms =>
      simp only [plainPayload, Bool.and_eq_true] at h
      obtain ⟨⟨ht, hpaid⟩, _⟩ := h
      obtain ⟨a, ha⟩ := orZero_numberField ht
      obtain ⟨b, hb⟩ := orZero_numberField hpaid
      simp only [JVal.prop, ha, hb]
      exact ⟨_, rfl⟩

theorem queryBillDetailedMessage_plain (sub month label year : Option String) {p : JVal}
    (h : plainPayload p = true) :
    ∃ s, queryBillDetailedMessage p sub month label year = .ok s := by
  cases p with
  | null => cases h
  | bool b => exact ⟨_, rfl⟩
  | num n => exact ⟨_, rfl⟩
  | str s => exact ⟨_, rfl⟩
  | arr items => exact ⟨_, rfl⟩
  | obj ms =>
    simp only [plainPayload, Bool.and_eq_true] at h
    obtain ⟨_, hcontent⟩ := h
    have hget : getProp (.obj ms) "content" = .ok (lookupMember "content" ms) := rfl
    simp only [queryBillDetailedMessage, hget]
    cases hc : lookupMember "content" ms with
    | none => exact ⟨_, rfl⟩
    | some c =>
      rw [hc] at hcontent
      cases c with
      | null => exact ⟨_, rfl⟩
      | bool b => exact ⟨_, rfl⟩
      | num n => exact ⟨_, rfl⟩
      | str s => exact ⟨_, rfl⟩
      | obj xs => exact ⟨_, rfl⟩
      | arr items =>
        have hall : ∀ x ∈ items, plainEntry x = true := by
          simpa [List.all_eq_true] using hcontent
        simp only []
        split_ifs
        · exact ⟨_, rfl⟩
        · obtain ⟨r, hr, hmem⟩ := @findFirst_total
            (detailMatches sub (monthNumOf month) (jsParseInt (optText year))) items
            (fun x hx => detailMatches_plain _ _ _ (hall x hx))
          rw [hr]
          cases r with
          | none => exact ⟨_, rfl⟩
          | some d =>
            simp only []
            split_ifs
            · exact ⟨_, rfl⟩
            · exact detailedBlock_plain _ _ _ (hall d (hmem d rfl))

theorem billHistoryMessage_items (inherited : String → Option String) (sub : Option String)
    (items : List JVal) (hall : ∀ x ∈ items, plainEntry x = true) :
    ∃ s, (if (!lengthTruthy (.arr items)) = true then
        (Except.ok ("No bill history found for subscriber " ++ optText sub ++ ".") :
          Except JSError String)
      else
        match mapLines (historyLine inherited) items with
        | .error e => .error e
        | .ok historyLines =>
          .ok ("Bill History for Subscriber " ++ optText sub ++ ":\n" ++
            String.intercalate "\n" historyLines)) = .ok s := by
  split_ifs
  · exact ⟨_, rfl⟩
  · obtain ⟨lines, hl⟩ := @mapLines_total (historyLine inherited) items
      (fun x hx => historyLine_plain inherited (hall x hx))
    rw [hl]
    exact ⟨_, rfl⟩

theorem billHistoryMessage_plain (inherited : String → Option String) (sub : Option String)
    {p : JVal} (h : plainPayload p = true) :
    ∃ s, billHistoryMessage inherited p sub = .ok s := by
  cases p with
  | null => cases h
  | bool b => exact ⟨_, rfl⟩
  | num n => exact ⟨_, rfl⟩
  | str s => exact ⟨_, rfl⟩
  | arr items =>
    have hall : ∀ x ∈ items, plainEntry x = true := by
      simpa [plainPayload, List.all_eq_true] using h
    simp only [billHistoryMessage]
    exact billHistoryMessage_items inherited sub items hall
  | obj ms =>
    simp only [plainPayload, Bool.and_eq_true] at h
    obtain ⟨_, hcontent⟩ := h
    have hget : getProp (.obj ms) "content" = .ok (lookupMember "content" ms) := rfl
    simp only [billHistoryMessage, hget]
    cases hc : lookupMember "content" ms with
    | none => exact ⟨_, rfl⟩
    | some c =>
      rw [hc] at hcontent
      cases c with
      | null => cases hcontent
      | bool b => cases hcontent
      | num n => cases hcontent
      | str s => cases hcontent
      | obj xs => cases hcontent
      | arr items =>
        have hall : ∀ x ∈ items, plainEntry x = true := by
          simpa [List.all_eq_true] using hcontent
        simp only [JVal.truthy, if_true]
        exact billHistoryMessage_items inherited sub items hall

/-! ## C19 -/

/-- C19 (as stated) fails: the function throws a `TypeError` for a `query_bill`
line when `totalAmount` is the string `45.5` (a string has no `toFixed`), and
for a `query_bill_detailed` line when the content list holds a `null` entry. -/
theorem formatter_throws_on_unexpected_shape :
    generateUserFriendlyMessage noInherited
        "intent=query_bill;subscriberNo=123;month=march;year=2024"
        "\x7b\"totalAmount\":\"45.5\"\x7d" = .error .typeError ∧
      generateUserFriendlyMessage noInherited
        "intent=query_bill_detailed;subscriberNo=123;month=march;year=2024"
        "\x7b\"content\":[null]\x7d" = .error .typeError := by
  decide!

/-- C19 (amended): `generateUserFriendlyMessage` returns a string, and does not
throw, for every intent line and every text that is not JSON or that parses to
a payload of the expected shape: a non-object value other than `null`, a list of
bill entries, or an object whose `totalAmount` and `paidAmount` are Numbers,
`null` or absent and whose `content` is absent or a list of bill entries, a bill
entry being an object with a Number `totalAmount` and with scalar `month`,
`year`, `totalMb`, `totalMinutes` and subscriber number where present. -/
theorem formatter_returns_on_plain_payloads (inherited : String → Option String)
    (line raw : String) (hshape : ∀ p, jsonParse raw = some p → plainPayload p = true) :
    ∃ s, generateUserFriendlyMessage inherited line raw = .ok s := by
  cases hparse : jsonParse raw with
  | none => exact ⟨raw, by simp only [generateUserFriendlyMessage, hparse]⟩
  | some p =>
    have hp := hshape p hparse
    simp only [generateUserFriendlyMessage, hparse]
    split_ifs
    · exact ⟨_, rfl⟩
    · exact queryBillMessage_plain _ _ _ _ hp
    · exact queryBillDetailedMessage_plain _ _ _ _ hp
    · exact makePaymentMessage_plain _ _ _ _ hp
    · exact billHistoryMessage_plain _ _ hp
    · exact ⟨_, rfl⟩

/-- C19 (amended) at concrete inputs: a `query_bill_detailed` line with a list
of one bill entry that does not match, and a `bill_history` line with the
payload `true`. -/
theorem formatter_returns_on_plain_payloads_witness :
    (∃ s, generateUserFriendlyMessage noInherited
        "intent=query_bill_detailed;subscriberNo=123;month=march;year=2024"
        "\x7b\"content\":[\x7b\"subscriber\":\x7b\"subscriberNo\":7\x7d,\"month\":3,\"year\":2024,\"totalAmount\":75\x7d]\x7d"
        = .ok s) ∧
      (∃ s, generateUserFriendlyMessage noInherited "intent=bill_history;subscriberNo=123" "true"
        = .ok s) :=
  ⟨formatter_returns_on_plain_payloads noInherited
      "intent=query_bill_detailed;subscriberNo=123;month=march;year=2024"
      "\x7b\"content\":[\x7b\"subscriber\":\x7b\"subscriberNo\":7\x7d,\"month\":3,\"year\":2024,\"totalAmount\":75\x7d]\x7d"
      (by
        have hp : jsonParse
            "\x7b\"content\":[\x7b\"subscriber\":\x7b\"subscriberNo\":7\x7d,\"month\":3,\"year\":2024,\"totalAmount\":75\x7d]\x7d"
            = some (.obj [("content", .arr [.obj [("subscriber", .obj [("subscriberNo", .num (.fin 7))]),
                ("month", .num (.fin 3)), ("year", .num (.fin 2024)),
                ("totalAmount", .num (.fin 75))]])]) := by decide!
        intro p h
        rw [hp] at h
        cases h
        decide),
   formatter_returns_on_plain_payloads noInherited "intent=bill_history;subscriberNo=123" "true"
      (by
        have hp : jsonParse "true" = some (.bool true) := by decide!
        intro p h
        rw [hp] at h
        cases h
        decide)⟩
/-! ## No reply of the formatter's branches is the fallback text -/

theorem head_append_left {a b : String} {c : Char} (h : a.data.head? = some c) :
    (a ++ b).data.head? = some c := by
  rw [String.data_append]
  cases ha : a.data with
  | nil => rw [ha] at h; cases h
  | cons x r => rw [ha] at h; simpa using h

theorem ne_fallback_of_head {s : String} (c : Char) (h : s.data.head? = some c)
    (hc : c ≠ 'S') :
    (Except.ok s : Except JSError String) ≠ .ok "Sorry, I could not process your request." := by
  intro he
  have hs : s = "Sorry, I could not process your request." := by
    injection he
  rw [hs] at h
  have h2 : ("Sorry, I could not process your request.".data.head?) = some 'S' := rfl
  rw [h2] at h
  exact hc (Option.some.inj h).symm

theorem error_ne_fallback (e : JSError) :
    (Except.error e : Except JSError String) ≠ .ok "Sorry, I could not process your request." :=
  fun h => by cases h

theorem noBillFound_head (sub label year : Option String) :
    (noBillFound sub label year).data.head? = some 'N' := by
  unfold noBillFound
  repeat apply head_append_left
  rfl

theorem queryBillMessage_ne_fallback (p : JVal) (sub label year : Option String)
    (due : String) :
    queryBillMessage p sub label year due ≠ .ok "Sorry, I could not process your request." := by
  have hb : ∀ amount, (billSummary sub label year amount due).data.head? = some 'B' := by
    intro amount
    unfold billSummary
    repeat apply head_append_left
    rfl
  unfold queryBillMessage
  split_ifs
  · exact ne_fallback_of_head 'N' (noBillFound_head _ _ _) (by decide)
  · split
    · exact ne_fallback_of_head 'B' (hb _) (by decide)
    · exact ne_fallback_of_head 'B' (hb _) (by decide)
    · exact ne_fallback_of_head 'B' (hb _) (by decide)
    · exact error_ne_fallback _

theorem detailedBlock_ne_fallback (d : JVal) (tm : MonthValue) (label year : Option String) :
    detailedBlock d tm label year ≠ .ok "Sorry, I could not process your request." := by
  have hb : ∀ a b c e f g, (billDetails label year a b c e f g).data.head? = some 'B' := by
    intro a b c e f g
    unfold billDetails
    repeat apply head_append_left
    rfl
  unfold detailedBlock
  split
  · simp only []
    split
    · exact ne_fallback_of_head 'B' (hb _ _ _ _ _ _) (by decide)
    · exact error_ne_fallback _
    · exact error_ne_fallback _
  · exact error_ne_fallback _

theorem queryBillDetailedMessage_ne_fallback (p : JVal) (sub month label year : Option String) :
    queryBillDetailedMessage p sub month label year
      ≠ .ok "Sorry, I could not process your request." := by
  have hn := ne_fallback_of_head 'N' (noBillFound_head sub label year) (by decide)
  unfold queryBillDetailedMessage
  simp only []
  split
  · exact error_ne_fallback _
  · split_ifs
    · exact hn
    · split
      · exact error_ne_fallback _
      · exact hn
      · split_ifs
        · exact hn
        · exact detailedBlock_ne_fallback _ _ _ _
  · exact hn

theorem makePaymentMessage_ne_fallback (p : JVal) (parts : List String)
    (sub label year : Option String) :
    makePaymentMessage p parts sub label year
      ≠ .ok "Sorry, I could not process your request." := by
  have hb : ∀ a b c e f, (paymentSummary sub label year a b c e f).data.head? = some '✅' := by
    intro a b c e f
    unfold paymentSummary
    repeat apply head_append_left
    rfl
  unfold makePaymentMessage
  split_ifs
  · exact ne_fallback_of_head 'N' (head_append_left (noBillFound_head _ _ _)) (by decide)
  · simp only []
    split
    · exact ne_fallback_of_head '✅' (hb _ _ _ _ _) (by decide)
    · exact error_ne_fallback _

theorem billHistoryMessage_ne_fallback (inherited : String → Option String) (p : JVal)
    (sub : Option String) :
    billHistoryMessage inherited p sub ≠ .ok "Sorry, I could not process your request." := by
  unfold billHistoryMessage
  simp only []
  split
  · exact error_ne_fallback _
  · split_ifs
    · refine ne_fallback_of_head 'N' ?_ (by decide)
      repeat apply head_append_left
      rfl
    · split
      · split
        · exact error_ne_fallback _
        · refine ne_fallback_of_head 'B' ?_ (by decide)
          repeat apply head_append_left
          rfl
      · exact error_ne_fallback _

theorem supported_intent_ne_fallback (inherited : String → Option String) (line raw : String)
    (p : JVal) (hparse : jsonParse raw = some p)
    (hintent : fieldAt (intentPartsOf line) 0 = some "query_bill" ∨
      fieldAt (intentPartsOf line) 0 = some "query_bill_detailed" ∨
      fieldAt (intentPartsOf line) 0 = some "make_payment" ∨
      fieldAt (intentPartsOf line) 0 = some "bill_history") :
    generateUserFriendlyMessage inherited line raw
      ≠ .ok "Sorry, I could not process your request." := by
  rcases hintent with h | h | h | h
  · simp only [generateUserFriendlyMessage, hparse, h]
    simpa using queryBillMessage_ne_fallback _ _ _ _ _
  · simp only [generateUserFriendlyMessage, hparse, h]
    simpa using queryBillDetailedMessage_ne_fallback _ _ _ _ _
  · simp only [generateUserFriendlyMessage, hparse, h]
    simpa using makePaymentMessage_ne_fallback _ _ _ _ _
  · simp only [generateUserFriendlyMessage, hparse, h]
    simpa using billHistoryMessage_ne_fallback _ _ _
/-! ## The first character of `JSON.stringify` -/

theorem digit_ne_capital_S {c : Char} (h : isDecDigit c = true) : c ≠ 'S' := by
  rintro rfl
  revert h
  decide

theorem nat_repr_head (n : Nat) :
    ∃ c, (Nat.repr n).data.head? = some c ∧ c ≠ 'S' := by
  obtain ⟨hne, hall, _⟩ := toDigits_spec n
  obtain ⟨d, rest, hd⟩ := List.exists_cons_of_ne_nil hne
  refine ⟨d, ?_, digit_ne_capital_S (hall d (by rw [hd]; exact List.mem_cons_self _ _))⟩
  show (Nat.toDigits 10 n).head? = some d
  rw [hd]
  rfl

theorem formatDigits_head (d : Char) (rest : List Char) (n : Int) (hd : d ≠ 'S') :
    ∃ c, (formatDigits (d :: rest) n).data.head? = some c ∧ c ≠ 'S' := by
  unfold formatDigits
  simp only []
  split_ifs
  · exact ⟨d, rfl, hd⟩
  · cases n.toNat with
    | zero => exact ⟨'.', rfl, by decide⟩
    | succ m => exact ⟨d, rfl, hd⟩
  · exact ⟨'0', rfl, by decide⟩
  all_goals
    cases rest with
    | nil => exact ⟨d, head_append_left (head_append_left rfl), hd⟩
    | cons e r => exact ⟨d, head_append_left (head_append_left rfl), hd⟩

theorem posToString_head (a : ℚ) :
    ∃ c, (posToString a).data.head? = some c ∧ c ≠ 'S' := by
  unfold posToString
  split_ifs
  · exact nat_repr_head _
  · obtain ⟨hne, hall, _⟩ := toDigits_spec (shortestDigits a).1
    obtain ⟨d, rest, hd⟩ := List.exists_cons_of_ne_nil hne
    simp only [hd]
    exact formatDigits_head d rest _
      (digit_ne_capital_S (hall d (by rw [hd]; exact List.mem_cons_self _ _)))

theorem jsonStringify_head (v : JVal) :
    ∃ c, (jsonStringify v).data.head? = some c ∧ c ≠ 'S' := by
  cases v with
  | null => exact ⟨'n', by rw [jsonStringify]; rfl, by decide⟩
  | bool b => cases b
              · exact ⟨'f', by rw [jsonStringify]; rfl, by decide⟩
              · exact ⟨'t', by rw [jsonStringify]; rfl, by decide⟩
  | num n =>
    cases n with
    | nan => exact ⟨'n', by decide, by decide⟩
    | posInf => exact ⟨'n', by decide, by decide⟩
    | negInf => exact ⟨'n', by decide, by decide⟩
    | fin q =>
      rw [jsonStringify]
      simp only [numToString]
      split_ifs
      · exact ⟨'0', rfl, by decide⟩
      · exact ⟨'-', head_append_left rfl, by decide⟩
      · exact posToString_head q
  | str s => exact ⟨'"', by rw [jsonStringify]; rfl, by decide⟩
  | arr items =>
    exact ⟨'[', by rw [jsonStringify]; exact head_append_left (head_append_left rfl), by decide⟩
  | obj ms =>
    exact ⟨'\x7b', by rw [jsonStringify]; exact head_append_left (head_append_left rfl),
      by decide⟩

theorem callMidtermApi_of_supported (axios : AxiosConfig → AxiosResult) (line : String)
    (token : Option String)
    (hintent : fieldAt (intentPartsOf line) 0 = some "query_bill" ∨
      fieldAt (intentPartsOf line) 0 = some "query_bill_detailed" ∨
      fieldAt (intentPartsOf line) 0 = some "make_payment" ∨
      fieldAt (intentPartsOf line) 0 = some "bill_history") :
    ∃ v, callMidtermApi axios line token = jsonStringify v := by
  cases hp : prepareCall line token with
  | reply text =>
    exfalso
    rcases hintent with h | h | h | h <;> simp [prepareCall, h] at hp
  | call config =>
    simp only [callMidtermApi, hp]
    cases axios config with
    | fulfilled data => exact ⟨data, rfl⟩
    | rejected status =>
      cases status with
      | none => exact ⟨_, rfl⟩
      | some s => simp only [ite_self]; exact ⟨_, rfl⟩

/-! ## C20 -/

/-- C20: in the `/chat` pipeline, where `generateUserFriendlyMessage` is applied
to the text `callMidtermApi` returned for the same intent line, an intent value
`x` that is none of `query_bill`, `query_bill_detailed`, `make_payment`,
`bill_history`, `invalid` always gives the reply "Unsupported intent: x" (the
text of the client is not JSON and comes back raw); and for no intent line, no
downstream answer and no token is the formatter's fallback "Sorry, I could not
process your request." the reply of the pipeline. -/
theorem pipeline_unsupported_intent_reply (inherited : String → Option String)
    (axios : AxiosConfig → AxiosResult) (line : String) (token : Option String) :
    (fieldAt (intentPartsOf line) 0 ≠ some "invalid" →
      fieldAt (intentPartsOf line) 0 ≠ some "query_bill" →
      fieldAt (intentPartsOf line) 0 ≠ some "query_bill_detailed" →
      fieldAt (intentPartsOf line) 0 ≠ some "make_payment" →
      fieldAt (intentPartsOf line) 0 ≠ some "bill_history" →
      formattedResponseOf inherited axios line token =
        .ok ("Unsupported intent: " ++ optText (fieldAt (intentPartsOf line) 0))) ∧
    formattedResponseOf inherited axios line token
      ≠ .ok "Sorry, I could not process your request." := by
  have hunsupported : fieldAt (intentPartsOf line) 0 ≠ some "invalid" →
      fieldAt (intentPartsOf line) 0 ≠ some "query_bill" →
      fieldAt (intentPartsOf line) 0 ≠ some "query_bill_detailed" →
      fieldAt (intentPartsOf line) 0 ≠ some "make_payment" →
      fieldAt (intentPartsOf line) 0 ≠ some "bill_history" →
      formattedResponseOf inherited axios line token =
        .ok ("Unsupported intent: " ++ optText (fieldAt (intentPartsOf line) 0)) := by
    intro h0 h1 h2 h3 h4
    have hp : prepareCall line token =
        .reply ("Unsupported intent: " ++ optText (fieldAt (intentPartsOf line) 0)) := by
      simp only [prepareCall, h0, h1, h2, h3, h4, if_false]
    have hc : callMidtermApi axios line token =
        "Unsupported intent: " ++ optText (fieldAt (intentPartsOf line) 0) := by
      simp only [callMidtermApi, hp]
    simp only [formattedResponseOf, hc, generateUserFriendlyMessage, jsonParse_unsupported]
  refine ⟨hunsupported, ?_⟩
  by_cases h0 : fieldAt (intentPartsOf line) 0 = some "invalid"
  · have hp : prepareCall line token = .reply
        "⚠️ I couldn't understand your request. Please try again with a clear question." := by
      simp [prepareCall, h0]
    have hparse : jsonParse
        "⚠️ I couldn't understand your request. Please try again with a clear question."
        = none := by decide!
    simp only [formattedResponseOf, callMidtermApi, hp, generateUserFriendlyMessage, hparse]
    decide
  · by_cases hs : fieldAt (intentPartsOf line) 0 = some "query_bill" ∨
        fieldAt (intentPartsOf line) 0 = some "query_bill_detailed" ∨
        fieldAt (intentPartsOf line) 0 = some "make_payment" ∨
        fieldAt (intentPartsOf line) 0 = some "bill_history"
    · obtain ⟨v, hv⟩ := callMidtermApi_of_supported axios line token hs
      cases hparse : jsonParse (jsonStringify v) with
      | some p =>
        simp only [formattedResponseOf, hv]
        exact supported_intent_ne_fallback inherited line _ p hparse hs
      | none =>
        obtain ⟨c, hc, hne⟩ := jsonStringify_head v
        simp only [formattedResponseOf, hv, generateUserFriendlyMessage, hparse]
        exact ne_fallback_of_head c hc hne
    · have hs1 : fieldAt (intentPartsOf line) 0 ≠ some "query_bill" := fun h => hs (Or.inl h)
      have hs2 : fieldAt (intentPartsOf line) 0 ≠ some "query_bill_detailed" :=
        fun h => hs (Or.inr (Or.inl h))
      have hs3 : fieldAt (intentPartsOf line) 0 ≠ some "make_payment" :=
        fun h => hs (Or.inr (Or.inr (Or.inl h)))
      have hs4 : fieldAt (intentPartsOf line) 0 ≠ some "bill_history" :=
        fun h => hs (Or.inr (Or.inr (Or.inr h)))
      rw [hunsupported h0 hs1 hs2 hs3 hs4]
      exact ne_fallback_of_head 'U' (head_append_left rfl) (by decide)

/-- C20 at concrete inputs: the line `intent=cancel_plan;subscriberNo=123` gives
"Unsupported intent: cancel_plan" whether the downstream would answer or fail,
while the formatter alone, given a JSON payload, gives the fallback for that
line. -/
theorem pipeline_unsupported_intent_reply_witness :
    formattedResponseOf noInherited (fun _ => .fulfilled (.obj []))
        "intent=cancel_plan;subscriberNo=123" (some "Bearer abc")
        = .ok "Unsupported intent: cancel_plan" ∧
      formattedResponseOf noInherited (fun _ => .rejected none)
        "intent=cancel_plan;subscriberNo=123" none
        = .ok "Unsupported intent: cancel_plan" ∧
      generateUserFriendlyMessage noInherited "intent=cancel_plan;subscriberNo=123" "\x7b\x7d"
        = .ok "Sorry, I could not process your request." :=
  ⟨((pipeline_unsupported_intent_reply noInherited (fun _ => .fulfilled (.obj []))
      "intent=cancel_plan;subscriberNo=123" (some "Bearer abc")).1
      (by decide!) (by decide!) (by decide!) (by decide!) (by decide!)).trans (by decide!),
   ((pipeline_unsupported_intent_reply noInherited (fun _ => .rejected none)
      "intent=cancel_plan;subscriberNo=123" none).1
      (by decide!) (by decide!) (by decide!) (by decide!) (by decide!)).trans (by decide!),
   by decide!⟩
end Gateway
